import Mathlib

/-! The xgettext Glade / GtkBuilder / GSettings backends

A shallow embedding of `gettext-tools/src/x-glade.c` and
`gettext-tools/src/x-gsettings.c`.

* A C string is the `String` of its chars before the terminating NUL; `strcmp (a, b) == 0`
  is equality of the two strings.
* The static variables of each file are the fields of one `state` record that every
  handler takes and returns.
* expat is outside the files: the events it delivers are the `xml_event`s, and the value of
  `XML_GetCurrentLineNumber (parser)` during a start-tag callback travels with the event.
* The message sink (`remember_a_message`, the `arglist_parser_*` calls) is outside the files
  as well: `mlp` is the list of the records handed to it, oldest first.
* `size_t` counters are natural numbers: every level of the stack owns a slot in memory, so
  depths and lengths stay far below `2 ^ 64`; only `keyword_len`, which subtracts, wraps.
-/

/-! ## Collaborators shared by the two files -/

/-- Modelled from the spec: the hash table of `hash.h`, which is not among the sources, is
"consumed as a simple name→extractable set"; an initialised table is the list of its keys
in insertion order. A table whose `table` member is `NULL` is `none` at the place of use. -/
abbrev hash_table := List String

/-- Modelled from the spec: `hash_init` gives the empty set of names. -/
def hash_init : hash_table := []

/-- Modelled from the spec: `hash_insert_entry` adds a name to the set; a name already
present is refused and the set is left as it was. -/
def hash_insert_entry (htab : hash_table) (key : String) : hash_table :=
  if key ∈ htab then htab else htab ++ [key]

/-- Modelled from the spec: `hash_find_entry` returns 0 when the name is in the set and -1
when it is not. -/
def hash_find_entry (htab : hash_table) (key : String) : Int :=
  if key ∈ htab then 0 else -1

/-- The `struct callshape` members the backends fill in. -/
structure callshape where
  argnum1 : Nat
  argnum2 : Nat
  argnumc : Nat
  argnum1_glib_context : Bool
  argnum2_glib_context : Bool
  argtotal : Nat
  xcomments : List String
deriving DecidableEq, Repr

/-- The `struct callshapes` descriptor with its single shape `shapes[0]`. -/
structure callshapes where
  keyword : String
  keyword_len : Nat
  nshapes : Nat
  shapes0 : callshape
deriving DecidableEq, Repr

/-- One record handed to the message sink. `shapes` is the descriptor given to
`arglist_parser_alloc` (`none` for a direct `remember_a_message`), `msgid` the string
remembered as argument `MSGID_ARGNUM`, `msgctxt` the string remembered as argument
`MSGCTXT_ARGNUM` (or the `msgctxt` argument of `remember_a_message`), `xcomment` the
attribute comment appended to `xcomments`, `comment` the pending comment lines
(`savable_comment`) at the time of the call. -/
structure message where
  shapes : Option callshapes
  msgid : String
  msgctxt : Option String
  xcomment : Option String
  lineno : Nat
  comment : List String
deriving DecidableEq, Repr

/-- The events delivered by expat. -/
inductive xml_event where
  | start_element (name : String) (attributes : List (String × String)) (line : Nat)
  | end_element (name : String)
  | character_data (s : String)
  | comment (data : String)
deriving DecidableEq, Repr

/-- Well-formed element content: character data, comments and properly nested elements. -/
inductive balanced : List xml_event → Prop where
  | nil : balanced []
  | character_data (s : String) {rest : List xml_event} :
      balanced rest → balanced (xml_event.character_data s :: rest)
  | comment (data : String) {rest : List xml_event} :
      balanced rest → balanced (xml_event.comment data :: rest)
  | element (name : String) (attributes : List (String × String)) (line : Nat)
      {body rest : List xml_event} :
      balanced body → balanced rest →
      balanced (xml_event.start_element name attributes line
        :: (body ++ xml_event.end_element name :: rest))

/-- `#define DONE_ARGNUM 0` -/
def DONE_ARGNUM : Nat := 0

/-- `#define MSGID_ARGNUM 1` -/
def MSGID_ARGNUM : Nat := 1

/-- `#define MSGCTXT_ARGNUM 2` -/
def MSGCTXT_ARGNUM : Nat := 2

/-- The value of `strlen (tag) - 1` in `size_t` arithmetic. -/
def keyword_len_of (tag : String) : Nat :=
  (tag.length + (2 ^ 64 - 1)) % 2 ^ 64

/-- The test `c == ' ' || c == '\t'` of `comment_handler`. -/
def is_blank (c : Char) : Bool :=
  c == ' ' || c == '\t'

/-- The loop `while (p[0] == ' ' || p[0] == '\t') p++;` on the chars from `p` on. -/
def skip_blanks : List Char → List Char
  | [] => []
  | c :: cs => if is_blank c then skip_blanks cs else c :: cs

/-- The number of steps of `while (q > p && (q[-1] == ' ' || q[-1] == '\t')) q--;` where
the argument holds the chars between `p` and `q`. -/
def trailing_blanks (l : List Char) : Nat :=
  (l.reverse.takeWhile is_blank).length

/-- The loops of `comment_handler` on the chars from `p` on: the lines given to
`savable_comment_add`, in order. In the `for` loop `q` is the first newline; after the two
trimming loops the line between `p` and `q` is added, and the next round starts at `q + 1`
for the `q` the trimming left, which is the char after the newline only when no trailing
blank was removed. Each round moves `p` forward, so `fuel` above the length suffices. -/
def comment_lines : Nat → List Char → List String
  | 0, _ => []
  | fuel + 1, p =>
    if p.contains '\n' then
      let line := skip_blanks (p.takeWhile (fun c => c != '\n'))
      let after := (p.dropWhile (fun c => c != '\n')).drop 1
      let t := trailing_blanks line
      let kept := line.take (line.length - t)
      let next := if t = 0 then after else line.drop (line.length - t + 1) ++ '\n' :: after
      String.mk kept :: comment_lines fuel next
    else
      let line := skip_blanks p
      [String.mk (line.take (line.length - trailing_blanks line))]

/-- The char `str[i]` of a C string, for `i` up to its length: the terminating NUL when `i`
is the length. -/
def c_index (str : String) (i : Nat) : Char :=
  str.data.getD i (Char.ofNat 0)

/-- The double quote, `'"'` in the source. -/
def dquote : Char := Char.ofNat 34

/-- The single quote, `'\''` in the source. -/
def squote : Char := Char.ofNat 39

/-- `ensure_stack_size` (the same in both files): the new `stack_size`. -/
def ensure_stack_size (stack_size size : Nat) : Nat :=
  if size > stack_size then
    let stack_size := 2 * stack_size
    if stack_size < size then size else stack_size
  else stack_size

/-- Writing one slot of the stack array. -/
def set_slot {α : Type} (stack : Nat → α) (i : Nat) (v : α) : Nat → α :=
  fun j => if j = i then v else stack j

/-- The pieces of a text between its newlines: the wording of the comment normalizer,
"split on each line boundary". -/
def split_at_newlines : List Char → List (List Char)
  | [] => [[]]
  | c :: cs =>
    if c = '\n' then [] :: split_at_newlines cs
    else
      match split_at_newlines cs with
      | l :: ls => (c :: l) :: ls
      | [] => [[c]]

/-- A piece without its leading and trailing spaces and tabs: the wording of the comment
normalizer, "trim leading/trailing spaces and tabs". -/
def trim_blanks (l : List Char) : List Char :=
  ((l.dropWhile is_blank).reverse.dropWhile is_blank).reverse

/-- The lines the comment normalizer is specified to forward for a comment text: every
piece between newlines, trimmed, in order. -/
def normalized_lines (d : String) : List String :=
  (split_at_newlines d.data).map (fun l => String.mk (trim_blanks l))

/-- The character data of a sequence of events: the texts of its character-data events, in
order. -/
def character_data_of : List xml_event → String
  | [] => ""
  | xml_event.character_data s :: evs => s ++ character_data_of evs
  | _ :: evs => character_data_of evs

/-- Content of a leaf element: character data and comments, no child element. -/
def leaf_content : List xml_event → Bool
  | [] => true
  | xml_event.character_data _ :: evs => leaf_content evs
  | xml_event.comment _ :: evs => leaf_content evs
  | _ :: _ => false

/-- The character data delivered so far for each element that was opened by the events and
is still open, innermost first, after one more event: a start-tag opens an element with no
character data yet, character data is appended to that of the innermost open element, an
end-tag closes the innermost open element. -/
def delivered_text (texts : List String) : xml_event → List String
  | xml_event.start_element _ _ _ => "" :: texts
  | xml_event.end_element _ => texts.tail
  | xml_event.character_data s =>
    match texts with
    | [] => []
    | t :: ts => (t ++ s) :: ts
  | xml_event.comment _ => texts

/-- Every end-tag of the events closes an element opened before it, `n` elements being open
at the start. -/
def nested : Nat → List xml_event → Bool
  | _, [] => true
  | n, xml_event.start_element _ _ _ :: evs => nested (n + 1) evs
  | 0, xml_event.end_element _ :: _ => false
  | n + 1, xml_event.end_element _ :: evs => nested n evs
  | n, xml_event.character_data _ :: evs => nested n evs
  | n, xml_event.comment _ :: evs => nested n evs

/-! ## x-gsettings.c -/

namespace x_gsettings

/-- `struct element_state` of x-gsettings.c. `buffer` is `none` for a `NULL` pointer and
otherwise holds the `buflen` chars stored so far. -/
structure element_state where
  extract_string : Bool
  extracted_context : Option String
  extracted_comment : Option String
  lineno : Nat
  buffer : Option String
  bufmax : Nat
  buflen : Nat
deriving DecidableEq, Repr

/-- The static variables of x-gsettings.c, with the sink `mlp` and the pending comment
lines `savable_comment`. `keywords` is `none` while `keywords.table == NULL`. -/
structure state where
  extract_all : Bool
  keywords : Option hash_table
  default_keywords : Bool
  mlp : List message
  stack : Nat → element_state
  stack_size : Nat
  stack_depth : Nat
  savable_comment : List String

/-- The variables as the program starts: static storage is zeroed, `extract_all` is
`false` and `default_keywords` is `true`. -/
def process_start : state :=
  { extract_all := false
    keywords := none
    default_keywords := true
    mlp := []
    stack := fun _ =>
      { extract_string := false, extracted_context := none, extracted_comment := none,
        lineno := 0, buffer := none, bufmax := 0, buflen := 0 }
    stack_size := 0
    stack_depth := 0
    savable_comment := [] }

/-- `x_gsettings_extract_all` -/
def x_gsettings_extract_all (g : state) : state :=
  { g with extract_all := true }

/-- `x_gsettings_keyword`; `name` is `none` for `NULL`. -/
def x_gsettings_keyword (g : state) (name : Option String) : state :=
  match name with
  | none => { g with default_keywords := false }
  | some name =>
    let keywords := match g.keywords with
      | none => hash_init
      | some t => t
    { g with keywords := some (hash_insert_entry keywords name) }

/-- `init_keywords` of x-gsettings.c -/
def init_keywords (g : state) : state :=
  if g.default_keywords then
    x_gsettings_keyword
      (x_gsettings_keyword (x_gsettings_keyword g (some "description")) (some "summary"))
      (some "default")
  else g

/-- `is_tag` of x-gsettings.c -/
def is_tag (g : state) (name : String) : Bool :=
  match g.keywords with
  | some t => hash_find_entry t name == 0
  | none => false

/-- `get_shapes` of x-gsettings.c -/
def get_shapes (tag : String) (has_context : Bool) : callshapes :=
  { keyword := tag
    keyword_len := keyword_len_of tag
    nshapes := 1
    shapes0 :=
      { argnum1 := MSGID_ARGNUM
        argnum2 := 0
        argnumc := if has_context then MSGCTXT_ARGNUM else 0
        argnum1_glib_context := false
        argnum2_glib_context := false
        argtotal := 0
        xcomments := [] } }

/-- `store_message` of x-gsettings.c: the state `*p` afterwards and the record handed to
the sink. -/
def store_message (g : state) (p : element_state) (shapes : callshapes) :
    element_state × message :=
  ({ p with buffer := none, extracted_context := none },
   { shapes := some shapes
     msgid := p.buffer.getD ""
     msgctxt := p.extracted_context
     xcomment := p.extracted_comment
     lineno := p.lineno
     comment := g.savable_comment })

/-- The three locals `extracted_l10n`, `extracted_comment`, `extracted_context` of
`start_element_handler`. -/
structure attribute_values where
  extracted_l10n : Option String
  extracted_comment : Option String
  extracted_context : Option String
deriving DecidableEq, Repr

/-- The `while (*attp != NULL)` loop of `start_element_handler`. -/
def scan_attributes : List (String × String) → attribute_values → attribute_values
  | [], a => a
  | (k, v) :: rest, a =>
    if k = "comments" then scan_attributes rest { a with extracted_comment := some v }
    else if k = "context" then scan_attributes rest { a with extracted_context := some v }
    else if k = "l10n" then scan_attributes rest { a with extracted_l10n := some v }
    else scan_attributes rest a

/-- The state `*p` that `start_element_handler` leaves in the new slot. -/
def new_element_state (g : state) (name : String) (attributes : List (String × String))
    (line : Nat) : element_state :=
  let p : element_state :=
    { extract_string := g.extract_all
      extracted_comment := none
      extracted_context := none
      lineno := line
      buffer := none
      bufmax := 0
      buflen := 0 }
  let p := if !p.extract_string then { p with extract_string := is_tag g name } else p
  if p.extract_string then
    let a := scan_attributes attributes
      { extracted_l10n := none, extracted_comment := none, extracted_context := none }
    let p :=
      if name = "default" ∧ (a.extracted_l10n = none ∨ a.extracted_l10n = some "time") then
        { p with extract_string := false }
      else p
    { p with extracted_comment := a.extracted_comment,
             extracted_context := a.extracted_context }
  else p

/-- `start_element_handler` of x-gsettings.c -/
def start_element_handler (g : state) (name : String)
    (attributes : List (String × String)) (line : Nat) : state :=
  let stack_depth := g.stack_depth + 1
  let stack_size := ensure_stack_size g.stack_size (stack_depth + 1)
  let stack := set_slot g.stack (stack_depth - 1)
    { g.stack (stack_depth - 1) with extract_string := false }
  let p := new_element_state g name attributes line
  { g with
    stack_depth := stack_depth
    stack_size := stack_size
    stack := set_slot stack stack_depth p
    savable_comment := if !p.extract_string then [] else g.savable_comment }

/-- `extract_quotation_marks`: the string the returned pointer designates. When the test
succeeds it is the copy of `str + 1` cut by the NUL written at index `last - 1`. -/
def extract_quotation_marks (str : String) (last : Nat) : String :=
  if last > 0 then
    if (c_index str 0 = dquote ∧ c_index str last = dquote)
        ∨ (c_index str 0 = squote ∧ c_index str last = squote) then
      String.mk ((str.data.drop 1).take (last - 1))
    else str
  else str

/-- `end_element_handler` of x-gsettings.c. The popped slot keeps what the handler left in
it. -/
def end_element_handler (g : state) (name : String) : state :=
  let p := g.stack g.stack_depth
  let r : element_state × List message :=
    if p.extract_string then
      if p.buflen > 0 then
        let p :=
          if name = "default" then
            { p with buffer := some (extract_quotation_marks (p.buffer.getD "") p.buflen) }
          else p
        let sm := store_message g p (get_shapes name (p.extracted_context != none))
        (sm.1, [sm.2])
      else (p, [])
    else (p, [])
  { g with
    stack := set_slot g.stack g.stack_depth r.1
    mlp := g.mlp ++ r.2
    stack_depth := g.stack_depth - 1
    savable_comment := [] }

/-- `character_data_handler` of x-gsettings.c; `len` is the length of `s`. -/
def character_data_handler (g : state) (s : String) : state :=
  let p := g.stack g.stack_depth
  let len := s.length
  if len > 0 then
    let bufmax :=
      if p.buflen + len > p.bufmax then
        let bufmax := 2 * p.bufmax
        if bufmax < p.buflen + len then p.buflen + len else bufmax
      else p.bufmax
    let p := { p with bufmax := bufmax, buffer := some (p.buffer.getD "" ++ s),
                      buflen := p.buflen + len }
    { g with stack := set_slot g.stack g.stack_depth p }
  else g

/-- `comment_handler` of x-gsettings.c -/
def comment_handler (g : state) (data : String) : state :=
  { g with savable_comment := g.savable_comment ++ comment_lines (data.length + 1) data.data }

/-- The callback expat calls for one event. -/
def handle_event (g : state) : xml_event → state
  | xml_event.start_element name attributes line => start_element_handler g name attributes line
  | xml_event.end_element name => end_element_handler g name
  | xml_event.character_data s => character_data_handler g s
  | xml_event.comment data => comment_handler g data

/-- The callbacks of a sequence of events, in order. -/
def run (g : state) (events : List xml_event) : state :=
  events.foldl handle_event g

/-- `do_extract_gsettings` on the events of the file; `mdlp` is the message list of the
caller. -/
def do_extract_gsettings (g : state) (mdlp : List message) (events : List xml_event) : state :=
  run { (init_keywords { g with mlp := mdlp }) with stack_depth := 0 } events

end x_gsettings

/-! ## x-glade.c -/

namespace x_glade

/-- `struct element_state` of x-glade.c. `buffer` is `none` for a `NULL` pointer and
otherwise holds the `buflen` chars stored so far. -/
structure element_state where
  extract_string : Bool
  extract_context : Bool
  extracted_context : Option String
  extracted_comment : Option String
  lineno : Nat
  buffer : Option String
  bufmax : Nat
  buflen : Nat
deriving DecidableEq, Repr

/-- The functions a `se_handler` pointer can designate. -/
inductive se_handler where
  | glade_start_element
  | glade2_start_element
  | gtkbuilder_start_element
deriving DecidableEq, Repr

/-- The functions a `shapes_handler` pointer can designate. -/
inductive shapes_handler where
  | get_glade_shapes
  | get_glade2_shapes
  | get_gtkbuilder_shapes
deriving DecidableEq, Repr

/-- The static variables of x-glade.c, with the sink `mlp` and the pending comment lines
`savable_comment`. `keywords` and `tags` are `none` while their `table` is `NULL`. -/
structure state where
  extract_all : Bool
  keywords : Option hash_table
  default_keywords : Bool
  tags : Option hash_table
  mlp : List message
  stack : Nat → element_state
  stack_size : Nat
  stack_depth : Nat
  do_start_element : se_handler
  get_shapes : shapes_handler
  savable_comment : List String

/-- The variables as the program starts: static storage is zeroed, `extract_all` is
`false` and `default_keywords` is `true`. The two function pointers are `NULL` until the
first start-tag, which arrives at `stack_depth` 0 and assigns them before they are called;
the handlers of the default dialect stand for the unassigned pointers here. -/
def process_start : state :=
  { extract_all := false
    keywords := none
    default_keywords := true
    tags := none
    mlp := []
    stack := fun _ =>
      { extract_string := false, extract_context := false, extracted_context := none,
        extracted_comment := none, lineno := 0, buffer := none, bufmax := 0, buflen := 0 }
    stack_size := 0
    stack_depth := 0
    do_start_element := se_handler.glade_start_element
    get_shapes := shapes_handler.get_glade_shapes
    savable_comment := [] }

/-- `x_glade_extract_all` -/
def x_glade_extract_all (g : state) : state :=
  { g with extract_all := true }

/-- `x_glade_keyword`; `name` is `none` for `NULL`. -/
def x_glade_keyword (g : state) (name : Option String) : state :=
  match name with
  | none => { g with default_keywords := false }
  | some name =>
    let keywords := match g.keywords with
      | none => hash_init
      | some t => t
    { g with keywords := some (hash_insert_entry keywords name) }

/-- The names `hash_find_entry` finds in `keywords`: those of the table, none while the
table is `NULL`. -/
def registered (g : state) (n : String) : Prop :=
  ∃ t, g.keywords = some t ∧ n ∈ t

/-- `clear_tags` -/
def clear_tags (g : state) : state :=
  match g.tags with
  | some _ => { g with tags := none }
  | none => g

/-- `init_tags` -/
def init_tags (g : state) (tags_array : List String) : state :=
  let g := clear_tags g
  if g.default_keywords then
    { g with tags := some (tags_array.foldl hash_insert_entry hash_init) }
  else g

/-- `init_glade1_tags` -/
def init_glade1_tags (g : state) : state :=
  init_tags g
    ["label", "title", "text", "format", "copyright", "comments", "preview_text", "tooltip"]

/-- `init_glade2_tags` -/
def init_glade2_tags (g : state) : state :=
  init_tags g ["property", "atkproperty", "atkaction"]

/-- `init_gtkbuilder_tags` -/
def init_gtkbuilder_tags (g : state) : state :=
  init_tags g ["property", "attribute", "col"]

/-- `is_tag` of x-glade.c -/
def is_tag (g : state) (name : String) : Bool :=
  let found := false
  let found :=
    match g.keywords with
    | some t => hash_find_entry t name == 0
    | none => found
  let found :=
    if g.default_keywords then
      match g.tags with
      | some t => hash_find_entry t name == 0
      | none => found
    else found
  found

/-- `store_message` of x-glade.c: the state `*p` afterwards and the record handed to the
sink. -/
def store_message (g : state) (p : element_state) (shapes : callshapes) :
    element_state × message :=
  ({ p with buffer := none, extracted_context := none },
   { shapes := some shapes
     msgid := p.buffer.getD ""
     msgctxt := p.extracted_context
     xcomment := p.extracted_comment
     lineno := p.lineno
     comment := g.savable_comment })

/-- `get_glade_shapes` -/
def get_glade_shapes (tag : String) (_extract_context : Bool) : callshapes :=
  { keyword := tag
    keyword_len := keyword_len_of tag
    nshapes := 1
    shapes0 :=
      { argnum1 := MSGID_ARGNUM
        argnum2 := 0
        argnumc := 0
        argnum1_glib_context := false
        argnum2_glib_context := false
        argtotal := 0
        xcomments := [] } }

/-- `glade_start_element`: the state `*p` afterwards and the records handed to the sink. -/
def glade_start_element (_g : state) (p : element_state) (_name : String)
    (_attributes : List (String × String)) (_line : Nat) : element_state × List message :=
  (p, [])

/-- `get_glade2_shapes` -/
def get_glade2_shapes (tag : String) (extract_context : Bool) : callshapes :=
  { keyword := tag
    keyword_len := keyword_len_of tag
    nshapes := 1
    shapes0 :=
      { argnum1 := MSGID_ARGNUM
        argnum2 := 0
        argnumc := 0
        argnum1_glib_context := extract_context
        argnum2_glib_context := false
        argtotal := 0
        xcomments := [] } }

/-- The locals `has_translatable`, `has_context`, `extracted_comment` of
`glade2_start_element`; `remembered` is the string given to `remember_a_message` inside the
loop, if that call was made. -/
structure glade2_locals where
  has_translatable : Bool
  has_context : Bool
  extracted_comment : Option String
  remembered : Option String
deriving DecidableEq, Repr

/-- The `while (*attp != NULL)` loop of `glade2_start_element`, which the `description`
branch leaves with `break`. -/
def glade2_scan (is_atkaction : Bool) :
    List (String × String) → glade2_locals → glade2_locals
  | [], a => a
  | (k, v) :: rest, a =>
    if k = "translatable" then
      glade2_scan is_atkaction rest { a with has_translatable := decide (v = "yes") }
    else if k = "comments" then
      glade2_scan is_atkaction rest { a with extracted_comment := some v }
    else if k = "context" then
      glade2_scan is_atkaction rest { a with has_context := decide (v = "yes") }
    else if is_atkaction && decide (k = "description") then
      { a with remembered := some v }
    else glade2_scan is_atkaction rest a

/-- `glade2_start_element`: the state `*p` afterwards and the records handed to the sink. -/
def glade2_start_element (g : state) (p : element_state) (name : String)
    (attributes : List (String × String)) (line : Nat) : element_state × List message :=
  if p.extract_string then
    let is_atkaction := decide (name = "atkaction")
    let a := glade2_scan is_atkaction attributes
      { has_translatable := false, has_context := false, extracted_comment := none,
        remembered := none }
    let remembered : List message :=
      match a.remembered with
      | some msgid =>
        [{ shapes := none, msgid := msgid, msgctxt := none, xcomment := none,
           lineno := line, comment := g.savable_comment }]
      | none => []
    if is_atkaction then
      ({ p with extract_string := g.extract_all }, remembered)
    else
      ({ p with
         extract_string := a.has_translatable || g.extract_all
         extract_context := a.has_context
         extracted_comment :=
           if a.has_translatable && a.extracted_comment != none then a.extracted_comment
           else none },
       remembered)
  else (p, [])

/-- `get_gtkbuilder_shapes` -/
def get_gtkbuilder_shapes (tag : String) (extract_context : Bool) : callshapes :=
  { keyword := tag
    keyword_len := keyword_len_of tag
    nshapes := 1
    shapes0 :=
      { argnum1 := MSGID_ARGNUM
        argnum2 := 0
        argnumc := if extract_context then MSGCTXT_ARGNUM else 0
        argnum1_glib_context := false
        argnum2_glib_context := false
        argtotal := 0
        xcomments := [] } }

/-- The locals `has_translatable`, `extracted_comment`, `extracted_context` of
`gtkbuilder_start_element`. -/
structure gtkbuilder_locals where
  has_translatable : Bool
  extracted_comment : Option String
  extracted_context : Option String
deriving DecidableEq, Repr

/-- The `while (*attp != NULL)` loop of `gtkbuilder_start_element`. -/
def gtkbuilder_scan : List (String × String) → gtkbuilder_locals → gtkbuilder_locals
  | [], a => a
  | (k, v) :: rest, a =>
    if k = "translatable" then
      gtkbuilder_scan rest { a with has_translatable := decide (v = "yes") }
    else if k = "comments" then
      gtkbuilder_scan rest { a with extracted_comment := some v }
    else if k = "context" then
      gtkbuilder_scan rest { a with extracted_context := some v }
    else gtkbuilder_scan rest a

/-- `gtkbuilder_start_element`: the state `*p` afterwards and the records handed to the
sink. -/
def gtkbuilder_start_element (g : state) (p : element_state) (_name : String)
    (attributes : List (String × String)) (_line : Nat) : element_state × List message :=
  let a := gtkbuilder_scan attributes
    { has_translatable := false, extracted_comment := none, extracted_context := none }
  let p :=
    if p.extract_string then { p with extract_string := a.has_translatable || g.extract_all }
    else p
  let p :=
    if p.extract_string then
      { p with
        extracted_comment := a.extracted_comment
        extract_context := a.extracted_context != none
        extracted_context := a.extracted_context }
    else p
  (p, [])

/-- `check_file_type` -/
def check_file_type (g : state) (name : String) : state :=
  if name = "glade-interface" then
    init_glade2_tags
      { g with do_start_element := se_handler.glade2_start_element
               get_shapes := shapes_handler.get_glade2_shapes }
  else if name = "interface" then
    init_gtkbuilder_tags
      { g with do_start_element := se_handler.gtkbuilder_start_element
               get_shapes := shapes_handler.get_gtkbuilder_shapes }
  else
    let g := if name = "GTK-Interface" then init_glade1_tags g else clear_tags g
    { g with do_start_element := se_handler.glade_start_element
             get_shapes := shapes_handler.get_glade_shapes }

/-- The call `do_start_element (p, name, attributes)` through the pointer. -/
def call_start_element (g : state) (p : element_state) (name : String)
    (attributes : List (String × String)) (line : Nat) : element_state × List message :=
  match g.do_start_element with
  | se_handler.glade_start_element => glade_start_element g p name attributes line
  | se_handler.glade2_start_element => glade2_start_element g p name attributes line
  | se_handler.gtkbuilder_start_element => gtkbuilder_start_element g p name attributes line

/-- The call `get_shapes (name, extract_context)` through the pointer. -/
def call_get_shapes (g : state) (tag : String) (extract_context : Bool) : callshapes :=
  match g.get_shapes with
  | shapes_handler.get_glade_shapes => get_glade_shapes tag extract_context
  | shapes_handler.get_glade2_shapes => get_glade2_shapes tag extract_context
  | shapes_handler.get_gtkbuilder_shapes => get_gtkbuilder_shapes tag extract_context

/-- The state `*p` of `start_element_handler` just before the call through
`do_start_element`: every member reset, `extract_string` set from `extract_all` and, when
that is false, from `is_tag (name)`. -/
def candidate_state (g : state) (name : String) (line : Nat) : element_state :=
  let p : element_state :=
    { extract_string := g.extract_all
      extract_context := false
      extracted_comment := none
      extracted_context := none
      lineno := line
      buffer := none
      bufmax := 0
      buflen := 0 }
  if !p.extract_string then { p with extract_string := is_tag g name } else p

/-- `start_element_handler` of x-glade.c -/
def start_element_handler (g : state) (name : String)
    (attributes : List (String × String)) (line : Nat) : state :=
  let g := if g.stack_depth = 0 then check_file_type g name else g
  let stack_depth := g.stack_depth + 1
  let stack_size := ensure_stack_size g.stack_size (stack_depth + 1)
  let stack := set_slot g.stack (stack_depth - 1)
    { g.stack (stack_depth - 1) with extract_string := false }
  let r := call_start_element g (candidate_state g name line) name attributes line
  { g with
    stack_depth := stack_depth
    stack_size := stack_size
    stack := set_slot stack stack_depth r.1
    mlp := g.mlp ++ r.2
    savable_comment := if !r.1.extract_string then [] else g.savable_comment }

/-- `end_element_handler` of x-glade.c. The popped slot keeps what the handler left in
it. -/
def end_element_handler (g : state) (name : String) : state :=
  let p := g.stack g.stack_depth
  let r : element_state × List message :=
    if p.extract_string then
      if p.buflen > 0 then
        let sm := store_message g p (call_get_shapes g name p.extract_context)
        (sm.1, [sm.2])
      else (p, [])
    else (p, [])
  { g with
    stack := set_slot g.stack g.stack_depth r.1
    mlp := g.mlp ++ r.2
    stack_depth := g.stack_depth - 1
    savable_comment := [] }

/-- `character_data_handler` of x-glade.c; `len` is the length of `s`. -/
def character_data_handler (g : state) (s : String) : state :=
  let p := g.stack g.stack_depth
  let len := s.length
  if len > 0 then
    let bufmax :=
      if p.buflen + len > p.bufmax then
        let bufmax := 2 * p.bufmax
        if bufmax < p.buflen + len then p.buflen + len else bufmax
      else p.bufmax
    let p := { p with bufmax := bufmax, buffer := some (p.buffer.getD "" ++ s),
                      buflen := p.buflen + len }
    { g with stack := set_slot g.stack g.stack_depth p }
  else g

/-- `comment_handler` of x-glade.c -/
def comment_handler (g : state) (data : String) : state :=
  { g with savable_comment := g.savable_comment ++ comment_lines (data.length + 1) data.data }

/-- The callback expat calls for one event. -/
def handle_event (g : state) : xml_event → state
  | xml_event.start_element name attributes line => start_element_handler g name attributes line
  | xml_event.end_element name => end_element_handler g name
  | xml_event.character_data s => character_data_handler g s
  | xml_event.comment data => comment_handler g data

/-- The callbacks of a sequence of events, in order. -/
def run (g : state) (events : List xml_event) : state :=
  events.foldl handle_event g

/-- `do_extract_glade` on the events of the file; `mdlp` is the message list of the
caller. -/
def do_extract_glade (g : state) (mdlp : List message) (events : List xml_event) : state :=
  run { g with mlp := mdlp, stack_depth := 0 } events

/-- The variables that no callback changes below the root: the keyword customisation and
the dialect binding. -/
def same_config (g g' : state) : Prop :=
  g'.extract_all = g.extract_all ∧ g'.keywords = g.keywords
    ∧ g'.default_keywords = g.default_keywords ∧ g'.tags = g.tags
    ∧ g'.do_start_element = g.do_start_element ∧ g'.get_shapes = g.get_shapes

/-- One round of the loop of `glade2_start_element` for an element that is not `atkaction`,
as a function of the locals. -/
def glade2_step (k v : String) (a : glade2_locals) : glade2_locals :=
  if k = "translatable" then { a with has_translatable := decide (v = "yes") }
  else if k = "comments" then { a with extracted_comment := some v }
  else if k = "context" then { a with has_context := decide (v = "yes") }
  else a

/-- One round of the loop of `gtkbuilder_start_element`, as a function of the locals. -/
def gtkbuilder_step (k v : String) (a : gtkbuilder_locals) : gtkbuilder_locals :=
  if k = "translatable" then { a with has_translatable := decide (v = "yes") }
  else if k = "comments" then { a with extracted_comment := some v }
  else if k = "context" then { a with extracted_context := some v }
  else a

/-- An end-tag of an element whose `extract_string` is true and whose accumulated character
data is non-empty (`buflen > 0`). -/
def eligible_end_tag (g : state) : Bool :=
  (g.stack g.stack_depth).extract_string && decide (0 < (g.stack g.stack_depth).buflen)

/-- An eligible Glade-2 `atkaction` start-tag carrying a `description` attribute: the bound
policy is `glade2_start_element`, the element is a candidate before the policy runs, its
name is `atkaction` and one of its attributes is named `description`. -/
def atkaction_description_tag (g : state) (name : String)
    (attributes : List (String × String)) (line : Nat) : Bool :=
  let g1 := if g.stack_depth = 0 then check_file_type g name else g
  decide (g1.do_start_element = se_handler.glade2_start_element)
    && (candidate_state g1 name line).extract_string
    && decide (name = "atkaction")
    && attributes.any (fun kv => decide (kv.1 = "description"))

/-- The number of eligible end-tags with character data plus the number of eligible Glade-2
`atkaction` start-tags with a `description`, along the run of the events from `g`. -/
def count_messages (g : state) : List xml_event → Nat
  | [] => 0
  | xml_event.start_element name attributes line :: evs =>
    (if atkaction_description_tag g name attributes line then 1 else 0)
      + count_messages (start_element_handler g name attributes line) evs
  | xml_event.end_element name :: evs =>
    (if eligible_end_tag g then 1 else 0) + count_messages (end_element_handler g name) evs
  | xml_event.character_data s :: evs => count_messages (character_data_handler g s) evs
  | xml_event.comment data :: evs => count_messages (comment_handler g data) evs

/-- The number of calls of `check_file_type` along the run of the events from `g`: the
start-tags that arrive while `stack_depth` is 0. -/
def check_file_type_calls (g : state) : List xml_event → Nat
  | [] => 0
  | xml_event.start_element name attributes line :: evs =>
    (if g.stack_depth = 0 then 1 else 0)
      + check_file_type_calls (start_element_handler g name attributes line) evs
  | xml_event.end_element name :: evs => check_file_type_calls (end_element_handler g name) evs
  | xml_event.character_data s :: evs =>
    check_file_type_calls (character_data_handler g s) evs
  | xml_event.comment data :: evs => check_file_type_calls (comment_handler g data) evs

/-- Two states between which a run cannot tell: the same keyword customisation, pending
comment lines, sink and depth, below the root the same candidate set and dialect binding,
and the same states in the slots 1 to `stack_depth` of the open elements. Slot 0, the slots
above the depth and `stack_size` are free. -/
def agree (g1 g2 : state) : Prop :=
  g1.extract_all = g2.extract_all ∧ g1.keywords = g2.keywords
    ∧ g1.default_keywords = g2.default_keywords
    ∧ g1.savable_comment = g2.savable_comment ∧ g1.mlp = g2.mlp
    ∧ g1.stack_depth = g2.stack_depth
    ∧ (g1.stack_depth ≠ 0 →
        g1.tags = g2.tags ∧ g1.do_start_element = g2.do_start_element
          ∧ g1.get_shapes = g2.get_shapes)
    ∧ (∀ i, 1 ≤ i → i ≤ g1.stack_depth → g1.stack i = g2.stack i)

/-- The number of bytes allocated for `p->buffer` when `end_element_handler` writes the
terminating NUL at index `buflen`: `buflen + 1` after the `xrealloc` made when
`p->buflen == p->bufmax`, the `bufmax` bytes of the last growth otherwise. -/
def terminator_allocation (p : element_state) : Nat :=
  if p.buflen = p.bufmax then p.buflen + 1 else p.bufmax

/-- The state with the capacity `bufmax` of every element state left out of account. -/
def forget_bufmax (g : state) : state :=
  { g with stack := fun i => { g.stack i with bufmax := 0 } }

/-- The count the specification gives for the events, read off the events delivered:
`texts` holds, innermost first, the character data delivered so far for the elements opened
by the events and still open. An end-tag counts when `extract_string` of its element is
true and the character data delivered for the element is not empty; a start-tag counts when
it is an eligible Glade-2 `atkaction` start-tag carrying a `description` attribute. -/
def spec_message_count (g : state) (texts : List String) : List xml_event → Nat
  | [] => 0
  | xml_event.start_element name attributes line :: evs =>
    (if atkaction_description_tag g name attributes line then 1 else 0)
      + spec_message_count (start_element_handler g name attributes line) ("" :: texts) evs
  | xml_event.end_element name :: evs =>
    (match texts with
      | t :: _ => if (g.stack g.stack_depth).extract_string = true ∧ t ≠ "" then 1 else 0
      | [] => 0)
      + spec_message_count (end_element_handler g name) texts.tail evs
  | xml_event.character_data s :: evs =>
    spec_message_count (character_data_handler g s)
      (delivered_text texts (xml_event.character_data s)) evs
  | xml_event.comment data :: evs =>
    spec_message_count (comment_handler g data) texts evs

/-- The buffers of the open elements hold as many bytes as the character data delivered for
them: `texts` innermost first, against the slots `d`, `d - 1`, ... of the stack. -/
def tracks (g : state) : Nat → List String → Prop
  | _, [] => True
  | d, t :: ts => (g.stack d).buflen = t.length ∧ 0 < d ∧ tracks g (d - 1) ts

end x_glade

/-- The events of a document from the start-tag of its root element `root` up to some point
inside the root element: the root start-tag, followed by complete content and by start-tags
of elements that are still open. -/
inductive inside_root (root : String) : List xml_event → Prop where
  | root (attributes : List (String × String)) (line : Nat) :
      inside_root root [xml_event.start_element root attributes line]
  | content {pre evs : List xml_event} :
      inside_root root pre → balanced evs → inside_root root (pre ++ evs)
  | child {pre : List xml_event} (name : String) (attributes : List (String × String))
      (line : Nat) :
      inside_root root pre →
      inside_root root (pre ++ [xml_event.start_element name attributes line])

/-! ## Auxiliary facts -/

theorem hash_find_entry_eq_zero (t : hash_table) (k : String) :
    (hash_find_entry t k == 0) = decide (k ∈ t) := by
  unfold hash_find_entry
  by_cases h : k ∈ t <;> simp [h]

theorem mem_hash_insert_entry (t : hash_table) (k n : String) :
    n ∈ hash_insert_entry t k ↔ n ∈ t ∨ n = k := by
  unfold hash_insert_entry
  by_cases h : k ∈ t
  · simp only [h, if_true]
    constructor
    · intro hn
      exact Or.inl hn
    · rintro (hn | rfl)
      · exact hn
      · exact h
  · simp [h]

theorem set_slot_same {α : Type} (stack : Nat → α) (i : Nat) (v : α) :
    set_slot stack i v i = v := by
  simp [set_slot]

theorem set_slot_other {α : Type} (stack : Nat → α) (i j : Nat) (v : α) (h : j ≠ i) :
    set_slot stack i v j = stack j := by
  simp [set_slot, h]

/-- A loop over the attributes that stores, in the part `f` of its locals, `val v` for an
attribute `K` with value `v` and leaves that part alone for every other attribute: without
an attribute `K` the part keeps its value, and with pairwise different attribute names it
ends as `val v` for the attribute `(K, v)`. -/
theorem scan_field {A B : Type} (scan : List (String × String) → A → A)
    (step : String → String → A → A) (f : A → B) (K : String) (val : String → B)
    (hnil : ∀ a, scan [] a = a)
    (hcons : ∀ k v rest a, scan ((k, v) :: rest) a = scan rest (step k v a))
    (hne : ∀ k v a, k ≠ K → f (step k v a) = f a)
    (heq : ∀ v a, f (step K v a) = val v) :
    ∀ (attributes : List (String × String)) (a : A),
      ((∀ v, (K, v) ∉ attributes) → f (scan attributes a) = f a)
      ∧ ((attributes.map Prod.fst).Nodup →
          ∀ v, (K, v) ∈ attributes → f (scan attributes a) = val v) := by
  intro attributes
  induction attributes with
  | nil =>
    intro a
    refine ⟨fun _ => by rw [hnil], fun _ v hv => ?_⟩
    simp at hv
  | cons kv rest ih =>
    intro a
    obtain ⟨k, w⟩ := kv
    rw [hcons]
    obtain ⟨i1, i2⟩ := ih (step k w a)
    constructor
    · intro h
      have hk : k ≠ K := by
        rintro rfl
        exact h w (List.mem_cons_self _ _)
      rw [i1 (fun v hv => h v (List.mem_cons_of_mem _ hv)), hne k w a hk]
    · intro hn v hv
      rw [List.map_cons, List.nodup_cons] at hn
      obtain ⟨hk, hn⟩ := hn
      rcases List.mem_cons.1 hv with heq1 | hmem
      · obtain ⟨rfl, rfl⟩ := Prod.mk.inj heq1
        have hrest : ∀ u, (K, u) ∉ rest := fun u hu =>
          hk (List.mem_map.2 ⟨(K, u), hu, rfl⟩)
        rw [i1 hrest, heq]
      · exact i2 hn v hmem

/-- The loop of `scan_field` for a part that holds the value of the attribute: starting
from no value, it ends with `some v` iff the attribute `(K, v)` is present. -/
theorem scan_field_some_iff {A : Type} (scan : List (String × String) → A → A)
    (step : String → String → A → A) (f : A → Option String) (K : String)
    (hnil : ∀ a, scan [] a = a)
    (hcons : ∀ k v rest a, scan ((k, v) :: rest) a = scan rest (step k v a))
    (hne : ∀ k v a, k ≠ K → f (step k v a) = f a)
    (heq : ∀ v a, f (step K v a) = some v)
    (attributes : List (String × String)) (a : A) (ha : f a = none)
    (hn : (attributes.map Prod.fst).Nodup) (v : String) :
    f (scan attributes a) = some v ↔ (K, v) ∈ attributes := by
  obtain ⟨h1, h2⟩ := scan_field scan step f K some hnil hcons hne heq attributes a
  constructor
  · intro h
    by_cases hex : ∃ u, (K, u) ∈ attributes
    · obtain ⟨u, hu⟩ := hex
      rw [h2 hn u hu] at h
      cases h
      exact hu
    · rw [h1 (fun u hu => hex ⟨u, hu⟩), ha] at h
      cases h
  · intro h
    exact h2 hn v h

/-- The loop of `scan_field` for a flag that records whether the attribute equals `yes`:
starting from `false`, it ends `true` iff the attribute `(K, "yes")` is present. -/
theorem scan_field_yes_iff {A : Type} (scan : List (String × String) → A → A)
    (step : String → String → A → A) (f : A → Bool) (K : String)
    (hnil : ∀ a, scan [] a = a)
    (hcons : ∀ k v rest a, scan ((k, v) :: rest) a = scan rest (step k v a))
    (hne : ∀ k v a, k ≠ K → f (step k v a) = f a)
    (heq : ∀ v a, f (step K v a) = decide (v = "yes"))
    (attributes : List (String × String)) (a : A) (ha : f a = false)
    (hn : (attributes.map Prod.fst).Nodup) :
    f (scan attributes a) = true ↔ (K, "yes") ∈ attributes := by
  obtain ⟨h1, h2⟩ := scan_field scan step f K (fun v => decide (v = "yes")) hnil hcons hne heq
    attributes a
  constructor
  · intro h
    by_cases hex : ∃ u, (K, u) ∈ attributes
    · obtain ⟨u, hu⟩ := hex
      rw [h2 hn u hu] at h
      have hu2 : u = "yes" := by simpa using h
      rw [← hu2]
      exact hu
    · rw [h1 (fun u hu => hex ⟨u, hu⟩), ha] at h
      cases h
  · intro h
    rw [h2 hn "yes" h]
    simp

/-- Depth along balanced content, for any engine whose depth counter goes up by one at a
start-tag, down by one at an end-tag and stays at character data and comments: the depth is
back at its starting value after the content, it is never below that value after a part of
the content, and every end-tag of the content arrives at a depth at least one above it. -/
theorem balanced_depth {S : Type} (handle : S → xml_event → S) (depth : S → Nat)
    (hs : ∀ s n a l, depth (handle s (xml_event.start_element n a l)) = depth s + 1)
    (he : ∀ s n, depth (handle s (xml_event.end_element n)) = depth s - 1)
    (hc : ∀ s t, depth (handle s (xml_event.character_data t)) = depth s)
    (hm : ∀ s d, depth (handle s (xml_event.comment d)) = depth s)
    {evs : List xml_event} (hb : balanced evs) :
    ∀ s : S,
      depth (evs.foldl handle s) = depth s
      ∧ (∀ pre suf, pre ++ suf = evs → depth s ≤ depth (pre.foldl handle s))
      ∧ (∀ pre name suf, pre ++ xml_event.end_element name :: suf = evs →
          depth s + 1 ≤ depth (pre.foldl handle s)) := by
  induction hb with
  | nil =>
    intro s
    refine ⟨rfl, ?_, ?_⟩
    · intro pre suf h
      obtain ⟨rfl, _⟩ := List.append_eq_nil.1 h
      exact Nat.le_refl _
    · intro pre name suf h
      have := (List.append_eq_nil.1 h).2
      cases this
  | @character_data t rest _ ih =>
    intro s
    obtain ⟨i1, i2, i3⟩ := ih (handle s (xml_event.character_data t))
    rw [hc] at i1 i2 i3
    refine ⟨i1, ?_, ?_⟩
    · intro pre suf h
      cases pre with
      | nil => exact Nat.le_refl _
      | cons e pre1 =>
        rw [List.cons_append, List.cons.injEq] at h
        obtain ⟨rfl, h⟩ := h
        exact i2 pre1 suf h
    · intro pre name suf h
      cases pre with
      | nil =>
        rw [List.nil_append, List.cons.injEq] at h
        cases h.1
      | cons e pre1 =>
        rw [List.cons_append, List.cons.injEq] at h
        obtain ⟨rfl, h⟩ := h
        exact i3 pre1 name suf h
  | @comment d rest _ ih =>
    intro s
    obtain ⟨i1, i2, i3⟩ := ih (handle s (xml_event.comment d))
    rw [hm] at i1 i2 i3
    refine ⟨i1, ?_, ?_⟩
    · intro pre suf h
      cases pre with
      | nil => exact Nat.le_refl _
      | cons e pre1 =>
        rw [List.cons_append, List.cons.injEq] at h
        obtain ⟨rfl, h⟩ := h
        exact i2 pre1 suf h
    · intro pre name suf h
      cases pre with
      | nil =>
        rw [List.nil_append, List.cons.injEq] at h
        cases h.1
      | cons e pre1 =>
        rw [List.cons_append, List.cons.injEq] at h
        obtain ⟨rfl, h⟩ := h
        exact i3 pre1 name suf h
  | @element name attributes line body rest _ _ ihb ihr =>
    intro s
    obtain ⟨b1, b2, b3⟩ := ihb (handle s (xml_event.start_element name attributes line))
    rw [hs] at b1 b2 b3
    obtain ⟨r1, r2, r3⟩ := ihr
      (handle (body.foldl handle (handle s (xml_event.start_element name attributes line)))
        (xml_event.end_element name))
    rw [he, b1, Nat.add_sub_cancel] at r1 r2 r3
    have hrun : ∀ l : List xml_event,
        (xml_event.start_element name attributes line
            :: (body ++ xml_event.end_element name :: l)).foldl handle s
          = l.foldl handle
              (handle
                (body.foldl handle (handle s (xml_event.start_element name attributes line)))
                (xml_event.end_element name)) := by
      intro l
      rw [List.foldl_cons, List.foldl_append, List.foldl_cons]
    refine ⟨by rw [hrun]; exact r1, ?_, ?_⟩
    · intro pre suf h
      cases pre with
      | nil => exact Nat.le_refl _
      | cons e pre1 =>
        rw [List.cons_append, List.cons.injEq] at h
        obtain ⟨rfl, h⟩ := h
        rw [List.foldl_cons]
        rcases List.append_eq_append_iff.1 h with ⟨a1, ha, _⟩ | ⟨c1, hc1, hc2⟩
        · have := b2 pre1 a1 ha.symm
          omega
        · cases c1 with
          | nil =>
            rw [List.append_nil] at hc1
            rw [hc1, b1]
            omega
          | cons x c2 =>
            rw [List.cons_append, List.cons.injEq] at hc2
            obtain ⟨rfl, hc2⟩ := hc2
            rw [hc1, List.foldl_append, List.foldl_cons]
            exact r2 c2 suf hc2.symm
    · intro pre nm suf h
      cases pre with
      | nil =>
        rw [List.nil_append, List.cons.injEq] at h
        cases h.1
      | cons e pre1 =>
        rw [List.cons_append, List.cons.injEq] at h
        obtain ⟨rfl, h⟩ := h
        rw [List.foldl_cons]
        rcases List.append_eq_append_iff.1 h with ⟨a1, ha, ha2⟩ | ⟨c1, hc1, hc2⟩
        · cases a1 with
          | nil =>
            rw [List.append_nil] at ha
            rw [← ha, b1]
          | cons x a2 =>
            rw [List.cons_append, List.cons.injEq] at ha2
            obtain ⟨rfl, _⟩ := ha2
            have := b3 pre1 nm a2 ha.symm
            omega
        · cases c1 with
          | nil =>
            rw [List.append_nil] at hc1
            rw [hc1, b1]
          | cons x c2 =>
            rw [List.cons_append, List.cons.injEq] at hc2
            obtain ⟨rfl, hc2⟩ := hc2
            rw [hc1, List.foldl_append, List.foldl_cons]
            exact r3 c2 nm suf hc2.symm

theorem leaf_content_balanced : ∀ evs : List xml_event, leaf_content evs = true → balanced evs
  | [], _ => balanced.nil
  | xml_event.character_data s :: evs, h =>
    balanced.character_data s (leaf_content_balanced evs (by simpa [leaf_content] using h))
  | xml_event.comment d :: evs, h =>
    balanced.comment d (leaf_content_balanced evs (by simpa [leaf_content] using h))
  | xml_event.start_element _ _ _ :: _, h => by simp [leaf_content] at h
  | xml_event.end_element _ :: _, h => by simp [leaf_content] at h

theorem nested_append_balanced {body : List xml_event} (hb : balanced body) :
    ∀ (n : Nat) (tail : List xml_event), nested n (body ++ tail) = nested n tail := by
  induction hb with
  | nil => intro n tail; rfl
  | character_data s _ ih =>
    intro n tail
    simp only [List.cons_append, nested]
    exact ih n tail
  | comment data _ ih =>
    intro n tail
    simp only [List.cons_append, nested]
    exact ih n tail
  | @element name attributes line body rest _ _ ihb ihr =>
    intro n tail
    simp only [List.cons_append, List.append_assoc, nested]
    rw [ihb (n + 1) (xml_event.end_element name :: (rest ++ tail))]
    simp only [nested]
    exact ihr n tail

theorem nested_of_balanced {evs : List xml_event} (hb : balanced evs) (n : Nat) :
    nested n evs = true := by
  have h := nested_append_balanced hb n []
  rw [List.append_nil] at h
  rw [h]
  cases n <;> rfl

namespace x_glade

theorem keyword_calls_default_keywords (calls : List (Option String)) (g : state) :
    (calls.foldl x_glade_keyword g).default_keywords
      = (g.default_keywords && !decide (none ∈ calls)) := by
  induction calls generalizing g with
  | nil => simp
  | cons c cs ih =>
    rw [List.foldl_cons, ih]
    cases c with
    | none => simp [x_glade_keyword]
    | some name => simp [x_glade_keyword]

theorem keyword_calls_extract_all (calls : List (Option String)) (g : state) :
    (calls.foldl x_glade_keyword g).extract_all = g.extract_all := by
  induction calls generalizing g with
  | nil => rfl
  | cons c cs ih =>
    rw [List.foldl_cons, ih]
    cases c <;> rfl

theorem keyword_calls_registered (calls : List (Option String)) (g : state) (n : String) :
    registered (calls.foldl x_glade_keyword g) n ↔ registered g n ∨ some n ∈ calls := by
  induction calls generalizing g with
  | nil => simp
  | cons c cs ih =>
    rw [List.foldl_cons, ih]
    cases c with
    | none =>
      simp [x_glade_keyword, registered]
    | some name =>
      have h1 : registered (x_glade_keyword g (some name)) n ↔ registered g n ∨ n = name := by
        unfold registered x_glade_keyword
        cases hk : g.keywords with
        | none => simp [hash_init, mem_hash_insert_entry]
        | some t => simp [mem_hash_insert_entry]
      rw [h1]
      simp only [List.mem_cons, Option.some.injEq]
      tauto

theorem is_tag_of_not_default (g : state) (n : String) (h : g.default_keywords = false) :
    is_tag g n = true ↔ registered g n := by
  unfold is_tag registered
  cases hk : g.keywords with
  | none => simp [h]
  | some t => simp [h, hash_find_entry_eq_zero]

theorem is_tag_of_default_tags (g : state) (n : String) (t : hash_table)
    (h : g.default_keywords = true) (ht : g.tags = some t) :
    is_tag g n = true ↔ n ∈ t := by
  unfold is_tag
  simp [h, ht, hash_find_entry_eq_zero]

theorem init_tags_of_default (g : state) (l : List String) (h : g.default_keywords = true) :
    init_tags g l = { g with tags := some (l.foldl hash_insert_entry hash_init) } := by
  unfold init_tags clear_tags
  cases ht : g.tags <;> simp [h]

theorem init_tags_of_not_default (g : state) (l : List String)
    (h : g.default_keywords = false) :
    init_tags g l = { g with tags := none } := by
  unfold init_tags clear_tags
  cases ht : g.tags with
  | none =>
    simp only [h]
    cases g
    simp_all
  | some t => simp [h]

theorem clear_tags_eq (g : state) : clear_tags g = { g with tags := none } := by
  unfold clear_tags
  cases ht : g.tags with
  | none =>
    cases g
    simp_all
  | some t => rfl

theorem check_file_type_eq (g : state) (r : String) :
    check_file_type g r
      = { g with
          tags := (check_file_type g r).tags
          do_start_element := (check_file_type g r).do_start_element
          get_shapes := (check_file_type g r).get_shapes } := by
  unfold check_file_type
  cases hdk : g.default_keywords
  · by_cases h1 : r = "glade-interface"
    · simp [h1, init_glade2_tags, init_tags_of_not_default, hdk]
    · by_cases h2 : r = "interface"
      · simp [h2, init_gtkbuilder_tags, init_tags_of_not_default, hdk]
      · by_cases h3 : r = "GTK-Interface"
        · simp [h3, init_glade1_tags, init_tags_of_not_default, hdk]
        · simp [h1, h2, h3, clear_tags_eq, hdk]
  · by_cases h1 : r = "glade-interface"
    · simp [h1, init_glade2_tags, init_tags_of_default, hdk]
    · by_cases h2 : r = "interface"
      · simp [h2, init_gtkbuilder_tags, init_tags_of_default, hdk]
      · by_cases h3 : r = "GTK-Interface"
        · simp [h3, init_glade1_tags, init_tags_of_default, hdk]
        · simp [h1, h2, h3, clear_tags_eq, hdk]

@[simp] theorem check_file_type_stack (g : state) (r : String) :
    (check_file_type g r).stack = g.stack := by
  rw [check_file_type_eq]

@[simp] theorem check_file_type_stack_depth (g : state) (r : String) :
    (check_file_type g r).stack_depth = g.stack_depth := by
  rw [check_file_type_eq]

@[simp] theorem check_file_type_stack_size (g : state) (r : String) :
    (check_file_type g r).stack_size = g.stack_size := by
  rw [check_file_type_eq]

@[simp] theorem check_file_type_mlp (g : state) (r : String) :
    (check_file_type g r).mlp = g.mlp := by
  rw [check_file_type_eq]

@[simp] theorem check_file_type_savable_comment (g : state) (r : String) :
    (check_file_type g r).savable_comment = g.savable_comment := by
  rw [check_file_type_eq]

@[simp] theorem check_file_type_extract_all (g : state) (r : String) :
    (check_file_type g r).extract_all = g.extract_all := by
  rw [check_file_type_eq]

@[simp] theorem check_file_type_keywords (g : state) (r : String) :
    (check_file_type g r).keywords = g.keywords := by
  rw [check_file_type_eq]

@[simp] theorem check_file_type_default_keywords (g : state) (r : String) :
    (check_file_type g r).default_keywords = g.default_keywords := by
  rw [check_file_type_eq]

theorem same_config_refl (g : state) : same_config g g :=
  ⟨rfl, rfl, rfl, rfl, rfl, rfl⟩

theorem same_config_trans {g1 g2 g3 : state} (h12 : same_config g1 g2)
    (h23 : same_config g2 g3) : same_config g1 g3 := by
  obtain ⟨a1, a2, a3, a4, a5, a6⟩ := h12
  obtain ⟨b1, b2, b3, b4, b5, b6⟩ := h23
  exact ⟨b1.trans a1, b2.trans a2, b3.trans a3, b4.trans a4, b5.trans a5, b6.trans a6⟩

theorem run_nil (g : state) : run g [] = g := rfl

theorem run_cons (g : state) (e : xml_event) (evs : List xml_event) :
    run g (e :: evs) = run (handle_event g e) evs := rfl

theorem run_append (g : state) (evs1 evs2 : List xml_event) :
    run g (evs1 ++ evs2) = run (run g evs1) evs2 := by
  unfold run
  rw [List.foldl_append]

/-- The state in which `start_element_handler` pushes: `check_file_type` has run when the
depth was 0. -/
theorem start_element_handler_eq (g : state) (name : String)
    (attributes : List (String × String)) (line : Nat) (g1 : state)
    (hg1 : g1 = if g.stack_depth = 0 then check_file_type g name else g) :
    start_element_handler g name attributes line
      = { g1 with
          stack_depth := g.stack_depth + 1
          stack_size := ensure_stack_size g.stack_size (g.stack_depth + 1 + 1)
          stack := set_slot
            (set_slot g.stack g.stack_depth
              { g.stack g.stack_depth with extract_string := false })
            (g.stack_depth + 1)
            (call_start_element g1 (candidate_state g1 name line) name attributes line).1
          mlp := g.mlp
            ++ (call_start_element g1 (candidate_state g1 name line) name attributes line).2
          savable_comment :=
            if !(call_start_element g1 (candidate_state g1 name line) name attributes
                line).1.extract_string then []
            else g.savable_comment } := by
  subst hg1
  unfold start_element_handler
  by_cases h : g.stack_depth = 0 <;> simp [h]

theorem start_element_handler_stack_depth (g : state) (name : String)
    (attributes : List (String × String)) (line : Nat) :
    (start_element_handler g name attributes line).stack_depth = g.stack_depth + 1 := by
  rw [start_element_handler_eq g name attributes line _ rfl]

theorem start_element_handler_below (g : state) (name : String)
    (attributes : List (String × String)) (line : Nat) (i : Nat) (hi : i < g.stack_depth) :
    (start_element_handler g name attributes line).stack i = g.stack i := by
  rw [start_element_handler_eq g name attributes line _ rfl]
  simp only
  rw [set_slot_other _ _ _ _ (by omega), set_slot_other _ _ _ _ (by omega)]

theorem start_element_handler_parent (g : state) (name : String)
    (attributes : List (String × String)) (line : Nat) :
    ((start_element_handler g name attributes line).stack g.stack_depth).extract_string
      = false := by
  rw [start_element_handler_eq g name attributes line _ rfl]
  simp only
  rw [set_slot_other _ _ _ _ (by omega), set_slot_same]

theorem start_element_handler_same_config (g : state) (name : String)
    (attributes : List (String × String)) (line : Nat) (h : g.stack_depth ≠ 0) :
    same_config g (start_element_handler g name attributes line) := by
  rw [start_element_handler_eq g name attributes line _ rfl]
  simp [same_config, h]

theorem end_element_handler_stack_depth (g : state) (name : String) :
    (end_element_handler g name).stack_depth = g.stack_depth - 1 := rfl

theorem end_element_handler_below (g : state) (name : String) (i : Nat)
    (hi : i < g.stack_depth) :
    (end_element_handler g name).stack i = g.stack i := by
  unfold end_element_handler
  simp only
  rw [set_slot_other _ _ _ _ (by omega)]

theorem end_element_handler_same_config (g : state) (name : String) :
    same_config g (end_element_handler g name) :=
  ⟨rfl, rfl, rfl, rfl, rfl, rfl⟩

/-- An end-tag whose element is not eligible hands nothing to the sink. -/
theorem end_element_handler_mlp_of_not_extract (g : state) (name : String)
    (h : (g.stack g.stack_depth).extract_string = false) :
    (end_element_handler g name).mlp = g.mlp := by
  unfold end_element_handler
  simp [h]

theorem character_data_handler_stack_depth (g : state) (s : String) :
    (character_data_handler g s).stack_depth = g.stack_depth := by
  by_cases h : s.length > 0 <;> simp [character_data_handler, h]

theorem character_data_handler_mlp (g : state) (s : String) :
    (character_data_handler g s).mlp = g.mlp := by
  by_cases h : s.length > 0 <;> simp [character_data_handler, h]

theorem character_data_handler_below (g : state) (s : String) (i : Nat)
    (hi : i < g.stack_depth) :
    (character_data_handler g s).stack i = g.stack i := by
  have hne : i ≠ g.stack_depth := by omega
  by_cases h : s.length > 0 <;> simp [character_data_handler, h, set_slot, hne]

theorem character_data_handler_extract_string (g : state) (s : String) :
    ((character_data_handler g s).stack g.stack_depth).extract_string
      = (g.stack g.stack_depth).extract_string := by
  by_cases h : s.length > 0 <;> simp [character_data_handler, h, set_slot]

theorem character_data_handler_same_config (g : state) (s : String) :
    same_config g (character_data_handler g s) := by
  by_cases h : s.length > 0 <;> simp [character_data_handler, h, same_config]

/-- Complete content leaves the depth, the slots below the current one and the
configuration as they were, and does not make the current element eligible. -/
theorem run_balanced {evs : List xml_event} (hb : balanced evs) :
    ∀ g : state,
      (run g evs).stack_depth = g.stack_depth
      ∧ (∀ i, i < g.stack_depth → (run g evs).stack i = g.stack i)
      ∧ ((g.stack g.stack_depth).extract_string = false →
          ((run g evs).stack g.stack_depth).extract_string = false)
      ∧ (g.stack_depth ≠ 0 → same_config g (run g evs)) := by
  induction hb with
  | nil =>
    intro g
    exact ⟨rfl, fun _ _ => rfl, fun h => h, fun _ => same_config_refl g⟩
  | character_data s _ ih =>
    intro g
    rw [run_cons]
    obtain ⟨h1, h2, h3, h4⟩ := ih (handle_event g (xml_event.character_data s))
    simp only [handle_event] at h1 h2 h3 h4 ⊢
    rw [character_data_handler_stack_depth] at h1 h2 h3 h4
    refine ⟨h1, ?_, ?_, ?_⟩
    · intro i hi
      rw [h2 i hi, character_data_handler_below g s i hi]
    · intro hf
      apply h3
      rw [character_data_handler_extract_string]
      exact hf
    · intro hd
      exact same_config_trans (character_data_handler_same_config g s) (h4 hd)
  | comment data _ ih =>
    intro g
    rw [run_cons]
    obtain ⟨h1, h2, h3, h4⟩ := ih (handle_event g (xml_event.comment data))
    simp only [handle_event, comment_handler] at h1 h2 h3 h4 ⊢
    exact ⟨h1, h2, h3, fun hd => same_config_trans ⟨rfl, rfl, rfl, rfl, rfl, rfl⟩ (h4 hd)⟩
  | @element name attributes line body rest _ _ ihb ihr =>
    intro g
    rw [run_cons, run_append, run_cons]
    simp only [handle_event]
    obtain ⟨b1, b2, _, b4⟩ := ihb (start_element_handler g name attributes line)
    rw [start_element_handler_stack_depth] at b1 b2 b4
    obtain ⟨r1, r2, r3, r4⟩ := ihr
      (end_element_handler (run (start_element_handler g name attributes line) body) name)
    rw [end_element_handler_stack_depth, b1, Nat.add_sub_cancel] at r1 r2 r3 r4
    have hparent : ((end_element_handler
        (run (start_element_handler g name attributes line) body) name).stack
          g.stack_depth).extract_string = false := by
      rw [end_element_handler_below _ _ _ (by rw [b1]; omega), b2 _ (by omega)]
      exact start_element_handler_parent g name attributes line
    refine ⟨r1, ?_, fun _ => r3 hparent, ?_⟩
    · intro i hi
      rw [r2 i hi, end_element_handler_below _ _ _ (by rw [b1]; omega), b2 _ (by omega),
        start_element_handler_below g name attributes line i hi]
    · intro hd
      exact same_config_trans
        (same_config_trans (start_element_handler_same_config g name attributes line hd)
          (b4 (by omega)))
        (same_config_trans (end_element_handler_same_config _ name) (r4 hd))

/-- Inside a document with root `root` the depth is not 0 and the dialect binding is the
one `check_file_type` made for `root`. -/
theorem run_inside_root {root : String} {pre : List xml_event} (hp : inside_root root pre) :
    ∀ g : state, g.stack_depth = 0 →
      (run g pre).stack_depth ≠ 0 ∧ same_config (check_file_type g root) (run g pre) := by
  induction hp with
  | root attributes line =>
    intro g h0
    rw [run_cons, run_nil]
    simp only [handle_event]
    rw [start_element_handler_eq g root attributes line _ rfl]
    simp [same_config, h0]
  | content _ hb ih =>
    intro g h0
    obtain ⟨i1, i2⟩ := ih g h0
    obtain ⟨c1, _, _, c4⟩ := run_balanced hb (run g _)
    rw [run_append]
    exact ⟨by rw [c1]; exact i1, same_config_trans i2 (c4 i1)⟩
  | child name attributes line _ ih =>
    intro g h0
    obtain ⟨i1, i2⟩ := ih g h0
    rw [run_append, run_cons, run_nil]
    simp only [handle_event]
    refine ⟨?_, same_config_trans i2
      (start_element_handler_same_config _ name attributes line i1)⟩
    rw [start_element_handler_stack_depth]
    omega

theorem check_file_type_glade2 (g : state) :
    (check_file_type g "glade-interface").do_start_element = se_handler.glade2_start_element
    ∧ (check_file_type g "glade-interface").get_shapes = shapes_handler.get_glade2_shapes := by
  cases hdk : g.default_keywords
  · simp [check_file_type, init_glade2_tags, init_tags_of_not_default, hdk]
  · simp [check_file_type, init_glade2_tags, init_tags_of_default, hdk]

theorem check_file_type_glade2_tags (g : state) (h : g.default_keywords = true) :
    (check_file_type g "glade-interface").tags = some ["property", "atkproperty", "atkaction"] := by
  simp [check_file_type, init_glade2_tags, init_tags_of_default, h, hash_insert_entry,
    hash_init]

theorem check_file_type_glade2_eq (g : state) (h : g.default_keywords = true) :
    check_file_type g "glade-interface"
      = { g with
          tags := some ["property", "atkproperty", "atkaction"]
          do_start_element := se_handler.glade2_start_element
          get_shapes := shapes_handler.get_glade2_shapes } := by
  simp [check_file_type, init_glade2_tags, init_tags_of_default, h, hash_insert_entry,
    hash_init]

theorem check_file_type_gtkbuilder_eq (g : state) (h : g.default_keywords = true) :
    check_file_type g "interface"
      = { g with
          tags := some ["property", "attribute", "col"]
          do_start_element := se_handler.gtkbuilder_start_element
          get_shapes := shapes_handler.get_gtkbuilder_shapes } := by
  simp [check_file_type, init_gtkbuilder_tags, init_tags_of_default, h, hash_insert_entry,
    hash_init]

theorem check_file_type_glade1_eq (g : state) (h : g.default_keywords = true) :
    check_file_type g "GTK-Interface"
      = { g with
          tags := some ["label", "title", "text", "format", "copyright", "comments",
                        "preview_text", "tooltip"]
          do_start_element := se_handler.glade_start_element
          get_shapes := shapes_handler.get_glade_shapes } := by
  simp [check_file_type, init_glade1_tags, init_tags_of_default, h, hash_insert_entry,
    hash_init]

theorem check_file_type_other_eq (g : state) (r : String) (h1 : r ≠ "glade-interface")
    (h2 : r ≠ "interface") (h3 : r ≠ "GTK-Interface") :
    check_file_type g r
      = { g with
          tags := none
          do_start_element := se_handler.glade_start_element
          get_shapes := shapes_handler.get_glade_shapes } := by
  simp [check_file_type, h1, h2, h3, clear_tags_eq]

theorem hash_find_entry_iff (t : hash_table) (n : String) :
    hash_find_entry t n = 0 ↔ n ∈ t := by
  unfold hash_find_entry
  by_cases hn : n ∈ t <;> simp [hn]

/-- In Glade 2 the start-tag policy leaves `extract_string` of an `atkaction` element equal
to `extract_all`. -/
theorem glade2_atkaction_extract_string (g : state) (attributes : List (String × String))
    (line : Nat) :
    (glade2_start_element g (candidate_state g "atkaction" line) "atkaction" attributes
      line).1.extract_string = g.extract_all := by
  unfold glade2_start_element candidate_state
  cases hx : g.extract_all
  · cases ht : is_tag g "atkaction" <;> simp [hx, ht]
  · simp [hx]

theorem start_element_handler_top (g : state) (name : String)
    (attributes : List (String × String)) (line : Nat) (h : g.stack_depth ≠ 0) :
    (start_element_handler g name attributes line).stack
        (start_element_handler g name attributes line).stack_depth
      = (call_start_element g (candidate_state g name line) name attributes line).1 := by
  rw [start_element_handler_eq g name attributes line _ rfl]
  simp [h, set_slot]

theorem start_element_handler_mlp (g : state) (name : String)
    (attributes : List (String × String)) (line : Nat) (h : g.stack_depth ≠ 0) :
    (start_element_handler g name attributes line).mlp
      = g.mlp ++ (call_start_element g (candidate_state g name line) name attributes line).2 := by
  rw [start_element_handler_eq g name attributes line _ rfl]
  simp [h]

/-- Character data hands nothing to the sink and leaves the depth and the eligibility of
the current element as they were. -/
theorem run_character_data (chunks : List String) :
    ∀ g : state,
      (run g (chunks.map xml_event.character_data)).mlp = g.mlp
      ∧ (run g (chunks.map xml_event.character_data)).stack_depth = g.stack_depth
      ∧ ((run g (chunks.map xml_event.character_data)).stack g.stack_depth).extract_string
          = (g.stack g.stack_depth).extract_string := by
  induction chunks with
  | nil =>
    intro g
    exact ⟨rfl, rfl, rfl⟩
  | cons c cs ih =>
    intro g
    rw [List.map_cons, run_cons]
    simp only [handle_event]
    obtain ⟨h1, h2, h3⟩ := ih (character_data_handler g c)
    rw [character_data_handler_stack_depth] at h2 h3
    rw [character_data_handler_mlp] at h1
    rw [character_data_handler_extract_string] at h3
    exact ⟨h1, h2, h3⟩

theorem glade2_scan_cons (k v : String) (rest : List (String × String))
    (a : glade2_locals) :
    glade2_scan false ((k, v) :: rest) a = glade2_scan false rest (glade2_step k v a) := by
  rw [glade2_scan]
  unfold glade2_step
  split_ifs <;> simp_all

theorem gtkbuilder_scan_cons (k v : String) (rest : List (String × String))
    (a : gtkbuilder_locals) :
    gtkbuilder_scan ((k, v) :: rest) a = gtkbuilder_scan rest (gtkbuilder_step k v a) := by
  rw [gtkbuilder_scan]
  unfold gtkbuilder_step
  split_ifs <;> rfl

theorem glade2_scan_translatable (attributes : List (String × String))
    (hn : (attributes.map Prod.fst).Nodup) :
    (glade2_scan false attributes
      { has_translatable := false, has_context := false, extracted_comment := none,
        remembered := none }).has_translatable = true
      ↔ ("translatable", "yes") ∈ attributes :=
  scan_field_yes_iff (glade2_scan false) glade2_step (fun a => a.has_translatable)
    "translatable" (fun _ => rfl) glade2_scan_cons
    (fun k v a hk => by simp [glade2_step, hk]; split_ifs <;> rfl)
    (fun v a => by simp [glade2_step]) attributes _ rfl hn

theorem glade2_scan_context (attributes : List (String × String))
    (hn : (attributes.map Prod.fst).Nodup) :
    (glade2_scan false attributes
      { has_translatable := false, has_context := false, extracted_comment := none,
        remembered := none }).has_context = true
      ↔ ("context", "yes") ∈ attributes :=
  scan_field_yes_iff (glade2_scan false) glade2_step (fun a => a.has_context)
    "context" (fun _ => rfl) glade2_scan_cons
    (fun k v a hk => by simp [glade2_step, hk]; split_ifs <;> rfl)
    (fun v a => by simp [glade2_step]) attributes _ rfl hn

theorem glade2_scan_comments (attributes : List (String × String))
    (hn : (attributes.map Prod.fst).Nodup) (c : String) :
    (glade2_scan false attributes
      { has_translatable := false, has_context := false, extracted_comment := none,
        remembered := none }).extracted_comment = some c
      ↔ ("comments", c) ∈ attributes :=
  scan_field_some_iff (glade2_scan false) glade2_step (fun a => a.extracted_comment)
    "comments" (fun _ => rfl) glade2_scan_cons
    (fun k v a hk => by simp [glade2_step, hk]; split_ifs <;> rfl)
    (fun v a => by simp [glade2_step]) attributes _ rfl hn c

theorem gtkbuilder_scan_translatable (attributes : List (String × String))
    (hn : (attributes.map Prod.fst).Nodup) :
    (gtkbuilder_scan attributes
      { has_translatable := false, extracted_comment := none,
        extracted_context := none }).has_translatable = true
      ↔ ("translatable", "yes") ∈ attributes :=
  scan_field_yes_iff gtkbuilder_scan gtkbuilder_step (fun a => a.has_translatable)
    "translatable" (fun _ => rfl) gtkbuilder_scan_cons
    (fun k v a hk => by simp [gtkbuilder_step, hk]; split_ifs <;> rfl)
    (fun v a => by simp [gtkbuilder_step]) attributes _ rfl hn

theorem gtkbuilder_scan_comments (attributes : List (String × String))
    (hn : (attributes.map Prod.fst).Nodup) (c : String) :
    (gtkbuilder_scan attributes
      { has_translatable := false, extracted_comment := none,
        extracted_context := none }).extracted_comment = some c
      ↔ ("comments", c) ∈ attributes :=
  scan_field_some_iff gtkbuilder_scan gtkbuilder_step (fun a => a.extracted_comment)
    "comments" (fun _ => rfl) gtkbuilder_scan_cons
    (fun k v a hk => by simp [gtkbuilder_step, hk]; split_ifs <;> rfl)
    (fun v a => by simp [gtkbuilder_step]) attributes _ rfl hn c

theorem gtkbuilder_scan_context (attributes : List (String × String))
    (hn : (attributes.map Prod.fst).Nodup) (c : String) :
    (gtkbuilder_scan attributes
      { has_translatable := false, extracted_comment := none,
        extracted_context := none }).extracted_context = some c
      ↔ ("context", c) ∈ attributes :=
  scan_field_some_iff gtkbuilder_scan gtkbuilder_step (fun a => a.extracted_context)
    "context" (fun _ => rfl) gtkbuilder_scan_cons
    (fun k v a hk => by simp [gtkbuilder_step, hk]; split_ifs <;> rfl)
    (fun v a => by simp [gtkbuilder_step]) attributes _ rfl hn c

theorem candidate_state_extract_string (g : state) (name : String) (line : Nat) :
    (candidate_state g name line).extract_string = (g.extract_all || is_tag g name) := by
  unfold candidate_state
  cases g.extract_all <;> simp

theorem is_tag_of_no_tables (g : state) (n : String) (hk : g.keywords = none)
    (ht : g.tags = none) : is_tag g n = false := by
  unfold is_tag
  cases g.default_keywords <;> simp [hk, ht]

/-- A push under the default policy, with extract-all off and neither keywords nor tags:
nothing reaches the sink and the new element is not eligible. -/
theorem start_element_handler_quiet (g : state) (name : String)
    (attributes : List (String × String)) (line : Nat) (g1 : state)
    (hg1 : g1 = if g.stack_depth = 0 then check_file_type g name else g)
    (he : g1.extract_all = false) (hk : g1.keywords = none) (ht : g1.tags = none)
    (hb : g1.do_start_element = se_handler.glade_start_element) :
    (start_element_handler g name attributes line).mlp = g.mlp
    ∧ ((start_element_handler g name attributes line).stack
        (g.stack_depth + 1)).extract_string = false
    ∧ same_config g1 (start_element_handler g name attributes line) := by
  have hcall : call_start_element g1 (candidate_state g1 name line) name attributes line
      = (candidate_state g1 name line, []) := by
    unfold call_start_element
    rw [hb]
    rfl
  have hcand : (candidate_state g1 name line).extract_string = false := by
    rw [candidate_state_extract_string, he, is_tag_of_no_tables g1 name hk ht]
    rfl
  rw [start_element_handler_eq g name attributes line g1 hg1, hcall]
  refine ⟨by simp, ?_, ⟨rfl, rfl, rfl, rfl, rfl, rfl⟩⟩
  simp [set_slot, hcand]

/-- Complete content below the root, under the default policy with extract-all off and
neither keywords nor tags: nothing reaches the sink. -/
theorem run_quiet {evs : List xml_event} (hb : balanced evs) :
    ∀ g : state, g.stack_depth ≠ 0 → g.extract_all = false → g.keywords = none →
      g.tags = none → g.do_start_element = se_handler.glade_start_element →
      (run g evs).mlp = g.mlp := by
  induction hb with
  | nil =>
    intro g _ _ _ _ _
    rfl
  | character_data s _ ih =>
    intro g hd he hk ht hbd
    rw [run_cons]
    simp only [handle_event]
    obtain ⟨c1, c2, c3, c4, c5, _⟩ := character_data_handler_same_config g s
    rw [ih (character_data_handler g s)
      (by rw [character_data_handler_stack_depth]; exact hd)
      (c1.trans he) (c2.trans hk) (c4.trans ht) (c5.trans hbd),
      character_data_handler_mlp]
  | comment data _ ih =>
    intro g hd he hk ht hbd
    rw [run_cons]
    simp only [handle_event]
    exact ih (comment_handler g data) hd he hk ht hbd
  | @element name attributes line body rest hbody _ ihb ihr =>
    intro g hd he hk ht hbd
    rw [run_cons, run_append, run_cons]
    simp only [handle_event]
    obtain ⟨s1, s2, s3⟩ := start_element_handler_quiet g name attributes line g
      (by simp [hd]) he hk ht hbd
    obtain ⟨c1, c2, _, c4, c5, _⟩ := s3
    have hd1 : (start_element_handler g name attributes line).stack_depth ≠ 0 := by
      rw [start_element_handler_stack_depth]
      omega
    have hbody_mlp := ihb (start_element_handler g name attributes line) hd1
      (c1.trans he) (c2.trans hk) (c4.trans ht) (c5.trans hbd)
    obtain ⟨b1, _, b3, b4⟩ := run_balanced hbody (start_element_handler g name attributes line)
    obtain ⟨d1, d2, _, d4, d5, _⟩ := b4 hd1
    have htop : ((run (start_element_handler g name attributes line) body).stack
        (run (start_element_handler g name attributes line) body).stack_depth).extract_string
        = false := by
      rw [b1]
      apply b3
      rw [start_element_handler_stack_depth]
      exact s2
    have hend := end_element_handler_mlp_of_not_extract
      (run (start_element_handler g name attributes line) body) name htop
    rw [ihr (end_element_handler (run (start_element_handler g name attributes line) body)
        name)
      (by rw [end_element_handler_stack_depth, b1, start_element_handler_stack_depth,
            Nat.add_sub_cancel]; exact hd)
      ((d1.trans c1).trans he) ((d2.trans c2).trans hk) ((d4.trans c4).trans ht)
      ((d5.trans c5).trans hbd),
      hend, hbody_mlp, s1]

/-- The loop of `glade2_start_element` reaches its `remember_a_message` call iff the
element is `atkaction` and an attribute is named `description`. -/
theorem glade2_scan_remembered (is_atkaction : Bool) (attributes : List (String × String)) :
    ∀ a : glade2_locals, a.remembered = none →
      (glade2_scan is_atkaction attributes a).remembered.isSome
        = (is_atkaction && attributes.any (fun kv => decide (kv.1 = "description"))) := by
  induction attributes with
  | nil =>
    intro a ha
    simp [glade2_scan, ha]
  | cons kv rest ih =>
    intro a ha
    obtain ⟨k, v⟩ := kv
    rw [glade2_scan]
    by_cases h1 : k = "translatable"
    · rw [if_pos h1]
      refine (ih { a with has_translatable := decide (v = "yes") } ha).trans ?_
      subst h1
      simp
    · rw [if_neg h1]
      by_cases h2 : k = "comments"
      · rw [if_pos h2]
        refine (ih { a with extracted_comment := some v } ha).trans ?_
        subst h2
        simp
      · rw [if_neg h2]
        by_cases h3 : k = "context"
        · rw [if_pos h3]
          refine (ih { a with has_context := decide (v = "yes") } ha).trans ?_
          subst h3
          simp
        · rw [if_neg h3]
          by_cases h4 : (is_atkaction && decide (k = "description")) = true
          · rw [if_pos h4]
            simp only [Bool.and_eq_true, decide_eq_true_eq] at h4
            simp [h4.1, h4.2]
          · rw [if_neg h4]
            refine (ih _ ha).trans ?_
            cases is_atkaction
            · simp
            · have hk : k ≠ "description" := by simpa using h4
              simp [hk]

/-- The records a start-tag hands to the sink: one for an eligible Glade-2 `atkaction`
start-tag with a `description`, none otherwise. -/
theorem call_start_element_length (g : state) (name : String)
    (attributes : List (String × String)) (line : Nat) :
    (call_start_element g (candidate_state g name line) name attributes line).2.length
      = if (decide (g.do_start_element = se_handler.glade2_start_element)
            && (candidate_state g name line).extract_string
            && decide (name = "atkaction")
            && attributes.any (fun kv => decide (kv.1 = "description"))) = true
        then 1 else 0 := by
  unfold call_start_element
  cases hb : g.do_start_element
  · simp [glade_start_element]
  · simp only [decide_True, Bool.true_and]
    unfold glade2_start_element
    cases hc : (candidate_state g name line).extract_string
    · simp
    · have hr := glade2_scan_remembered (decide (name = "atkaction")) attributes
        { has_translatable := false, has_context := false, extracted_comment := none,
          remembered := none } rfl
      simp only [if_true, Bool.true_and]
      cases hrem : (glade2_scan (decide (name = "atkaction")) attributes
          { has_translatable := false, has_context := false, extracted_comment := none,
            remembered := none }).remembered with
      | none =>
        rw [hrem] at hr
        have hr2 : (decide (name = "atkaction")
            && attributes.any (fun kv => decide (kv.1 = "description"))) = false := by
          rw [← hr]
          rfl
        rw [hr2]
        by_cases hname : name = "atkaction" <;> simp [hname]
      | some d =>
        rw [hrem] at hr
        have hr2 : (decide (name = "atkaction")
            && attributes.any (fun kv => decide (kv.1 = "description"))) = true := by
          rw [← hr]
          rfl
        rw [hr2]
        by_cases hname : name = "atkaction" <;> simp [hname]
  · simp [gtkbuilder_start_element]

theorem call_start_element_buflen (g : state) (name : String)
    (attributes : List (String × String)) (line : Nat) :
    (call_start_element g (candidate_state g name line) name attributes line).1.buflen = 0 := by
  have hc : (candidate_state g name line).buflen = 0 := by
    unfold candidate_state
    cases g.extract_all <;> simp
  unfold call_start_element
  cases g.do_start_element
  · exact hc
  · unfold glade2_start_element
    by_cases he : (candidate_state g name line).extract_string = true
    · by_cases hname : name = "atkaction"
      · subst hname
        simp [he, hc]
      · simp [he, hname, hc]
    · simp [he, hc]
  · unfold gtkbuilder_start_element
    simp only
    split_ifs <;> simp [hc]

theorem start_element_handler_length (g : state) (name : String)
    (attributes : List (String × String)) (line : Nat) :
    (start_element_handler g name attributes line).mlp.length
      = g.mlp.length + if atkaction_description_tag g name attributes line = true then 1 else 0 := by
  rw [start_element_handler_eq g name attributes line _ rfl]
  simp only [List.length_append, call_start_element_length]
  rfl

theorem end_element_handler_length (g : state) (name : String) :
    (end_element_handler g name).mlp.length
      = g.mlp.length + if eligible_end_tag g = true then 1 else 0 := by
  cases he : (g.stack g.stack_depth).extract_string
  · simp [end_element_handler, eligible_end_tag, he]
  · by_cases hl : 0 < (g.stack g.stack_depth).buflen
    · simp [end_element_handler, eligible_end_tag, he, hl]
    · simp [end_element_handler, eligible_end_tag, he, hl]

/-- The sink grows by one record for every counted tag and by nothing else. -/
theorem run_length (evs : List xml_event) :
    ∀ g : state, (run g evs).mlp.length = g.mlp.length + count_messages g evs := by
  induction evs with
  | nil =>
    intro g
    rfl
  | cons e evs ih =>
    intro g
    rw [run_cons, ih]
    cases e with
    | start_element name attributes line =>
      simp only [handle_event, count_messages]
      rw [start_element_handler_length]
      omega
    | end_element name =>
      simp only [handle_event, count_messages]
      rw [end_element_handler_length]
      omega
    | character_data s =>
      simp only [handle_event, count_messages]
      rw [character_data_handler_mlp]
    | comment data =>
      simp only [handle_event, count_messages]
      rfl

theorem handle_event_stack_depth_start (g : state) (n : String)
    (a : List (String × String)) (l : Nat) :
    (handle_event g (xml_event.start_element n a l)).stack_depth = g.stack_depth + 1 :=
  start_element_handler_stack_depth g n a l

/-- The depth facts of `balanced_depth` for the Glade engine. -/
theorem run_depth {evs : List xml_event} (hb : balanced evs) (g : state) :
    (run g evs).stack_depth = g.stack_depth
    ∧ (∀ pre suf, pre ++ suf = evs → g.stack_depth ≤ (run g pre).stack_depth)
    ∧ (∀ pre name suf, pre ++ xml_event.end_element name :: suf = evs →
        g.stack_depth + 1 ≤ (run g pre).stack_depth) :=
  balanced_depth handle_event (fun s => s.stack_depth)
    handle_event_stack_depth_start
    (fun s n => end_element_handler_stack_depth s n)
    (fun s t => character_data_handler_stack_depth s t)
    (fun _ _ => rfl) hb g

theorem handle_event_same_config (g : state) (e : xml_event) (h : g.stack_depth ≠ 0) :
    same_config g (handle_event g e) := by
  cases e with
  | start_element n a l => exact start_element_handler_same_config g n a l h
  | end_element n => exact end_element_handler_same_config g n
  | character_data s => exact character_data_handler_same_config g s
  | comment d => exact ⟨rfl, rfl, rfl, rfl, rfl, rfl⟩

/-- While every event arrives at a depth other than 0, `check_file_type` is not called and
the configuration and the dialect binding stay as they are. -/
theorem run_below_root (evs : List xml_event) :
    ∀ g : state, (∀ p1 e p2, p1 ++ e :: p2 = evs → (run g p1).stack_depth ≠ 0) →
      same_config g (run g evs) ∧ check_file_type_calls g evs = 0 := by
  induction evs with
  | nil =>
    intro g _
    exact ⟨same_config_refl g, rfl⟩
  | cons e evs ih =>
    intro g h
    have hd : g.stack_depth ≠ 0 := h [] e evs rfl
    obtain ⟨i1, i2⟩ := ih (handle_event g e) (fun p1 e1 p2 hp => by
      have := h (e :: p1) e1 p2 (by rw [List.cons_append, hp])
      rwa [run_cons] at this)
    refine ⟨same_config_trans (handle_event_same_config g e hd) i1, ?_⟩
    cases e with
    | start_element n a l =>
      simp only [check_file_type_calls, hd, if_false]
      simpa [handle_event] using i2
    | end_element n => simpa [check_file_type_calls, handle_event] using i2
    | character_data s => simpa [check_file_type_calls, handle_event] using i2
    | comment d => simpa [check_file_type_calls, handle_event] using i2

/-- Inside an element that was opened at a depth other than 0, every event up to and
including its end-tag arrives at a depth other than 0. -/
theorem element_events_below_root {body : List xml_event} (hb : balanced body) (g : state)
    (hd : g.stack_depth ≠ 0) (name : String) :
    ∀ p1 e p2, p1 ++ e :: p2 = body ++ [xml_event.end_element name] →
      (run g p1).stack_depth ≠ 0 := by
  intro p1 e p2 h
  obtain ⟨d1, d2, _⟩ := run_depth hb g
  rcases List.append_eq_append_iff.1 h with ⟨a1, ha, _⟩ | ⟨c1, hc1, hc2⟩
  · have := d2 p1 a1 ha.symm
    omega
  · cases c1 with
    | nil =>
      rw [List.append_nil] at hc1
      rw [hc1, d1]
      exact hd
    | cons x c2 =>
      rw [List.cons_append, List.cons.injEq] at hc2
      have := hc2.2
      cases c2 <;> simp at this

/-- The candidate set and the dialect binding `check_file_type` makes depend on the root tag
name and on `default_keywords` only. -/
theorem check_file_type_binding (g g1 : state) (r : String)
    (h : g1.default_keywords = g.default_keywords) :
    (check_file_type g1 r).tags = (check_file_type g r).tags
    ∧ (check_file_type g1 r).do_start_element = (check_file_type g r).do_start_element
    ∧ (check_file_type g1 r).get_shapes = (check_file_type g r).get_shapes := by
  by_cases h1 : r = "glade-interface"
  · subst h1
    cases hd : g.default_keywords
    · simp [check_file_type, init_glade2_tags, init_tags_of_not_default, h, hd]
    · rw [check_file_type_glade2_eq g hd, check_file_type_glade2_eq g1 (h.trans hd)]
      exact ⟨rfl, rfl, rfl⟩
  · by_cases h2 : r = "interface"
    · subst h2
      cases hd : g.default_keywords
      · simp [check_file_type, init_gtkbuilder_tags, init_tags_of_not_default, h, hd]
      · rw [check_file_type_gtkbuilder_eq g hd, check_file_type_gtkbuilder_eq g1 (h.trans hd)]
        exact ⟨rfl, rfl, rfl⟩
    · by_cases h3 : r = "GTK-Interface"
      · subst h3
        cases hd : g.default_keywords
        · simp [check_file_type, init_glade1_tags, init_tags_of_not_default, h, hd]
        · rw [check_file_type_glade1_eq g hd, check_file_type_glade1_eq g1 (h.trans hd)]
          exact ⟨rfl, rfl, rfl⟩
      · rw [check_file_type_other_eq g r h1 h2 h3, check_file_type_other_eq g1 r h1 h2 h3]
        exact ⟨rfl, rfl, rfl⟩

/-- The root start-tag leaves the configuration and the binding `check_file_type` made. -/
theorem start_element_handler_root_config (g : state) (name : String)
    (attributes : List (String × String)) (line : Nat) (h : g.stack_depth = 0) :
    same_config (check_file_type g name) (start_element_handler g name attributes line) := by
  rw [start_element_handler_eq g name attributes line _ rfl]
  simp [same_config, h]

theorem candidate_state_congr (g1 g2 : state) (name : String) (line : Nat)
    (h1 : g1.extract_all = g2.extract_all) (h2 : g1.keywords = g2.keywords)
    (h3 : g1.default_keywords = g2.default_keywords) (h4 : g1.tags = g2.tags) :
    candidate_state g1 name line = candidate_state g2 name line := by
  unfold candidate_state is_tag
  rw [h1, h2, h3, h4]

theorem call_start_element_congr (g1 g2 : state) (p : element_state) (name : String)
    (attributes : List (String × String)) (line : Nat)
    (h1 : g1.extract_all = g2.extract_all) (h2 : g1.savable_comment = g2.savable_comment)
    (h3 : g1.do_start_element = g2.do_start_element) :
    call_start_element g1 p name attributes line
      = call_start_element g2 p name attributes line := by
  unfold call_start_element glade_start_element glade2_start_element gtkbuilder_start_element
  rw [h1, h2, h3]

theorem agree_start_element (g1 g2 : state) (name : String)
    (attributes : List (String × String)) (line : Nat) (h : agree g1 g2) :
    agree (start_element_handler g1 name attributes line)
      (start_element_handler g2 name attributes line) := by
  obtain ⟨a1, a2, a3, a4, a5, a6, a7, a8⟩ := h
  have hlive : ∀ k1 k2 : state,
      k1 = (if g1.stack_depth = 0 then check_file_type g1 name else g1) →
      k2 = (if g2.stack_depth = 0 then check_file_type g2 name else g2) →
      k1.extract_all = k2.extract_all ∧ k1.keywords = k2.keywords
        ∧ k1.default_keywords = k2.default_keywords ∧ k1.tags = k2.tags
        ∧ k1.do_start_element = k2.do_start_element ∧ k1.get_shapes = k2.get_shapes
        ∧ k1.savable_comment = k2.savable_comment := by
    intro k1 k2 e1 e2
    by_cases hd : g1.stack_depth = 0
    · have hd2 : g2.stack_depth = 0 := by rw [← a6]; exact hd
      rw [if_pos hd] at e1
      rw [if_pos hd2] at e2
      subst e1 e2
      obtain ⟨b1, b2, b3⟩ := check_file_type_binding g2 g1 name a3
      simp only [check_file_type_extract_all, check_file_type_keywords,
        check_file_type_default_keywords, check_file_type_savable_comment]
      exact ⟨a1, a2, a3, b1, b2, b3, a4⟩
    · have hd2 : ¬ g2.stack_depth = 0 := by rw [← a6]; exact hd
      rw [if_neg hd] at e1
      rw [if_neg hd2] at e2
      subst e1 e2
      obtain ⟨b1, b2, b3⟩ := a7 hd
      exact ⟨a1, a2, a3, b1, b2, b3, a4⟩
  obtain ⟨l1, l2, l3, l4, l5, l6, l7⟩ := hlive _ _ rfl rfl
  have hcall : call_start_element
        (if g1.stack_depth = 0 then check_file_type g1 name else g1)
        (candidate_state (if g1.stack_depth = 0 then check_file_type g1 name else g1) name
          line) name attributes line
      = call_start_element
        (if g2.stack_depth = 0 then check_file_type g2 name else g2)
        (candidate_state (if g2.stack_depth = 0 then check_file_type g2 name else g2) name
          line) name attributes line := by
    rw [candidate_state_congr _ _ name line l1 l2 l3 l4]
    exact call_start_element_congr _ _ _ name attributes line l1 l7 l5
  rw [start_element_handler_eq g1 name attributes line _ rfl,
    start_element_handler_eq g2 name attributes line _ rfl, hcall]
  refine ⟨l1, l2, l3, ?_, ?_, ?_, fun _ => ⟨l4, l5, l6⟩, ?_⟩
  · simp only
    rw [a4]
  · simp only
    rw [a5]
  · simp only
    rw [a6]
  · intro i hi1 hi2
    simp only at hi2 ⊢
    rw [← a6]
    by_cases e1 : i = g1.stack_depth + 1
    · simp [set_slot, e1]
    · by_cases e2 : i = g1.stack_depth
      · have := a8 i hi1 (by omega)
        simp [set_slot, e2] at this ⊢
        rw [this]
        exact ⟨rfl, rfl, rfl, rfl, rfl, rfl, rfl⟩
      · have := a8 i hi1 (by omega)
        simp [set_slot, e1, e2, this]

theorem agree_end_element (g1 g2 : state) (name : String) (h : agree g1 g2)
    (hd : g1.stack_depth ≠ 0) :
    agree (end_element_handler g1 name) (end_element_handler g2 name) := by
  obtain ⟨a1, a2, a3, a4, a5, a6, a7, a8⟩ := h
  obtain ⟨b1, b2, b3⟩ := a7 hd
  have hp : g1.stack g1.stack_depth = g2.stack g2.stack_depth := by
    rw [← a6]
    exact a8 _ (by omega) (Nat.le_refl _)
  have hshapes : ∀ c, call_get_shapes g1 name c = call_get_shapes g2 name c := by
    intro c
    unfold call_get_shapes
    rw [b3]
  have hstore : ∀ p sh, store_message g1 p sh = store_message g2 p sh := by
    intro p sh
    unfold store_message
    rw [a4]
  unfold end_element_handler
  simp only [hp, hshapes, hstore]
  refine ⟨a1, a2, a3, rfl, ?_, ?_, fun _ => ⟨b1, b2, b3⟩, ?_⟩
  · simp only
    rw [a5]
  · simp only
    rw [a6]
  · intro i hi1 hi2
    simp only at hi2 ⊢
    have hne1 : i ≠ g1.stack_depth := by omega
    have hne2 : i ≠ g2.stack_depth := by omega
    rw [set_slot_other _ _ _ _ hne1, set_slot_other _ _ _ _ hne2]
    exact a8 i hi1 (by omega)

theorem agree_character_data (g1 g2 : state) (s : String) (h : agree g1 g2) :
    agree (character_data_handler g1 s) (character_data_handler g2 s) := by
  obtain ⟨a1, a2, a3, a4, a5, a6, a7, a8⟩ := h
  by_cases hl : s.length > 0
  · simp only [character_data_handler, hl, if_true]
    refine ⟨a1, a2, a3, a4, a5, a6, a7, ?_⟩
    intro i hi1 hi2
    simp only at hi2 ⊢
    by_cases e : i = g1.stack_depth
    · have := a8 i hi1 hi2
      rw [← a6]
      subst e
      simp [set_slot, this]
    · have e2 : i ≠ g2.stack_depth := by rw [← a6]; exact e
      rw [set_slot_other _ _ _ _ e, set_slot_other _ _ _ _ e2]
      exact a8 i hi1 hi2
  · simp only [character_data_handler, hl, if_false]
    exact ⟨a1, a2, a3, a4, a5, a6, a7, a8⟩

theorem agree_comment (g1 g2 : state) (data : String) (h : agree g1 g2) :
    agree (comment_handler g1 data) (comment_handler g2 data) := by
  obtain ⟨a1, a2, a3, a4, a5, a6, a7, a8⟩ := h
  unfold comment_handler
  refine ⟨a1, a2, a3, ?_, a5, a6, a7, a8⟩
  simp only
  rw [a4]

/-- Balanced events keep two agreeing states in agreement. -/
theorem agree_run {evs : List xml_event} (hb : balanced evs) :
    ∀ g1 g2 : state, agree g1 g2 → agree (run g1 evs) (run g2 evs) := by
  induction hb with
  | nil =>
    intro g1 g2 h
    exact h
  | character_data s _ ih =>
    intro g1 g2 h
    rw [run_cons, run_cons]
    exact ih _ _ (agree_character_data g1 g2 s h)
  | comment data _ ih =>
    intro g1 g2 h
    rw [run_cons, run_cons]
    exact ih _ _ (agree_comment g1 g2 data h)
  | @element name attributes line body rest hbody _ ihb ihr =>
    intro g1 g2 h
    rw [run_cons, run_append, run_cons, run_cons, run_append, run_cons]
    simp only [handle_event]
    apply ihr
    apply agree_end_element _ _ name
      (ihb _ _ (agree_start_element g1 g2 name attributes line h))
    rw [(run_balanced hbody _).1, start_element_handler_stack_depth]
    omega

/-- No callback changes the keyword customisation. -/
theorem run_keyword_config (evs : List xml_event) :
    ∀ g : state, (run g evs).extract_all = g.extract_all
      ∧ (run g evs).keywords = g.keywords
      ∧ (run g evs).default_keywords = g.default_keywords := by
  induction evs with
  | nil =>
    intro g
    exact ⟨rfl, rfl, rfl⟩
  | cons e evs ih =>
    intro g
    rw [run_cons]
    obtain ⟨i1, i2, i3⟩ := ih (handle_event g e)
    have hstep : (handle_event g e).extract_all = g.extract_all
        ∧ (handle_event g e).keywords = g.keywords
        ∧ (handle_event g e).default_keywords = g.default_keywords := by
      cases e with
      | start_element n a l =>
        simp only [handle_event]
        rw [start_element_handler_eq g n a l _ rfl]
        by_cases hd : g.stack_depth = 0 <;> simp [hd]
      | end_element n => exact ⟨rfl, rfl, rfl⟩
      | character_data s =>
        obtain ⟨c1, c2, c3, _⟩ := character_data_handler_same_config g s
        exact ⟨c1, c2, c3⟩
      | comment d => exact ⟨rfl, rfl, rfl⟩
    exact ⟨i1.trans hstep.1, i2.trans hstep.2.1, i3.trans hstep.2.2⟩

theorem candidate_state_fields (g : state) (name : String) (line : Nat) :
    candidate_state g name line
      = { extract_string := g.extract_all || is_tag g name
          extract_context := false
          extracted_comment := none
          extracted_context := none
          lineno := line
          buffer := none
          bufmax := 0
          buflen := 0 } := by
  unfold candidate_state
  cases g.extract_all <;> simp

theorem call_start_element_frame (g : state) (p : element_state) (name : String)
    (attributes : List (String × String)) (line : Nat) :
    (call_start_element g p name attributes line).1.buffer = p.buffer
    ∧ (call_start_element g p name attributes line).1.bufmax = p.bufmax
    ∧ (call_start_element g p name attributes line).1.buflen = p.buflen
    ∧ (call_start_element g p name attributes line).1.lineno = p.lineno := by
  unfold call_start_element
  cases g.do_start_element
  · exact ⟨rfl, rfl, rfl, rfl⟩
  · unfold glade2_start_element
    by_cases he : p.extract_string = true
    · by_cases hname : name = "atkaction"
      · subst hname
        simp [he]
      · simp [he, hname]
    · simp [he]
  · unfold gtkbuilder_start_element
    simp only
    split_ifs <;> simp

theorem start_element_handler_new (g : state) (name : String)
    (attributes : List (String × String)) (line : Nat) (g1 : state)
    (hg1 : g1 = if g.stack_depth = 0 then check_file_type g name else g) :
    (start_element_handler g name attributes line).stack (g.stack_depth + 1)
      = (call_start_element g1 (candidate_state g1 name line) name attributes line).1 := by
  rw [start_element_handler_eq g name attributes line g1 hg1]
  simp [set_slot]

theorem start_element_handler_stack_size (g : state) (name : String)
    (attributes : List (String × String)) (line : Nat) :
    (start_element_handler g name attributes line).stack_size
      = ensure_stack_size g.stack_size (g.stack_depth + 1 + 1) := by
  rw [start_element_handler_eq g name attributes line _ rfl]

theorem character_data_handler_empty (g : state) (s : String) (h : s.length = 0) :
    character_data_handler g s = g := by
  simp [character_data_handler, h]

theorem character_data_handler_top (g : state) (s : String) (h : 0 < s.length) :
    (character_data_handler g s).stack g.stack_depth
      = { g.stack g.stack_depth with
          bufmax :=
            if (g.stack g.stack_depth).buflen + s.length > (g.stack g.stack_depth).bufmax then
              if 2 * (g.stack g.stack_depth).bufmax < (g.stack g.stack_depth).buflen + s.length
              then (g.stack g.stack_depth).buflen + s.length
              else 2 * (g.stack g.stack_depth).bufmax
            else (g.stack g.stack_depth).bufmax
          buffer := some ((g.stack g.stack_depth).buffer.getD "" ++ s)
          buflen := (g.stack g.stack_depth).buflen + s.length } := by
  simp [character_data_handler, h, set_slot]

theorem character_data_handler_buffer (g : state) (s : String) :
    ((character_data_handler g s).stack g.stack_depth).buflen
        = (g.stack g.stack_depth).buflen + s.length
    ∧ ((character_data_handler g s).stack g.stack_depth).buffer.getD ""
        = (g.stack g.stack_depth).buffer.getD "" ++ s
    ∧ ((g.stack g.stack_depth).buflen ≤ (g.stack g.stack_depth).bufmax →
        ((character_data_handler g s).stack g.stack_depth).buflen
          ≤ ((character_data_handler g s).stack g.stack_depth).bufmax) := by
  by_cases h : 0 < s.length
  · rw [character_data_handler_top g s h]
    refine ⟨rfl, rfl, ?_⟩
    intro _
    simp only
    split_ifs <;> omega
  · have h0 : s.length = 0 := by omega
    rw [character_data_handler_empty g s h0]
    have hs : s = "" := by
      apply String.ext
      exact List.length_eq_zero.mp h0
    refine ⟨by omega, ?_, fun hle => hle⟩
    rw [hs]
    simp

theorem run_chunks (chunks : List String) :
    ∀ g : state,
      (run g (chunks.map xml_event.character_data)).stack_depth = g.stack_depth
      ∧ ((run g (chunks.map xml_event.character_data)).stack g.stack_depth).buflen
          = (g.stack g.stack_depth).buflen + (chunks.map String.length).sum
      ∧ ((g.stack g.stack_depth).buflen ≤ (g.stack g.stack_depth).bufmax →
          ((run g (chunks.map xml_event.character_data)).stack g.stack_depth).buflen
            ≤ ((run g (chunks.map xml_event.character_data)).stack g.stack_depth).bufmax) := by
  induction chunks with
  | nil => intro g; exact ⟨rfl, rfl, fun h => h⟩
  | cons s chunks ih =>
    intro g
    have hd := character_data_handler_stack_depth g s
    have hb := character_data_handler_buffer g s
    have h := ih (character_data_handler g s)
    rw [hd] at h
    simp only [List.map_cons, run_cons, handle_event, List.sum_cons]
    refine ⟨h.1, ?_, fun hle => h.2.2 (hb.2.2 hle)⟩
    rw [h.2.1, hb.1]
    omega

theorem handle_event_stack_bound (g : state) (e : xml_event)
    (h : g.stack_depth + 1 ≤ g.stack_size) :
    (handle_event g e).stack_depth + 1 ≤ (handle_event g e).stack_size := by
  cases e with
  | start_element name attributes line =>
    simp only [handle_event]
    rw [start_element_handler_stack_depth, start_element_handler_stack_size]
    unfold ensure_stack_size
    simp only
    split_ifs <;> omega
  | end_element name =>
    simp only [handle_event, end_element_handler]
    omega
  | character_data s =>
    simp only [handle_event]
    rw [character_data_handler_stack_depth]
    unfold character_data_handler
    simp only
    split_ifs <;> exact h
  | comment data => exact h

theorem run_stack_bound (evs : List xml_event) :
    ∀ g : state, g.stack_depth + 1 ≤ g.stack_size →
      (run g evs).stack_depth + 1 ≤ (run g evs).stack_size := by
  induction evs with
  | nil => intro g h; exact h
  | cons e evs ih =>
    intro g h
    rw [run_cons]
    exact ih _ (handle_event_stack_bound g e h)

theorem start_element_handler_stack_bound (g : state) (name : String)
    (attributes : List (String × String)) (line : Nat) :
    (start_element_handler g name attributes line).stack_depth + 1
      ≤ (start_element_handler g name attributes line).stack_size := by
  rw [start_element_handler_stack_depth, start_element_handler_stack_size]
  unfold ensure_stack_size
  simp only
  split_ifs <;> omega

theorem new_slot_congr (g g' : state) (name : String)
    (attributes : List (String × String)) (line : Nat)
    (hd : g'.stack_depth = g.stack_depth) (h1 : g'.extract_all = g.extract_all)
    (h2 : g'.keywords = g.keywords) (h3 : g'.default_keywords = g.default_keywords)
    (h4 : g'.tags = g.tags) (h5 : g'.do_start_element = g.do_start_element)
    (h6 : g'.savable_comment = g.savable_comment) :
    (call_start_element (if g'.stack_depth = 0 then check_file_type g' name else g')
        (candidate_state (if g'.stack_depth = 0 then check_file_type g' name else g')
          name line) name attributes line).1
      = (call_start_element (if g.stack_depth = 0 then check_file_type g name else g)
          (candidate_state (if g.stack_depth = 0 then check_file_type g name else g)
            name line) name attributes line).1 := by
  by_cases h : g.stack_depth = 0
  · have h' : g'.stack_depth = 0 := by rw [hd]; exact h
    rw [if_pos h, if_pos h']
    have hb := check_file_type_binding g g' name h3
    rw [candidate_state_congr (check_file_type g' name) (check_file_type g name) name line
      (by simp [h1]) (by simp [h2]) (by simp [h3]) hb.1]
    exact congrArg Prod.fst
      (call_start_element_congr _ _ _ _ _ _ (by simp [h1]) (by simp [h6]) hb.2.1)
  · have h' : ¬ g'.stack_depth = 0 := by rw [hd]; exact h
    rw [if_neg h, if_neg h']
    rw [candidate_state_congr g' g name line h1 h2 h3 h4]
    exact congrArg Prod.fst (call_start_element_congr _ _ _ _ _ _ h1 h6 h5)

theorem start_element_handler_overwrites (g : state) (name : String)
    (attributes : List (String × String)) (line : Nat) (v : element_state) :
    (start_element_handler { g with stack := set_slot g.stack (g.stack_depth + 1) v }
        name attributes line).stack (g.stack_depth + 1)
      = (start_element_handler g name attributes line).stack (g.stack_depth + 1) := by
  have h1 := start_element_handler_new
    { g with stack := set_slot g.stack (g.stack_depth + 1) v } name attributes line _ rfl
  have h2 := start_element_handler_new g name attributes line _ rfl
  exact h1.trans ((new_slot_congr g
    { g with stack := set_slot g.stack (g.stack_depth + 1) v } name attributes line
    rfl rfl rfl rfl rfl rfl rfl).trans h2.symm)

theorem start_element_handler_parent_slot (g : state) (name : String)
    (attributes : List (String × String)) (line : Nat) :
    (start_element_handler g name attributes line).stack g.stack_depth
      = { g.stack g.stack_depth with extract_string := false } := by
  rw [start_element_handler_eq g name attributes line _ rfl]
  simp [set_slot]

theorem handle_event_keeps_cleared (g : state) (e : xml_event) (d : Nat)
    (hd : d ≤ g.stack_depth) (h : (g.stack d).extract_string = false) :
    ((handle_event g e).stack d).extract_string = false := by
  cases e with
  | start_element name attributes line =>
    simp only [handle_event]
    rw [start_element_handler_eq g name attributes line _ rfl]
    have h1 : d ≠ g.stack_depth + 1 := by omega
    by_cases h2 : d = g.stack_depth
    · simp [set_slot, h2]
    · simp [set_slot, h1, h2, h]
  | end_element name =>
    by_cases h2 : d = g.stack_depth
    · subst h2
      simp [handle_event, end_element_handler, set_slot, h]
    · simp [handle_event, end_element_handler, set_slot, h2, h]
  | character_data s =>
    simp only [handle_event]
    by_cases h2 : d = g.stack_depth
    · subst h2
      rw [character_data_handler_extract_string, h]
    · rw [character_data_handler_below g s d (by omega), h]
  | comment data => exact h

theorem run_keeps_cleared (evs : List xml_event) :
    ∀ (g : state) (d : Nat), (g.stack d).extract_string = false →
      (∀ p1 e p2, p1 ++ e :: p2 = evs → d ≤ (run g p1).stack_depth) →
      ((run g evs).stack d).extract_string = false := by
  induction evs with
  | nil => intro g d h _; exact h
  | cons e evs ih =>
    intro g d h hp
    rw [run_cons]
    apply ih
    · exact handle_event_keeps_cleared g e d (hp [] e evs rfl) h
    · intro p1 e1 p2 heq
      have := hp (e :: p1) e1 p2 (by rw [← heq]; rfl)
      rwa [run_cons] at this

/-- After the push of a child the state of the parent is not eligible, and stays so up to
any point of the rest of the parent's content. -/
theorem run_after_child (g : state) (cname : String) (cattributes : List (String × String))
    (cline : Nat) (cbody post : List xml_event) (hcbody : balanced cbody)
    (hpost : balanced post) (p1 p2 : List xml_event)
    (hsplit : p1 ++ p2 = cbody ++ xml_event.end_element cname :: post) :
    ((run (start_element_handler g cname cattributes cline) p1).stack
        g.stack_depth).extract_string = false := by
  have hwhole := run_depth (balanced.element cname cattributes cline hcbody hpost) g
  apply run_keeps_cleared
  · exact start_element_handler_parent g cname cattributes cline
  · intro q1 e q2 heq
    have := hwhole.2.1 (xml_event.start_element cname cattributes cline :: q1)
      (e :: q2 ++ p2) (by
        rw [← hsplit, ← heq]
        simp)
    rwa [run_cons] at this

theorem character_data_handler_kept (g : state) (s : String) :
    ((character_data_handler g s).stack g.stack_depth).extract_context
        = (g.stack g.stack_depth).extract_context
    ∧ ((character_data_handler g s).stack g.stack_depth).extracted_context
        = (g.stack g.stack_depth).extracted_context
    ∧ ((character_data_handler g s).stack g.stack_depth).extracted_comment
        = (g.stack g.stack_depth).extracted_comment
    ∧ ((character_data_handler g s).stack g.stack_depth).lineno
        = (g.stack g.stack_depth).lineno := by
  by_cases h : 0 < s.length
  · rw [character_data_handler_top g s h]
    exact ⟨rfl, rfl, rfl, rfl⟩
  · rw [character_data_handler_empty g s (by omega)]
    exact ⟨rfl, rfl, rfl, rfl⟩

/-- Balanced content changes neither the context flag, the context, the comment nor the
line of the state of the element that holds it. -/
theorem run_balanced_top {evs : List xml_event} (hb : balanced evs) :
    ∀ g : state,
      ((run g evs).stack g.stack_depth).extract_context
          = (g.stack g.stack_depth).extract_context
      ∧ ((run g evs).stack g.stack_depth).extracted_context
          = (g.stack g.stack_depth).extracted_context
      ∧ ((run g evs).stack g.stack_depth).extracted_comment
          = (g.stack g.stack_depth).extracted_comment
      ∧ ((run g evs).stack g.stack_depth).lineno = (g.stack g.stack_depth).lineno := by
  induction hb with
  | nil =>
    intro g
    exact ⟨rfl, rfl, rfl, rfl⟩
  | character_data s _ ih =>
    intro g
    rw [run_cons]
    obtain ⟨h1, h2, h3, h4⟩ := ih (handle_event g (xml_event.character_data s))
    simp only [handle_event] at h1 h2 h3 h4 ⊢
    rw [character_data_handler_stack_depth] at h1 h2 h3 h4
    obtain ⟨k1, k2, k3, k4⟩ := character_data_handler_kept g s
    exact ⟨h1.trans k1, h2.trans k2, h3.trans k3, h4.trans k4⟩
  | comment data _ ih =>
    intro g
    rw [run_cons]
    exact ih (handle_event g (xml_event.comment data))
  | @element name attributes line body rest _ hrest ihb ihr =>
    intro g
    rw [run_cons, run_append, run_cons]
    simp only [handle_event]
    obtain ⟨b1, b2, _, _⟩ := run_balanced (by assumption : balanced body)
      (start_element_handler g name attributes line)
    rw [start_element_handler_stack_depth] at b1 b2
    obtain ⟨r1, r2, r3, r4⟩ := ihr
      (end_element_handler (run (start_element_handler g name attributes line) body) name)
    rw [end_element_handler_stack_depth, b1, Nat.add_sub_cancel] at r1 r2 r3 r4
    have hslot : (end_element_handler
        (run (start_element_handler g name attributes line) body) name).stack g.stack_depth
        = { g.stack g.stack_depth with extract_string := false } := by
      rw [end_element_handler_below _ _ _ (by rw [b1]; omega), b2 _ (by omega)]
      exact start_element_handler_parent_slot g name attributes line
    rw [hslot] at r1 r2 r3 r4
    exact ⟨r1, r2, r3, r4⟩

theorem end_element_handler_message (g : state) (name : String) (m : message)
    (h : (end_element_handler g name).mlp = g.mlp ++ [m]) :
    (g.stack g.stack_depth).extract_string = true
    ∧ 0 < (g.stack g.stack_depth).buflen
    ∧ m = (store_message g (g.stack g.stack_depth)
        (call_get_shapes g name (g.stack g.stack_depth).extract_context)).2 := by
  unfold end_element_handler at h
  by_cases he : (g.stack g.stack_depth).extract_string = true
  · by_cases hl : 0 < (g.stack g.stack_depth).buflen
    · simp only [he, hl, if_true, List.append_cancel_left_eq, List.cons.injEq, and_true] at h
      exact ⟨he, hl, h.symm⟩
    · simp [he, hl] at h
  · simp [he] at h

theorem end_element_handler_emits (g : state) (name : String)
    (he : (g.stack g.stack_depth).extract_string = true)
    (hl : 0 < (g.stack g.stack_depth).buflen) :
    (end_element_handler g name).mlp
      = g.mlp ++ [(store_message g (g.stack g.stack_depth)
          (call_get_shapes g name (g.stack g.stack_depth).extract_context)).2] := by
  simp [end_element_handler, he, hl]

theorem call_start_element_context (g : state) (p : element_state) (name : String)
    (attributes : List (String × String)) (line : Nat)
    (hp1 : p.extract_context = false) (hp2 : p.extracted_context = none) :
    (g.do_start_element = se_handler.gtkbuilder_start_element →
      ((call_start_element g p name attributes line).1.extract_context = true
        ↔ (call_start_element g p name attributes line).1.extracted_context ≠ none))
    ∧ (g.do_start_element ≠ se_handler.gtkbuilder_start_element →
        (call_start_element g p name attributes line).1.extracted_context = none)
    ∧ (∀ m ∈ (call_start_element g p name attributes line).2, m.msgctxt = none) := by
  unfold call_start_element
  cases g.do_start_element
  · refine ⟨fun h => (by cases h), fun _ => hp2, ?_⟩
    intro m hm
    simp [glade_start_element] at hm
  · refine ⟨fun h => (by cases h), fun _ => ?_, ?_⟩
    · unfold glade2_start_element
      by_cases he : p.extract_string = true
      · by_cases hname : name = "atkaction"
        · subst hname
          simp [he, hp2]
        · simp [he, hname, hp2]
      · simp [he, hp2]
    · intro m hm
      unfold glade2_start_element at hm
      by_cases he : p.extract_string = true
      · have key : ∀ (b : Bool) (m : message),
            m ∈ (match (glade2_scan b attributes
                { has_translatable := false, has_context := false, extracted_comment := none,
                  remembered := none }).remembered with
              | some msgid =>
                [({ shapes := none, msgid := msgid, msgctxt := none, xcomment := none,
                    lineno := line, comment := g.savable_comment } : message)]
              | none => []) → m.msgctxt = none := by
          intro b m hm
          cases hr : (glade2_scan b attributes
              { has_translatable := false, has_context := false, extracted_comment := none,
                remembered := none }).remembered with
          | none => simp [hr] at hm
          | some d =>
            simp [hr] at hm
            rw [hm]
        by_cases hname : name = "atkaction"
        · simp only [he, hname, if_true, decide_True] at hm
          exact key _ m hm
        · simp only [he, hname, if_true, decide_False] at hm
          exact key _ m hm
      · simp [he] at hm
  · refine ⟨fun _ => ?_, fun h => absurd rfl h, ?_⟩
    · unfold gtkbuilder_start_element
      simp only
      split_ifs <;> simp [hp1, hp2]
    · intro m hm
      simp [gtkbuilder_start_element] at hm

/-- Character data and comments add the character data to the buffer of the current state
and hand nothing to the sink. -/
theorem run_leaf : ∀ (evs : List xml_event), leaf_content evs = true → ∀ g : state,
    (run g evs).mlp = g.mlp
    ∧ ((run g evs).stack g.stack_depth).extract_string
        = (g.stack g.stack_depth).extract_string
    ∧ ((run g evs).stack g.stack_depth).buffer.getD ""
        = (g.stack g.stack_depth).buffer.getD "" ++ character_data_of evs
    ∧ ((run g evs).stack g.stack_depth).buflen
        = (g.stack g.stack_depth).buflen + (character_data_of evs).length := by
  intro evs
  induction evs with
  | nil =>
    intro _ g
    refine ⟨rfl, rfl, ?_, ?_⟩
    · simp [run_nil, character_data_of]
    · simp [run_nil, character_data_of]
  | cons e evs ih =>
    intro h g
    cases e with
    | start_element n a l => simp [leaf_content] at h
    | end_element n => simp [leaf_content] at h
    | character_data s =>
      have h' : leaf_content evs = true := by simpa [leaf_content] using h
      obtain ⟨i1, i2, i3, i4⟩ := ih h' (character_data_handler g s)
      rw [character_data_handler_stack_depth] at i2 i3 i4
      obtain ⟨k1, k2, _⟩ := character_data_handler_buffer g s
      rw [run_cons]
      simp only [handle_event, character_data_of]
      refine ⟨i1.trans (character_data_handler_mlp g s),
        i2.trans (character_data_handler_extract_string g s), ?_, ?_⟩
      · rw [i3, k2, String.append_assoc]
      · rw [i4, k1, String.length_append]
        omega
    | comment d =>
      have h' : leaf_content evs = true := by simpa [leaf_content] using h
      obtain ⟨i1, i2, i3, i4⟩ := ih h' (comment_handler g d)
      rw [run_cons]
      simp only [handle_event, character_data_of]
      exact ⟨i1, i2, i3, i4⟩

theorem check_file_type_forget (g : state) (r : String) :
    check_file_type (forget_bufmax g) r = forget_bufmax (check_file_type g r) := by
  have h1 := check_file_type_eq (forget_bufmax g) r
  have hb := check_file_type_binding g (forget_bufmax g) r rfl
  rw [hb.1, hb.2.1, hb.2.2] at h1
  rw [h1]
  conv_rhs => rw [check_file_type_eq g r]
  rfl

theorem call_start_element_forget (g : state) (name : String)
    (attributes : List (String × String)) (line : Nat) :
    call_start_element (forget_bufmax g) (candidate_state (forget_bufmax g) name line) name
        attributes line
      = call_start_element g (candidate_state g name line) name attributes line := by
  rw [candidate_state_congr (forget_bufmax g) g name line rfl rfl rfl rfl]
  exact call_start_element_congr _ _ _ _ _ _ rfl rfl rfl

theorem start_element_handler_forget (g : state) (name : String)
    (attributes : List (String × String)) (line : Nat) :
    forget_bufmax (start_element_handler (forget_bufmax g) name attributes line)
      = forget_bufmax (start_element_handler g name attributes line) := by
  have hg1 : (if (forget_bufmax g).stack_depth = 0 then check_file_type (forget_bufmax g) name
        else forget_bufmax g)
      = forget_bufmax (if g.stack_depth = 0 then check_file_type g name else g) := by
    by_cases h : g.stack_depth = 0
    · have h' : (forget_bufmax g).stack_depth = 0 := h
      rw [if_pos h, if_pos h', check_file_type_forget]
    · have h' : ¬ (forget_bufmax g).stack_depth = 0 := h
      rw [if_neg h, if_neg h']
  rw [start_element_handler_eq (forget_bufmax g) name attributes line _ hg1.symm,
    start_element_handler_eq g name attributes line _ rfl, call_start_element_forget]
  simp only [forget_bufmax]
  congr 1
  funext i
  by_cases h1 : i = g.stack_depth + 1
  · simp [set_slot, h1]
  · by_cases h2 : i = g.stack_depth
    · simp [set_slot, h2]
    · simp [set_slot, h1, h2]

theorem end_element_handler_forget (g : state) (name : String) :
    forget_bufmax (end_element_handler (forget_bufmax g) name)
      = forget_bufmax (end_element_handler g name) := by
  unfold end_element_handler
  by_cases he : (g.stack g.stack_depth).extract_string = true
  · by_cases hl : 0 < (g.stack g.stack_depth).buflen
    · simp only [forget_bufmax, he, hl, if_true, store_message, call_get_shapes]
      congr 1
      funext i
      by_cases h1 : i = g.stack_depth <;> simp [set_slot, h1]
    · simp only [forget_bufmax, he, hl, if_true, if_false]
      congr 1
      funext i
      by_cases h1 : i = g.stack_depth <;> simp [set_slot, h1, he]
  · simp only [forget_bufmax, he, if_false]
    congr 1
    funext i
    by_cases h1 : i = g.stack_depth <;> simp [set_slot, h1, he]

theorem character_data_handler_forget (g : state) (s : String) :
    forget_bufmax (character_data_handler (forget_bufmax g) s)
      = forget_bufmax (character_data_handler g s) := by
  unfold character_data_handler
  by_cases hl : 0 < s.length
  · simp only [forget_bufmax, hl, if_true]
    congr 1
    funext i
    by_cases h1 : i = g.stack_depth <;> simp [set_slot, h1]
  · simp only [hl, if_false]
    rfl

theorem handle_event_forget (g : state) (e : xml_event) :
    forget_bufmax (handle_event (forget_bufmax g) e) = forget_bufmax (handle_event g e) := by
  cases e with
  | start_element name attributes line => exact start_element_handler_forget g name attributes line
  | end_element name => exact end_element_handler_forget g name
  | character_data s => exact character_data_handler_forget g s
  | comment data => rfl

theorem run_forget (evs : List xml_event) :
    ∀ g : state, forget_bufmax (run (forget_bufmax g) evs) = forget_bufmax (run g evs) := by
  induction evs with
  | nil => intro g; rfl
  | cons e evs ih =>
    intro g
    rw [run_cons, run_cons, ← ih (handle_event (forget_bufmax g) e), handle_event_forget, ih]

/-- States that differ only in capacities hand the same records to the sink. -/
theorem run_mlp_of_forget (evs : List xml_event) (g1 g2 : state)
    (h : forget_bufmax g1 = forget_bufmax g2) : (run g1 evs).mlp = (run g2 evs).mlp := by
  have h1 := congrArg state.mlp (run_forget evs g1)
  have h2 := congrArg state.mlp (run_forget evs g2)
  rw [h] at h1
  exact h1.symm.trans h2

theorem character_data_handler_split (g : state) (s t : String) :
    forget_bufmax (character_data_handler g (s ++ t))
      = forget_bufmax (character_data_handler (character_data_handler g s) t) := by
  by_cases hs : 0 < s.length
  · by_cases ht : 0 < t.length
    · have hst : 0 < s.length + t.length := by omega
      simp only [character_data_handler, forget_bufmax, String.length_append, hs, ht, hst,
        if_true]
      congr 1
      funext i
      by_cases h1 : i = g.stack_depth
      · simp [set_slot, h1, String.append_assoc, Nat.add_assoc]
      · simp [set_slot, h1]
    · have ht0 : t = "" := String.ext (List.length_eq_zero.mp (by
        have : t.data.length = t.length := rfl
        omega))
      subst ht0
      rw [character_data_handler_empty (character_data_handler g s) "" rfl]
      simp
  · have hs0 : s = "" := String.ext (List.length_eq_zero.mp (by
      have : s.data.length = s.length := rfl
      omega))
    subst hs0
    rw [character_data_handler_empty g "" rfl]
    simp

theorem check_file_type_with_mlp (g : state) (r : String) (m : List message) :
    check_file_type { g with mlp := m } r = { check_file_type g r with mlp := m } := by
  have h1 := check_file_type_eq { g with mlp := m } r
  have hb := check_file_type_binding g { g with mlp := m } r rfl
  rw [hb.1, hb.2.1, hb.2.2] at h1
  rw [h1]
  conv_rhs => rw [check_file_type_eq g r]

theorem check_file_type_with_comment (g : state) (r : String) (c : List String) :
    check_file_type { g with savable_comment := c } r
      = { check_file_type g r with savable_comment := c } := by
  have h1 := check_file_type_eq { g with savable_comment := c } r
  have hb := check_file_type_binding g { g with savable_comment := c } r rfl
  rw [hb.1, hb.2.1, hb.2.2] at h1
  rw [h1]
  conv_rhs => rw [check_file_type_eq g r]

theorem start_element_handler_mlp_frame (g : state) (name : String)
    (attributes : List (String × String)) (line : Nat) :
    (start_element_handler g name attributes line).mlp
        = g.mlp ++ (start_element_handler { g with mlp := [] } name attributes line).mlp
    ∧ { start_element_handler g name attributes line with mlp := [] }
        = { start_element_handler { g with mlp := [] } name attributes line with mlp := [] } := by
  have hg1 : (if ({ g with mlp := [] } : state).stack_depth = 0
        then check_file_type { g with mlp := [] } name else { g with mlp := [] })
      = { (if g.stack_depth = 0 then check_file_type g name else g) with mlp := [] } := by
    by_cases h : g.stack_depth = 0
    · have h' : ({ g with mlp := [] } : state).stack_depth = 0 := h
      rw [if_pos h, if_pos h', check_file_type_with_mlp]
    · have h' : ¬ ({ g with mlp := [] } : state).stack_depth = 0 := h
      rw [if_neg h, if_neg h']
  have hcall : call_start_element
        { (if g.stack_depth = 0 then check_file_type g name else g) with mlp := [] }
        (candidate_state
          { (if g.stack_depth = 0 then check_file_type g name else g) with mlp := [] }
          name line) name attributes line
      = call_start_element (if g.stack_depth = 0 then check_file_type g name else g)
        (candidate_state (if g.stack_depth = 0 then check_file_type g name else g) name line)
        name attributes line := by
    rw [candidate_state_congr
      { (if g.stack_depth = 0 then check_file_type g name else g) with mlp := [] }
      (if g.stack_depth = 0 then check_file_type g name else g) name line rfl rfl rfl rfl]
    exact call_start_element_congr _ _ _ _ _ _ rfl rfl rfl
  rw [start_element_handler_eq { g with mlp := [] } name attributes line _ hg1.symm,
    start_element_handler_eq g name attributes line _ rfl, hcall]
  exact ⟨by simp, rfl⟩

theorem end_element_handler_mlp_frame (g : state) (name : String) :
    (end_element_handler g name).mlp
        = g.mlp ++ (end_element_handler { g with mlp := [] } name).mlp
    ∧ { end_element_handler g name with mlp := [] }
        = { end_element_handler { g with mlp := [] } name with mlp := [] } := by
  unfold end_element_handler
  exact ⟨by simp [store_message, call_get_shapes], rfl⟩

theorem handle_event_mlp_frame (g : state) (e : xml_event) :
    (handle_event g e).mlp = g.mlp ++ (handle_event { g with mlp := [] } e).mlp
    ∧ { handle_event g e with mlp := [] }
        = { handle_event { g with mlp := [] } e with mlp := [] } := by
  cases e with
  | start_element name attributes line =>
    exact start_element_handler_mlp_frame g name attributes line
  | end_element name => exact end_element_handler_mlp_frame g name
  | character_data s =>
    by_cases hl : 0 < s.length
    · refine ⟨?_, ?_⟩ <;> simp [handle_event, character_data_handler, hl]
    · refine ⟨?_, ?_⟩ <;> simp [handle_event, character_data_handler, hl]
  | comment data =>
    refine ⟨?_, ?_⟩ <;> simp [handle_event, comment_handler]

/-- The records handed to the sink by a run do not depend on what the sink holds. -/
theorem run_mlp_frame (evs : List xml_event) :
    ∀ g : state,
      (run g evs).mlp = g.mlp ++ (run { g with mlp := [] } evs).mlp
      ∧ { run g evs with mlp := [] } = { run { g with mlp := [] } evs with mlp := [] } := by
  induction evs with
  | nil =>
    intro g
    exact ⟨by simp [run_nil], rfl⟩
  | cons e evs ih =>
    intro g
    rw [run_cons, run_cons]
    obtain ⟨s1, s2⟩ := handle_event_mlp_frame g e
    obtain ⟨a1, a2⟩ := ih (handle_event g e)
    obtain ⟨b1, b2⟩ := ih (handle_event { g with mlp := [] } e)
    rw [s2] at a1 a2
    rw [← b2] at a2
    refine ⟨?_, a2⟩
    rw [a1, b1, s1, List.append_assoc]

theorem call_start_element_with_comment (g : state) (p : element_state) (name : String)
    (attributes : List (String × String)) (line : Nat) (c : List String) :
    (call_start_element { g with savable_comment := c } p name attributes line).1
      = (call_start_element g p name attributes line).1 := by
  unfold call_start_element
  cases hdo : g.do_start_element
  · simp only [hdo]
    rfl
  · simp only [hdo]
    unfold glade2_start_element
    by_cases he : p.extract_string = true
    · by_cases hname : name = "atkaction"
      · subst hname
        simp [he]
      · simp [he, hname]
    · simp [he]
  · simp only [hdo]
    rfl

/-- After an end-tag the state, apart from the sink, does not depend on the pending comment
lines. -/
theorem end_element_handler_comment_reset (g : state) (name : String) (c : List String) :
    { end_element_handler { g with savable_comment := c } name with mlp := [] }
      = { end_element_handler g name with mlp := [] } := by
  unfold end_element_handler
  by_cases he : (g.stack g.stack_depth).extract_string = true
  · by_cases hl : 0 < (g.stack g.stack_depth).buflen
    · simp [he, hl, store_message]
    · simp [he, hl]
  · simp [he]

/-- After a start-tag whose element is not eligible the state, apart from the sink, does
not depend on the pending comment lines. -/
theorem start_element_handler_comment_reset (g : state) (name : String)
    (attributes : List (String × String)) (line : Nat) (c : List String)
    (h : ((start_element_handler g name attributes line).stack
        (g.stack_depth + 1)).extract_string = false) :
    (start_element_handler g name attributes line).savable_comment = []
    ∧ { start_element_handler { g with savable_comment := c } name attributes line
          with mlp := [] }
        = { start_element_handler g name attributes line with mlp := [] } := by
  rw [start_element_handler_new g name attributes line _ rfl] at h
  have hg1 : (if ({ g with savable_comment := c } : state).stack_depth = 0
        then check_file_type { g with savable_comment := c } name
        else { g with savable_comment := c })
      = { (if g.stack_depth = 0 then check_file_type g name else g)
          with savable_comment := c } := by
    by_cases h0 : g.stack_depth = 0
    · have h' : ({ g with savable_comment := c } : state).stack_depth = 0 := h0
      rw [if_pos h0, if_pos h', check_file_type_with_comment]
    · have h' : ¬ ({ g with savable_comment := c } : state).stack_depth = 0 := h0
      rw [if_neg h0, if_neg h']
  have hcall : (call_start_element
        { (if g.stack_depth = 0 then check_file_type g name else g) with savable_comment := c }
        (candidate_state
          { (if g.stack_depth = 0 then check_file_type g name else g)
            with savable_comment := c }
          name line) name attributes line).1
      = (call_start_element (if g.stack_depth = 0 then check_file_type g name else g)
        (candidate_state (if g.stack_depth = 0 then check_file_type g name else g) name line)
        name attributes line).1 := by
    rw [candidate_state_congr
      { (if g.stack_depth = 0 then check_file_type g name else g) with savable_comment := c }
      (if g.stack_depth = 0 then check_file_type g name else g) name line rfl rfl rfl rfl]
    exact call_start_element_with_comment _ _ _ _ _ c
  rw [start_element_handler_eq { g with savable_comment := c } name attributes line _
      hg1.symm,
    start_element_handler_eq g name attributes line _ rfl, hcall]
  simp [h]

theorem run_after_reset (g1 g2 : state) (rest : List xml_event)
    (h : { g1 with mlp := [] } = { g2 with mlp := [] }) :
    ∃ new, (run g1 rest).mlp = g1.mlp ++ new ∧ (run g2 rest).mlp = g2.mlp ++ new := by
  refine ⟨(run { g1 with mlp := [] } rest).mlp, (run_mlp_frame rest g1).1, ?_⟩
  rw [h]
  exact (run_mlp_frame rest g2).1

theorem tracks_congr (g g' : state) :
    ∀ (texts : List String) (d : Nat),
      (∀ i, i ≤ d → (g'.stack i).buflen = (g.stack i).buflen) →
      tracks g d texts → tracks g' d texts := by
  intro texts
  induction texts with
  | nil => intro d _ _; trivial
  | cons t ts ih =>
    intro d hsame h
    obtain ⟨h1, h2, h3⟩ := h
    refine ⟨(hsame d (Nat.le_refl d)).trans h1, h2, ?_⟩
    exact ih (d - 1) (fun i hi => hsame i (by omega)) h3

/-- One event keeps the buffers of the open elements in step with the character data
delivered for them. -/
theorem handle_event_tracks (g : state) (e : xml_event) (texts : List String)
    (h : tracks g g.stack_depth texts) (hn : nested texts.length [e] = true) :
    tracks (handle_event g e) (handle_event g e).stack_depth (delivered_text texts e) := by
  cases e with
  | start_element name attributes line =>
    simp only [handle_event, delivered_text]
    rw [start_element_handler_stack_depth]
    refine ⟨?_, by omega, ?_⟩
    · rw [start_element_handler_new g name attributes line _ rfl,
        (call_start_element_frame _ _ name attributes line).2.2.1, candidate_state_fields]
      rfl
    · rw [Nat.add_sub_cancel]
      apply tracks_congr g _ texts g.stack_depth _ h
      intro i hi
      by_cases hid : i = g.stack_depth
      · rw [hid, start_element_handler_parent_slot]
      · rw [start_element_handler_below g name attributes line i (by omega)]
  | end_element name =>
    cases texts with
    | nil => simp [nested] at hn
    | cons t ts =>
      obtain ⟨_, h2, h3⟩ := h
      simp only [handle_event, delivered_text, List.tail_cons]
      rw [end_element_handler_stack_depth]
      apply tracks_congr g _ ts (g.stack_depth - 1) _ h3
      intro i hi
      rw [end_element_handler_below g name i (by omega)]
  | character_data s =>
    cases texts with
    | nil => trivial
    | cons t ts =>
      obtain ⟨h1, h2, h3⟩ := h
      simp only [handle_event, delivered_text]
      rw [character_data_handler_stack_depth]
      refine ⟨?_, h2, ?_⟩
      · rw [(character_data_handler_buffer g s).1, h1, String.length_append]
      · apply tracks_congr g _ ts (g.stack_depth - 1) _ h3
        intro i hi
        rw [character_data_handler_below g s i (by omega)]
  | comment data =>
    exact tracks_congr g _ texts g.stack_depth (fun _ _ => rfl) h

theorem delivered_text_length (texts : List String) (e : xml_event) (n : Nat)
    (evs : List xml_event) (hl : texts.length = n) (hn : nested n (e :: evs) = true) :
    nested n [e] = true ∧ nested (delivered_text texts e).length evs = true := by
  subst hl
  cases e with
  | start_element name attributes line =>
    simp only [nested, delivered_text, List.length_cons] at hn ⊢
    exact ⟨trivial, hn⟩
  | end_element name =>
    cases texts with
    | nil => simp [nested] at hn
    | cons t ts =>
      simp only [nested, delivered_text, List.length_cons, List.tail_cons] at hn ⊢
      exact ⟨trivial, hn⟩
  | character_data s =>
    cases texts with
    | nil =>
      simp only [nested, delivered_text, List.length_nil] at hn ⊢
      exact ⟨trivial, hn⟩
    | cons t ts =>
      simp only [nested, delivered_text, List.length_cons] at hn ⊢
      exact ⟨trivial, hn⟩
  | comment data =>
    simp only [nested, delivered_text] at hn ⊢
    exact ⟨trivial, hn⟩

/-- Along properly nested events the buffers stay in step with the character data
delivered. -/
theorem run_tracks (evs : List xml_event) :
    ∀ (g : state) (texts : List String), tracks g g.stack_depth texts →
      nested texts.length evs = true →
      tracks (run g evs) (run g evs).stack_depth (evs.foldl delivered_text texts) := by
  induction evs with
  | nil => intro g texts h _; exact h
  | cons e evs ih =>
    intro g texts h hn
    obtain ⟨n1, n2⟩ := delivered_text_length texts e texts.length evs rfl hn
    rw [run_cons, List.foldl_cons]
    exact ih _ _ (handle_event_tracks g e texts h n1) n2

/-- The tags at which the handlers hand over a record are the tags the specification
counts. -/
theorem count_messages_eq_spec (evs : List xml_event) :
    ∀ (g : state) (texts : List String), tracks g g.stack_depth texts →
      nested texts.length evs = true →
      count_messages g evs = spec_message_count g texts evs := by
  induction evs with
  | nil => intro g texts _ _; rfl
  | cons e evs ih =>
    intro g texts h hn
    obtain ⟨n1, n2⟩ := delivered_text_length texts e texts.length evs rfl hn
    have ht := handle_event_tracks g e texts h n1
    cases e with
    | start_element name attributes line =>
      have hi := ih _ _ ht n2
      simp only [handle_event, delivered_text] at hi
      simp only [count_messages, spec_message_count]
      rw [hi]
    | end_element name =>
      cases texts with
      | nil => simp [nested] at n1
      | cons t ts =>
        have hi := ih _ _ ht n2
        simp only [handle_event, delivered_text, List.tail_cons] at hi
        simp only [count_messages, spec_message_count]
        rw [hi]
        obtain ⟨h1, _, _⟩ := h
        have hpos : 0 < (g.stack g.stack_depth).buflen ↔ t ≠ "" := by
          rw [h1]
          constructor
          · intro hp hc
            rw [hc] at hp
            exact absurd hp (by decide)
          · intro hne
            have hlen : t.data.length = t.length := rfl
            rcases Nat.eq_zero_or_pos t.length with h0 | hp
            · exact absurd (String.ext (List.length_eq_zero.mp (hlen.trans h0))) hne
            · exact hp
        simp only [delivered_text, List.tail_cons, eligible_end_tag, Bool.and_eq_true,
          decide_eq_true_eq, hpos]
    | character_data s =>
      have hi := ih _ _ ht n2
      simp only [handle_event] at hi
      simp only [count_messages, spec_message_count]
      exact hi
    | comment data =>
      have hi := ih _ _ ht n2
      simp only [handle_event, delivered_text] at hi
      simp only [count_messages, spec_message_count]
      exact hi

end x_glade

namespace x_gsettings

theorem gs_run_nil (g : state) : run g [] = g := rfl

theorem gs_run_cons (g : state) (e : xml_event) (evs : List xml_event) :
    run g (e :: evs) = run (handle_event g e) evs := rfl

theorem gs_run_append (g : state) (evs1 evs2 : List xml_event) :
    run g (evs1 ++ evs2) = run (run g evs1) evs2 := by
  unfold run
  rw [List.foldl_append]

/-- Without an `l10n` attribute the loop leaves `extracted_l10n` as it was. -/
theorem scan_attributes_l10n_absent (attributes : List (String × String)) :
    ∀ a : attribute_values, (∀ v, ("l10n", v) ∉ attributes) →
      (scan_attributes attributes a).extracted_l10n = a.extracted_l10n := by
  induction attributes with
  | nil =>
    intro a _
    rfl
  | cons kv rest ih =>
    intro a h
    obtain ⟨k, v⟩ := kv
    have hrest : ∀ w, ("l10n", w) ∉ rest := fun w hw => h w (List.mem_cons_of_mem _ hw)
    have hk : k ≠ "l10n" := by
      rintro rfl
      exact h v (List.mem_cons_self _ _)
    unfold scan_attributes
    by_cases h1 : k = "comments"
    · rw [if_pos h1, ih _ hrest]
    · rw [if_neg h1]
      by_cases h2 : k = "context"
      · rw [if_pos h2, ih _ hrest]
      · rw [if_neg h2, if_neg hk, ih _ hrest]

/-- With attribute names that are pairwise different, the loop leaves in `extracted_l10n`
the value of the `l10n` attribute. -/
theorem scan_attributes_l10n_present (attributes : List (String × String)) (v : String) :
    ∀ a : attribute_values, (attributes.map Prod.fst).Nodup → ("l10n", v) ∈ attributes →
      (scan_attributes attributes a).extracted_l10n = some v := by
  induction attributes with
  | nil =>
    intro a _ h
    simp at h
  | cons kv rest ih =>
    intro a hn h
    obtain ⟨k, w⟩ := kv
    rw [List.map_cons, List.nodup_cons] at hn
    obtain ⟨hk, hn⟩ := hn
    rcases List.mem_cons.1 h with heq | hmem
    · obtain ⟨rfl, rfl⟩ := Prod.mk.inj heq
      have hrest : ∀ u, ("l10n", u) ∉ rest := by
        intro u hu
        exact hk (List.mem_map.2 ⟨("l10n", u), hu, rfl⟩)
      unfold scan_attributes
      have e1 : ("l10n" : String) ≠ "comments" := by decide
      have e2 : ("l10n" : String) ≠ "context" := by decide
      rw [if_neg e1, if_neg e2, if_pos rfl, scan_attributes_l10n_absent rest _ hrest]
    · unfold scan_attributes
      by_cases h1 : k = "comments"
      · rw [if_pos h1]
        exact ih _ hn hmem
      · rw [if_neg h1]
        by_cases h2 : k = "context"
        · rw [if_pos h2]
          exact ih _ hn hmem
        · rw [if_neg h2]
          by_cases h3 : k = "l10n"
          · rw [if_pos h3]
            exact ih _ hn hmem
          · rw [if_neg h3]
            exact ih _ hn hmem

/-- The element state `start_element_handler` leaves for a candidate `default` element, in
terms of the value the loop found for `l10n`. -/
theorem new_element_state_default (g : state) (attributes : List (String × String))
    (line : Nat) (hc : g.extract_all = true ∨ is_tag g "default" = true) :
    (new_element_state g "default" attributes line).extract_string
      = !decide ((scan_attributes attributes
            { extracted_l10n := none, extracted_comment := none,
              extracted_context := none }).extracted_l10n = none
          ∨ (scan_attributes attributes
            { extracted_l10n := none, extracted_comment := none,
              extracted_context := none }).extracted_l10n = some "time") := by
  unfold new_element_state
  cases hx : g.extract_all
  · have ht : is_tag g "default" = true := by
      rcases hc with h | h
      · rw [hx] at h
        cases h
      · exact h
    by_cases hl : (scan_attributes attributes
            { extracted_l10n := none, extracted_comment := none,
              extracted_context := none }).extracted_l10n = none
          ∨ (scan_attributes attributes
            { extracted_l10n := none, extracted_comment := none,
              extracted_context := none }).extracted_l10n = some "time"
    · simp [hx, ht, hl]
    · simp [hx, ht, hl]
  · by_cases hl : (scan_attributes attributes
            { extracted_l10n := none, extracted_comment := none,
              extracted_context := none }).extracted_l10n = none
          ∨ (scan_attributes attributes
            { extracted_l10n := none, extracted_comment := none,
              extracted_context := none }).extracted_l10n = some "time"
    · simp [hx, hl]
    · simp [hx, hl]

/-- A `default` element whose loop value for `l10n` is absent or `time` is not eligible,
candidate or not. -/
theorem new_element_state_default_excluded (g : state) (attributes : List (String × String))
    (line : Nat)
    (hl : (scan_attributes attributes
            { extracted_l10n := none, extracted_comment := none,
              extracted_context := none }).extracted_l10n = none
          ∨ (scan_attributes attributes
            { extracted_l10n := none, extracted_comment := none,
              extracted_context := none }).extracted_l10n = some "time") :
    (new_element_state g "default" attributes line).extract_string = false := by
  unfold new_element_state
  cases hx : g.extract_all
  · cases ht : is_tag g "default"
    · simp [hx, ht]
    · simp [hx, ht, hl]
  · simp [hx, hl]

theorem gs_start_stack_depth (g : state) (name : String)
    (attributes : List (String × String)) (line : Nat) :
    (start_element_handler g name attributes line).stack_depth = g.stack_depth + 1 := rfl

theorem gs_start_mlp (g : state) (name : String)
    (attributes : List (String × String)) (line : Nat) :
    (start_element_handler g name attributes line).mlp = g.mlp := rfl

theorem gs_start_top (g : state) (name : String)
    (attributes : List (String × String)) (line : Nat) :
    (start_element_handler g name attributes line).stack (g.stack_depth + 1)
      = new_element_state g name attributes line := by
  unfold start_element_handler
  simp [set_slot]

theorem gs_start_below (g : state) (name : String)
    (attributes : List (String × String)) (line : Nat) (i : Nat) (hi : i < g.stack_depth) :
    (start_element_handler g name attributes line).stack i = g.stack i := by
  unfold start_element_handler
  simp only
  rw [set_slot_other _ _ _ _ (by omega), set_slot_other _ _ _ _ (by omega)]

theorem gs_start_parent (g : state) (name : String)
    (attributes : List (String × String)) (line : Nat) :
    ((start_element_handler g name attributes line).stack g.stack_depth).extract_string
      = false := by
  unfold start_element_handler
  simp only
  rw [set_slot_other _ _ _ _ (by omega), Nat.add_sub_cancel, set_slot_same]

theorem gs_end_stack_depth (g : state) (name : String) :
    (end_element_handler g name).stack_depth = g.stack_depth - 1 := rfl

theorem gs_end_below (g : state) (name : String) (i : Nat) (hi : i < g.stack_depth) :
    (end_element_handler g name).stack i = g.stack i := by
  unfold end_element_handler
  simp only
  rw [set_slot_other _ _ _ _ (by omega)]

/-- An end-tag whose element is not eligible hands nothing to the sink. -/
theorem gs_end_mlp_of_not_extract (g : state) (name : String)
    (h : (g.stack g.stack_depth).extract_string = false) :
    (end_element_handler g name).mlp = g.mlp := by
  unfold end_element_handler
  simp [h]

theorem gs_character_data_stack_depth (g : state) (s : String) :
    (character_data_handler g s).stack_depth = g.stack_depth := by
  by_cases h : s.length > 0 <;> simp [character_data_handler, h]

theorem gs_character_data_mlp (g : state) (s : String) :
    (character_data_handler g s).mlp = g.mlp := by
  by_cases h : s.length > 0 <;> simp [character_data_handler, h]

theorem gs_character_data_below (g : state) (s : String) (i : Nat)
    (hi : i < g.stack_depth) :
    (character_data_handler g s).stack i = g.stack i := by
  have hne : i ≠ g.stack_depth := by omega
  by_cases h : s.length > 0 <;> simp [character_data_handler, h, set_slot, hne]

theorem gs_character_data_extract_string (g : state) (s : String) :
    ((character_data_handler g s).stack g.stack_depth).extract_string
      = (g.stack g.stack_depth).extract_string := by
  by_cases h : s.length > 0 <;> simp [character_data_handler, h, set_slot]

/-- Complete content leaves the depth and the slots below the current one as they were, and
does not make the current element eligible. -/
theorem gs_run_balanced {evs : List xml_event} (hb : balanced evs) :
    ∀ g : state,
      (run g evs).stack_depth = g.stack_depth
      ∧ (∀ i, i < g.stack_depth → (run g evs).stack i = g.stack i)
      ∧ ((g.stack g.stack_depth).extract_string = false →
          ((run g evs).stack g.stack_depth).extract_string = false) := by
  induction hb with
  | nil =>
    intro g
    exact ⟨rfl, fun _ _ => rfl, fun h => h⟩
  | character_data s _ ih =>
    intro g
    rw [gs_run_cons]
    obtain ⟨h1, h2, h3⟩ := ih (handle_event g (xml_event.character_data s))
    simp only [handle_event] at h1 h2 h3 ⊢
    rw [gs_character_data_stack_depth] at h1 h2 h3
    refine ⟨h1, ?_, ?_⟩
    · intro i hi
      rw [h2 i hi, gs_character_data_below g s i hi]
    · intro hf
      apply h3
      rw [gs_character_data_extract_string]
      exact hf
  | comment data _ ih =>
    intro g
    rw [gs_run_cons]
    obtain ⟨h1, h2, h3⟩ := ih (handle_event g (xml_event.comment data))
    simp only [handle_event, comment_handler] at h1 h2 h3 ⊢
    exact ⟨h1, h2, h3⟩
  | @element name attributes line body rest _ _ ihb ihr =>
    intro g
    rw [gs_run_cons, gs_run_append, gs_run_cons]
    simp only [handle_event]
    obtain ⟨b1, b2, _⟩ := ihb (start_element_handler g name attributes line)
    rw [gs_start_stack_depth] at b1 b2
    obtain ⟨r1, r2, r3⟩ := ihr
      (end_element_handler (run (start_element_handler g name attributes line) body) name)
    rw [gs_end_stack_depth, b1, Nat.add_sub_cancel] at r1 r2 r3
    have hparent : ((end_element_handler
        (run (start_element_handler g name attributes line) body) name).stack
          g.stack_depth).extract_string = false := by
      rw [gs_end_below _ _ _ (by rw [b1]; omega), b2 _ (by omega)]
      exact gs_start_parent g name attributes line
    refine ⟨r1, ?_, fun _ => r3 hparent⟩
    intro i hi
    rw [r2 i hi, gs_end_below _ _ _ (by rw [b1]; omega), b2 _ (by omega),
      gs_start_below g name attributes line i hi]

theorem init_keywords_mlp (g : state) : (init_keywords g).mlp = g.mlp := by
  unfold init_keywords
  cases g.default_keywords <;> rfl

/-- A `default` element whose loop value for `l10n` is absent or `time` hands nothing to
the sink at its end-tag, whatever its content. -/
theorem gs_default_excluded_end (g : state) (attributes : List (String × String))
    (line : Nat) (body : List xml_event)
    (hl : (scan_attributes attributes
            { extracted_l10n := none, extracted_comment := none,
              extracted_context := none }).extracted_l10n = none
          ∨ (scan_attributes attributes
            { extracted_l10n := none, extracted_comment := none,
              extracted_context := none }).extracted_l10n = some "time")
    (hb : balanced body) :
    (end_element_handler (run (start_element_handler g "default" attributes line) body)
      "default").mlp
      = (run (start_element_handler g "default" attributes line) body).mlp := by
  obtain ⟨b1, _, b3⟩ := gs_run_balanced hb (start_element_handler g "default" attributes line)
  apply gs_end_mlp_of_not_extract
  rw [b1]
  apply b3
  rw [gs_start_stack_depth, gs_start_top]
  exact new_element_state_default_excluded g attributes line hl

/-- The three events of a `default` element with one piece of character data, when the loop
value for `l10n` is absent or `time`: nothing reaches the sink. -/
theorem gs_default_excluded_element (g : state) (attributes : List (String × String))
    (line : Nat) (s : String)
    (hl : (scan_attributes attributes
            { extracted_l10n := none, extracted_comment := none,
              extracted_context := none }).extracted_l10n = none
          ∨ (scan_attributes attributes
            { extracted_l10n := none, extracted_comment := none,
              extracted_context := none }).extracted_l10n = some "time") :
    (run g [xml_event.start_element "default" attributes line, xml_event.character_data s,
      xml_event.end_element "default"]).mlp = g.mlp := by
  have h := gs_default_excluded_end g attributes line [xml_event.character_data s] hl
    (balanced.character_data s balanced.nil)
  rw [gs_run_cons, gs_run_nil] at h
  simp only [handle_event] at h
  rw [gs_run_cons, gs_run_cons, gs_run_cons, gs_run_nil]
  simp only [handle_event]
  rw [h, gs_character_data_mlp, gs_start_mlp]

theorem gs_is_tag_iff (g : state) (n : String) :
    is_tag g n = true ↔ ∃ t, g.keywords = some t ∧ n ∈ t := by
  unfold is_tag
  cases hk : g.keywords with
  | none => simp
  | some t => simp [hash_find_entry_eq_zero]

theorem gs_is_tag_keyword (g : state) (name n : String) :
    is_tag (x_gsettings_keyword g (some name)) n = true ↔ is_tag g n = true ∨ n = name := by
  rw [gs_is_tag_iff, gs_is_tag_iff]
  unfold x_gsettings_keyword
  cases hk : g.keywords with
  | none => simp [hash_init, mem_hash_insert_entry]
  | some t => simp [mem_hash_insert_entry]

theorem gs_is_tag_keyword_calls (calls : List (Option String)) (g : state) (n : String) :
    is_tag (calls.foldl x_gsettings_keyword g) n = true
      ↔ is_tag g n = true ∨ some n ∈ calls := by
  induction calls generalizing g with
  | nil => simp
  | cons c cs ih =>
    rw [List.foldl_cons, ih]
    cases c with
    | none =>
      have h : is_tag (x_gsettings_keyword g none) n = is_tag g n := rfl
      rw [h]
      simp
    | some name =>
      rw [gs_is_tag_keyword]
      simp only [List.mem_cons, Option.some.injEq]
      tauto

theorem gs_keyword_calls_default_keywords (calls : List (Option String)) (g : state) :
    (calls.foldl x_gsettings_keyword g).default_keywords
      = (g.default_keywords && !decide (none ∈ calls)) := by
  induction calls generalizing g with
  | nil => simp
  | cons c cs ih =>
    rw [List.foldl_cons, ih]
    cases c with
    | none => simp [x_gsettings_keyword]
    | some name => simp [x_gsettings_keyword]

theorem init_keywords_of_not_default (g : state) (h : g.default_keywords = false) :
    init_keywords g = g := by
  unfold init_keywords
  simp [h]

theorem init_keywords_of_default (g : state) (h : g.default_keywords = true) :
    init_keywords g
      = x_gsettings_keyword
          (x_gsettings_keyword (x_gsettings_keyword g (some "description")) (some "summary"))
          (some "default") := by
  unfold init_keywords
  simp [h]

theorem hash_insert_entry_of_mem (t : hash_table) (k : String) (h : k ∈ t) :
    hash_insert_entry t k = t := by
  unfold hash_insert_entry
  simp [h]

/-- A second `init_keywords` finds the three default names in the table and inserts
nothing. -/
theorem init_keywords_idempotent (g : state) :
    init_keywords (init_keywords g) = init_keywords g := by
  cases hd : g.default_keywords
  · rw [init_keywords_of_not_default g hd, init_keywords_of_not_default g hd]
  · have hd2 : (init_keywords g).default_keywords = true := by
      rw [init_keywords_of_default g hd]
      simp [x_gsettings_keyword, hd]
    have hmem : ∀ n, is_tag (init_keywords g) n = true
        ↔ is_tag g n = true ∨ n = "description" ∨ n = "summary" ∨ n = "default" := by
      intro n
      rw [init_keywords_of_default g hd, gs_is_tag_keyword, gs_is_tag_keyword,
        gs_is_tag_keyword]
      tauto
    have hkw : ∃ t, (init_keywords g).keywords = some t := by
      obtain ⟨t, ht, _⟩ := (gs_is_tag_iff _ _).1 ((hmem "default").2 (by simp))
      exact ⟨t, ht⟩
    obtain ⟨t, ht⟩ := hkw
    have hin : ∀ n, (n = "description" ∨ n = "summary" ∨ n = "default") → n ∈ t := by
      intro n hn
      obtain ⟨t', ht', hn'⟩ := (gs_is_tag_iff _ _).1 ((hmem n).2 (Or.inr hn))
      rw [ht] at ht'
      cases ht'
      exact hn'
    rw [init_keywords_of_default (init_keywords g) hd2]
    generalize init_keywords g = g1 at ht
    cases g1
    simp only at ht
    subst ht
    simp [x_gsettings_keyword, hash_insert_entry_of_mem, hin]

theorem new_element_state_frame (g : state) (name : String)
    (attributes : List (String × String)) (line : Nat) :
    (new_element_state g name attributes line).buffer = none
    ∧ (new_element_state g name attributes line).bufmax = 0
    ∧ (new_element_state g name attributes line).buflen = 0
    ∧ (new_element_state g name attributes line).lineno = line := by
  unfold new_element_state
  simp only
  split_ifs <;> simp

theorem new_element_state_of_not_candidate (g : state) (name : String)
    (attributes : List (String × String)) (line : Nat)
    (h : (g.extract_all || is_tag g name) = false) :
    new_element_state g name attributes line
      = { extract_string := false
          extracted_comment := none
          extracted_context := none
          lineno := line
          buffer := none
          bufmax := 0
          buflen := 0 } := by
  have h1 : g.extract_all = false := by
    cases hx : g.extract_all
    · rfl
    · rw [hx] at h; simp at h
  have h2 : is_tag g name = false := by
    rw [h1] at h
    simpa using h
  simp [new_element_state, h1, h2]

theorem gs_character_data_handler_empty (g : state) (s : String) (h : s.length = 0) :
    character_data_handler g s = g := by
  simp [character_data_handler, h]

theorem gs_character_data_handler_top (g : state) (s : String) (h : 0 < s.length) :
    (character_data_handler g s).stack g.stack_depth
      = { g.stack g.stack_depth with
          bufmax :=
            if (g.stack g.stack_depth).buflen + s.length > (g.stack g.stack_depth).bufmax then
              if 2 * (g.stack g.stack_depth).bufmax < (g.stack g.stack_depth).buflen + s.length
              then (g.stack g.stack_depth).buflen + s.length
              else 2 * (g.stack g.stack_depth).bufmax
            else (g.stack g.stack_depth).bufmax
          buffer := some ((g.stack g.stack_depth).buffer.getD "" ++ s)
          buflen := (g.stack g.stack_depth).buflen + s.length } := by
  simp [character_data_handler, h, set_slot]

theorem gs_character_data_handler_buffer (g : state) (s : String) :
    ((character_data_handler g s).stack g.stack_depth).buflen
        = (g.stack g.stack_depth).buflen + s.length
    ∧ ((character_data_handler g s).stack g.stack_depth).buffer.getD ""
        = (g.stack g.stack_depth).buffer.getD "" ++ s
    ∧ ((g.stack g.stack_depth).buflen ≤ (g.stack g.stack_depth).bufmax →
        ((character_data_handler g s).stack g.stack_depth).buflen
          ≤ ((character_data_handler g s).stack g.stack_depth).bufmax) := by
  by_cases h : 0 < s.length
  · rw [gs_character_data_handler_top g s h]
    refine ⟨rfl, rfl, ?_⟩
    intro _
    simp only
    split_ifs <;> omega
  · have h0 : s.length = 0 := by omega
    rw [gs_character_data_handler_empty g s h0]
    have hs : s = "" := by
      apply String.ext
      exact List.length_eq_zero.mp h0
    refine ⟨by omega, ?_, fun hle => hle⟩
    rw [hs]
    simp

theorem gs_run_chunks (chunks : List String) :
    ∀ g : state,
      (run g (chunks.map xml_event.character_data)).stack_depth = g.stack_depth
      ∧ ((run g (chunks.map xml_event.character_data)).stack g.stack_depth).buflen
          = (g.stack g.stack_depth).buflen + (chunks.map String.length).sum
      ∧ ((g.stack g.stack_depth).buflen ≤ (g.stack g.stack_depth).bufmax →
          ((run g (chunks.map xml_event.character_data)).stack g.stack_depth).buflen
            ≤ ((run g (chunks.map xml_event.character_data)).stack g.stack_depth).bufmax) := by
  induction chunks with
  | nil => intro g; exact ⟨rfl, rfl, fun h => h⟩
  | cons s chunks ih =>
    intro g
    have hd := gs_character_data_stack_depth g s
    have hb := gs_character_data_handler_buffer g s
    have h := ih (character_data_handler g s)
    rw [hd] at h
    simp only [List.map_cons, gs_run_cons, handle_event, List.sum_cons]
    refine ⟨h.1, ?_, fun hle => h.2.2 (hb.2.2 hle)⟩
    rw [h.2.1, hb.1]
    omega

theorem gs_start_parent_slot (g : state) (name : String)
    (attributes : List (String × String)) (line : Nat) :
    (start_element_handler g name attributes line).stack g.stack_depth
      = { g.stack g.stack_depth with extract_string := false } := by
  simp [start_element_handler, set_slot]

theorem gs_end_element_handler_message (g : state) (name : String) (m : message)
    (h : (end_element_handler g name).mlp = g.mlp ++ [m]) :
    (g.stack g.stack_depth).extract_string = true
    ∧ 0 < (g.stack g.stack_depth).buflen
    ∧ m.shapes = some (get_shapes name ((g.stack g.stack_depth).extracted_context != none))
    ∧ m.msgctxt = (g.stack g.stack_depth).extracted_context
    ∧ m.xcomment = (g.stack g.stack_depth).extracted_comment
    ∧ m.lineno = (g.stack g.stack_depth).lineno
    ∧ m.comment = g.savable_comment := by
  unfold end_element_handler at h
  by_cases he : (g.stack g.stack_depth).extract_string = true
  · by_cases hl : 0 < (g.stack g.stack_depth).buflen
    · simp only [he, hl, if_true, List.append_cancel_left_eq, List.cons.injEq, and_true] at h
      subst h
      by_cases hname : name = "default" <;>
        simp [he, hl, hname, store_message]
    · simp [he, hl] at h
  · simp [he] at h

theorem gs_handle_event_mlp_frame (g : state) (e : xml_event) :
    (handle_event g e).mlp = g.mlp ++ (handle_event { g with mlp := [] } e).mlp
    ∧ { handle_event g e with mlp := [] }
        = { handle_event { g with mlp := [] } e with mlp := [] } := by
  cases e with
  | start_element name attributes line =>
    refine ⟨?_, ?_⟩
    · simp [handle_event, start_element_handler]
    · rfl
  | end_element name =>
    refine ⟨?_, ?_⟩
    · simp only [handle_event, end_element_handler]
      by_cases he : (g.stack g.stack_depth).extract_string = true
      · by_cases hl : 0 < (g.stack g.stack_depth).buflen
        · by_cases hname : name = "default" <;> simp [he, hl, hname, store_message]
        · simp [he, hl]
      · simp [he]
    · rfl
  | character_data s =>
    by_cases hl : 0 < s.length
    · refine ⟨?_, ?_⟩ <;> simp [handle_event, character_data_handler, hl]
    · refine ⟨?_, ?_⟩ <;> simp [handle_event, character_data_handler, hl]
  | comment data =>
    refine ⟨?_, ?_⟩ <;> simp [handle_event, comment_handler]

/-- The records handed to the sink by a run do not depend on what the sink holds. -/
theorem gs_run_mlp_frame (evs : List xml_event) :
    ∀ g : state,
      (run g evs).mlp = g.mlp ++ (run { g with mlp := [] } evs).mlp
      ∧ { run g evs with mlp := [] } = { run { g with mlp := [] } evs with mlp := [] } := by
  induction evs with
  | nil =>
    intro g
    exact ⟨by simp [gs_run_nil], rfl⟩
  | cons e evs ih =>
    intro g
    rw [gs_run_cons, gs_run_cons]
    obtain ⟨s1, s2⟩ := gs_handle_event_mlp_frame g e
    obtain ⟨a1, a2⟩ := ih (handle_event g e)
    obtain ⟨b1, b2⟩ := ih (handle_event { g with mlp := [] } e)
    rw [s2] at a1 a2
    rw [← b2] at a2
    refine ⟨?_, a2⟩
    rw [a1, b1, s1, List.append_assoc]

/-- After an end-tag the state, apart from the sink, does not depend on the pending comment
lines. -/
theorem gs_end_element_handler_comment_reset (g : state) (name : String) (c : List String) :
    { end_element_handler { g with savable_comment := c } name with mlp := [] }
      = { end_element_handler g name with mlp := [] } := by
  unfold end_element_handler
  by_cases he : (g.stack g.stack_depth).extract_string = true
  · by_cases hl : 0 < (g.stack g.stack_depth).buflen
    · by_cases hname : name = "default" <;> simp [he, hl, hname, store_message]
    · simp [he, hl]
  · simp [he]

/-- After a start-tag whose element is not eligible the state, apart from the sink, does
not depend on the pending comment lines. -/
theorem gs_start_element_handler_comment_reset (g : state) (name : String)
    (attributes : List (String × String)) (line : Nat) (c : List String)
    (h : ((start_element_handler g name attributes line).stack
        (g.stack_depth + 1)).extract_string = false) :
    (start_element_handler g name attributes line).savable_comment = []
    ∧ { start_element_handler { g with savable_comment := c } name attributes line
          with mlp := [] }
        = { start_element_handler g name attributes line with mlp := [] } := by
  rw [gs_start_top] at h
  have hn : new_element_state { g with savable_comment := c } name attributes line
      = new_element_state g name attributes line := rfl
  unfold start_element_handler
  simp only [hn, h]
  exact ⟨rfl, rfl⟩

theorem gs_run_after_reset (g1 g2 : state) (rest : List xml_event)
    (h : { g1 with mlp := [] } = { g2 with mlp := [] }) :
    ∃ new, (run g1 rest).mlp = g1.mlp ++ new ∧ (run g2 rest).mlp = g2.mlp ++ new := by
  refine ⟨(run { g1 with mlp := [] } rest).mlp, (gs_run_mlp_frame rest g1).1, ?_⟩
  rw [h]
  exact (gs_run_mlp_frame rest g2).1

end x_gsettings

/-! ## The claims -/

/-- C1: with default keywords in force, `check_file_type` binds, for the root tag
`glade-interface`, the Glade-2 start-tag policy and shape resolver and the candidate set
of exactly `property`, `atkproperty`, `atkaction`; for `interface`, the GtkBuilder ones with
exactly `property`, `attribute`, `col`; for `GTK-Interface`, the Glade-1 ones with exactly
`label`, `title`, `text`, `format`, `copyright`, `comments`, `preview_text`, `tooltip`; for
every other root tag the Glade-1 ones with no candidate set at all. -/
theorem check_file_type_dispatch (g : x_glade.state) (r : String)
    (h : g.default_keywords = true) :
    (r = "glade-interface" →
      (x_glade.check_file_type g r).do_start_element
          = x_glade.se_handler.glade2_start_element
        ∧ (x_glade.check_file_type g r).get_shapes = x_glade.shapes_handler.get_glade2_shapes
        ∧ ∃ t, (x_glade.check_file_type g r).tags = some t
          ∧ ∀ n, hash_find_entry t n = 0 ↔ n ∈ ["property", "atkproperty", "atkaction"])
    ∧ (r = "interface" →
      (x_glade.check_file_type g r).do_start_element
          = x_glade.se_handler.gtkbuilder_start_element
        ∧ (x_glade.check_file_type g r).get_shapes
          = x_glade.shapes_handler.get_gtkbuilder_shapes
        ∧ ∃ t, (x_glade.check_file_type g r).tags = some t
          ∧ ∀ n, hash_find_entry t n = 0 ↔ n ∈ ["property", "attribute", "col"])
    ∧ (r = "GTK-Interface" →
      (x_glade.check_file_type g r).do_start_element = x_glade.se_handler.glade_start_element
        ∧ (x_glade.check_file_type g r).get_shapes = x_glade.shapes_handler.get_glade_shapes
        ∧ ∃ t, (x_glade.check_file_type g r).tags = some t
          ∧ ∀ n, hash_find_entry t n = 0 ↔
            n ∈ ["label", "title", "text", "format", "copyright", "comments",
                 "preview_text", "tooltip"])
    ∧ (r ≠ "glade-interface" → r ≠ "interface" → r ≠ "GTK-Interface" →
      (x_glade.check_file_type g r).do_start_element = x_glade.se_handler.glade_start_element
        ∧ (x_glade.check_file_type g r).get_shapes = x_glade.shapes_handler.get_glade_shapes
        ∧ (x_glade.check_file_type g r).tags = none) := by
  refine ⟨?_, ?_, ?_, ?_⟩
  · rintro rfl
    rw [x_glade.check_file_type_glade2_eq g h]
    exact ⟨rfl, rfl, _, rfl, fun n => x_glade.hash_find_entry_iff _ n⟩
  · rintro rfl
    rw [x_glade.check_file_type_gtkbuilder_eq g h]
    exact ⟨rfl, rfl, _, rfl, fun n => x_glade.hash_find_entry_iff _ n⟩
  · rintro rfl
    rw [x_glade.check_file_type_glade1_eq g h]
    exact ⟨rfl, rfl, _, rfl, fun n => x_glade.hash_find_entry_iff _ n⟩
  · intro h1 h2 h3
    rw [x_glade.check_file_type_other_eq g r h1 h2 h3]
    exact ⟨rfl, rfl, rfl⟩

/-- Witness of C1 at the variables of the program start and the root tag
`glade-interface`. -/
theorem check_file_type_dispatch_witness :
    x_glade.process_start.default_keywords = true
    ∧ (x_glade.check_file_type x_glade.process_start "glade-interface").do_start_element
        = x_glade.se_handler.glade2_start_element :=
  ⟨rfl, ((check_file_type_dispatch x_glade.process_start "glade-interface" rfl).1 rfl).1⟩

/-- C2: the code at the failing input `<default l10n="messages">"hello"</default>` with
default keywords: the record handed to the sink carries the text with both quotation marks,
because `end_element_handler` calls `extract_quotation_marks` with `last = buflen`, the
index of the terminating NUL (7 here); with the index of the last char (6) the helper
strips the marks. -/
theorem quotation_marks_kept_at_end_tag :
    (x_gsettings.do_extract_gsettings x_gsettings.process_start []
      [xml_event.start_element "default" [("l10n", "messages")] 1,
       xml_event.character_data "\"hello\"",
       xml_event.end_element "default"]).mlp
      = [{ shapes := some (x_gsettings.get_shapes "default" false)
           msgid := "\"hello\""
           msgctxt := none
           xcomment := none
           lineno := 1
           comment := [] }]
    ∧ x_gsettings.extract_quotation_marks "\"hello\"" 7 = "\"hello\""
    ∧ x_gsettings.extract_quotation_marks "\"hello\"" 6 = "hello" := by
  decide

/-- C3, as the claim states it, fails: from the program start, the events of
`<default>"hello"</default>` do not yield one message with the text `hello`. -/
theorem default_without_l10n_counterexample :
    ¬ (∃ m : message,
        (x_gsettings.do_extract_gsettings x_gsettings.process_start []
          [xml_event.start_element "default" [] 1,
           xml_event.character_data "\"hello\"",
           xml_event.end_element "default"]).mlp = [m]
        ∧ m.msgid = "hello") := by
  have h : (x_gsettings.do_extract_gsettings x_gsettings.process_start []
      [xml_event.start_element "default" [] 1,
       xml_event.character_data "\"hello\"",
       xml_event.end_element "default"]).mlp = [] := by
    decide
  rw [h]
  simp

/-- C3, amended: processing the events of `<default>"hello"</default>` (a `default` element
with no `l10n` attribute) yields no message, for every configuration and so with default
keywords and extract-all off: a `default` element without `l10n` is not extracted. -/
theorem default_without_l10n_scenario (g : x_gsettings.state) (mdlp : List message)
    (line : Nat) :
    (x_gsettings.do_extract_gsettings g mdlp
      [xml_event.start_element "default" [] line,
       xml_event.character_data "\"hello\"",
       xml_event.end_element "default"]).mlp = mdlp := by
  unfold x_gsettings.do_extract_gsettings
  rw [x_gsettings.gs_default_excluded_element _ [] line _ (Or.inl rfl)]
  exact x_gsettings.init_keywords_mlp _

/-- C4, as the claim states it, fails: with default keywords, the candidate element
`<default l10n="messages">` is extractable after the start-tag handler. -/
theorem default_exclusion_rule_counterexample :
    x_gsettings.is_tag (x_gsettings.init_keywords x_gsettings.process_start) "default" = true
    ∧ ((x_gsettings.start_element_handler
          (x_gsettings.init_keywords x_gsettings.process_start)
          "default" [("l10n", "messages")] 1).stack 1).extract_string = true := by
  decide

/-- C4, amended: for every candidate element named `default` (attribute names pairwise
different), the GSettings start-tag handler leaves it non-extractable exactly when the
`l10n` attribute is absent or its value equals `time`; with an `l10n` attribute of any other
value the element stays extractable. -/
theorem default_exclusion_rule (g : x_gsettings.state)
    (attributes : List (String × String)) (line : Nat)
    (hn : (attributes.map Prod.fst).Nodup)
    (hc : g.extract_all = true ∨ x_gsettings.is_tag g "default" = true) :
    ((x_gsettings.start_element_handler g "default" attributes line).stack
        (x_gsettings.start_element_handler g "default" attributes line).stack_depth
      ).extract_string = false
    ↔ ((∀ v, ("l10n", v) ∉ attributes) ∨ ("l10n", "time") ∈ attributes) := by
  rw [x_gsettings.gs_start_stack_depth, x_gsettings.gs_start_top,
    x_gsettings.new_element_state_default g attributes line hc]
  by_cases hex : ∃ v, ("l10n", v) ∈ attributes
  · obtain ⟨v, hv⟩ := hex
    have hscan := x_gsettings.scan_attributes_l10n_present attributes v
      { extracted_l10n := none, extracted_comment := none, extracted_context := none } hn hv
    rw [hscan]
    by_cases hvt : v = "time"
    · subst hvt
      simp [hv]
    · have hnt : ("l10n", "time") ∉ attributes := by
        intro ht
        have := x_gsettings.scan_attributes_l10n_present attributes "time"
          { extracted_l10n := none, extracted_comment := none, extracted_context := none }
          hn ht
        rw [hscan] at this
        exact hvt (Option.some.inj this)
      have hnall : ¬ ∀ w, ("l10n", w) ∉ attributes := fun hall => hall v hv
      simp [hvt, hnt, hnall]
  · have hall : ∀ v, ("l10n", v) ∉ attributes := fun v hv => hex ⟨v, hv⟩
    have hscan := x_gsettings.scan_attributes_l10n_absent attributes
      { extracted_l10n := none, extracted_comment := none, extracted_context := none } hall
    rw [hscan]
    simp [hall]

/-- Witness of the amended C4: default keywords, `<default l10n="messages">`. -/
theorem default_exclusion_rule_witness :
    ([("l10n", "messages")].map Prod.fst).Nodup
    ∧ ((x_gsettings.init_keywords x_gsettings.process_start).extract_all = true
        ∨ x_gsettings.is_tag (x_gsettings.init_keywords x_gsettings.process_start) "default"
          = true)
    ∧ (((x_gsettings.start_element_handler
          (x_gsettings.init_keywords x_gsettings.process_start)
          "default" [("l10n", "messages")] 1).stack
        (x_gsettings.start_element_handler
          (x_gsettings.init_keywords x_gsettings.process_start)
          "default" [("l10n", "messages")] 1).stack_depth).extract_string = false
      ↔ ((∀ v, ("l10n", v) ∉ [("l10n", "messages")])
          ∨ ("l10n", "time") ∈ [("l10n", "messages")])) :=
  ⟨by simp, Or.inr (by decide),
    default_exclusion_rule (x_gsettings.init_keywords x_gsettings.process_start)
      [("l10n", "messages")] 1 (by simp) (Or.inr (by decide))⟩

/-- C5: processing `<default l10n="time">'2020-01-01'</default>` hands no message to the
sink (for every configuration, so with default keywords and extract-all off); more
generally, with extract-all off or on, a `default` element whose `l10n` attribute equals
`time` hands nothing to the sink at its start-tag nor at its end-tag, whatever its
content. -/
theorem default_time_never_extracted (g : x_gsettings.state) (mdlp : List message)
    (attributes : List (String × String)) (line : Nat) (body : List xml_event)
    (hn : (attributes.map Prod.fst).Nodup) (ht : ("l10n", "time") ∈ attributes)
    (hb : balanced body) :
    (x_gsettings.do_extract_gsettings g mdlp
      [xml_event.start_element "default" [("l10n", "time")] line,
       xml_event.character_data "'2020-01-01'",
       xml_event.end_element "default"]).mlp = mdlp
    ∧ (x_gsettings.start_element_handler g "default" attributes line).mlp = g.mlp
    ∧ (x_gsettings.end_element_handler
        (x_gsettings.run (x_gsettings.start_element_handler g "default" attributes line) body)
        "default").mlp
      = (x_gsettings.run (x_gsettings.start_element_handler g "default" attributes line)
          body).mlp := by
  refine ⟨?_, rfl, ?_⟩
  · unfold x_gsettings.do_extract_gsettings
    rw [x_gsettings.gs_default_excluded_element _ [("l10n", "time")] line _ (Or.inr rfl)]
    exact x_gsettings.init_keywords_mlp _
  · exact x_gsettings.gs_default_excluded_end g attributes line body
      (Or.inr (x_gsettings.scan_attributes_l10n_present attributes "time" _ hn ht)) hb

/-- Witness of C5: extract-all set, `<default l10n="time" comments="c">` with the content
`x<b/>`. -/
theorem default_time_never_extracted_witness :
    ([("l10n", "time"), ("comments", "c")].map Prod.fst).Nodup
    ∧ ("l10n", "time") ∈ [("l10n", "time"), ("comments", "c")]
    ∧ balanced [xml_event.character_data "x", xml_event.start_element "b" [] 2,
        xml_event.end_element "b"]
    ∧ (x_gsettings.end_element_handler
        (x_gsettings.run
          (x_gsettings.start_element_handler
            (x_gsettings.x_gsettings_extract_all x_gsettings.process_start) "default"
            [("l10n", "time"), ("comments", "c")] 1)
          [xml_event.character_data "x", xml_event.start_element "b" [] 2,
            xml_event.end_element "b"])
        "default").mlp
      = (x_gsettings.run
          (x_gsettings.start_element_handler
            (x_gsettings.x_gsettings_extract_all x_gsettings.process_start) "default"
            [("l10n", "time"), ("comments", "c")] 1)
          [xml_event.character_data "x", xml_event.start_element "b" [] 2,
            xml_event.end_element "b"]).mlp :=
  ⟨by decide, by simp,
    balanced.character_data "x" (balanced.element "b" [] 2 balanced.nil balanced.nil),
    (default_time_never_extracted (x_gsettings.x_gsettings_extract_all x_gsettings.process_start)
      [] [("l10n", "time"), ("comments", "c")] 1
      [xml_event.character_data "x", xml_event.start_element "b" [] 2,
        xml_event.end_element "b"]
      (by decide) (by simp)
      (balanced.character_data "x" (balanced.element "b" [] 2 balanced.nil balanced.nil))).2.2⟩

/-- C6, as the claim states it, fails: after the single call `x_glade_keyword ("foo")` and
the root tag `glade-interface`, `is_tag` does not hold exactly for the registered keyword
`foo` (it holds for `property`). -/
theorem explicit_keyword_disables_defaults_counterexample :
    ¬ (∀ n : String,
        x_glade.is_tag
          (x_glade.check_file_type
            ([some "foo"].foldl x_glade.x_glade_keyword x_glade.process_start)
            "glade-interface") n = true
        ↔ some n ∈ [some "foo"]) := by
  intro hall
  have hp := (hall "property").1 (by decide)
  revert hp
  decide

/-- C6, amended: registering an explicit keyword does not disable the default set, only
`x_glade_keyword (NULL)` does. Starting from an empty keyword table with default keywords in
force, after any sequence of `x_glade_keyword` calls and for every recognised root tag:
when one of the calls passed `NULL`, `is_tag (n)` holds iff `n` is one of the explicitly
registered keywords; when none did, every name of the default candidate set of the dialect
satisfies `is_tag`, whatever keywords were registered. -/
theorem explicit_keywords_and_default_set (g0 : x_glade.state)
    (calls : List (Option String)) (r n : String)
    (hk : g0.keywords = none) (hd : g0.default_keywords = true)
    (hr : r = "glade-interface" ∨ r = "interface" ∨ r = "GTK-Interface") :
    (none ∈ calls →
      (x_glade.is_tag (x_glade.check_file_type (calls.foldl x_glade.x_glade_keyword g0) r) n
          = true
        ↔ some n ∈ calls))
    ∧ (none ∉ calls →
      (r = "glade-interface" → n ∈ ["property", "atkproperty", "atkaction"] →
        x_glade.is_tag (x_glade.check_file_type (calls.foldl x_glade.x_glade_keyword g0) r) n
          = true)
      ∧ (r = "interface" → n ∈ ["property", "attribute", "col"] →
        x_glade.is_tag (x_glade.check_file_type (calls.foldl x_glade.x_glade_keyword g0) r) n
          = true)
      ∧ (r = "GTK-Interface" →
        n ∈ ["label", "title", "text", "format", "copyright", "comments", "preview_text",
             "tooltip"] →
        x_glade.is_tag (x_glade.check_file_type (calls.foldl x_glade.x_glade_keyword g0) r) n
          = true)) := by
  have hreg0 : ¬ x_glade.registered g0 n := by
    simp [x_glade.registered, hk]
  constructor
  · intro hnull
    have hdk : (calls.foldl x_glade.x_glade_keyword g0).default_keywords = false := by
      rw [x_glade.keyword_calls_default_keywords]
      simp [hnull]
    have hreg := x_glade.keyword_calls_registered calls g0 n
    have hcf : ∀ g : x_glade.state, g.default_keywords = false →
        (x_glade.is_tag (x_glade.check_file_type g r) n = true ↔ x_glade.registered g n) := by
      intro g hg
      rw [x_glade.is_tag_of_not_default]
      · unfold x_glade.registered
        rcases hr with rfl | rfl | rfl <;>
          simp [x_glade.check_file_type, x_glade.init_glade2_tags,
            x_glade.init_gtkbuilder_tags, x_glade.init_glade1_tags,
            x_glade.init_tags_of_not_default, hg]
      · rcases hr with rfl | rfl | rfl <;>
          simp [x_glade.check_file_type, x_glade.init_glade2_tags,
            x_glade.init_gtkbuilder_tags, x_glade.init_glade1_tags,
            x_glade.init_tags_of_not_default, hg]
    rw [hcf _ hdk, hreg]
    simp [hreg0]
  · intro hnull
    have hdk : (calls.foldl x_glade.x_glade_keyword g0).default_keywords = true := by
      rw [x_glade.keyword_calls_default_keywords]
      simp [hnull, hd]
    refine ⟨?_, ?_, ?_⟩
    · rintro rfl hn
      rw [x_glade.check_file_type_glade2_eq _ hdk]
      exact (x_glade.is_tag_of_default_tags _ n _ (by exact hdk) (by rfl)).2 hn
    · rintro rfl hn
      rw [x_glade.check_file_type_gtkbuilder_eq _ hdk]
      exact (x_glade.is_tag_of_default_tags _ n _ (by exact hdk) (by rfl)).2 hn
    · rintro rfl hn
      rw [x_glade.check_file_type_glade1_eq _ hdk]
      exact (x_glade.is_tag_of_default_tags _ n _ (by exact hdk) (by rfl)).2 hn

/-- Witness of the amended C6: the calls `x_glade_keyword ("foo")`, `x_glade_keyword (NULL)`
from the program start, root tag `interface`, element name `foo`. -/
theorem explicit_keywords_and_default_set_witness :
    x_glade.process_start.keywords = none
    ∧ x_glade.process_start.default_keywords = true
    ∧ (x_glade.is_tag
        (x_glade.check_file_type
          ([some "foo", none].foldl x_glade.x_glade_keyword x_glade.process_start)
          "interface") "foo" = true
      ↔ some "foo" ∈ [some "foo", none]) :=
  ⟨rfl, rfl,
    (explicit_keywords_and_default_set x_glade.process_start [some "foo", none] "interface"
      "foo" rfl rfl (Or.inr (Or.inl rfl))).1 (by simp)⟩

/-- C7: once default keywords have been disabled by `x_glade_keyword (NULL)`, for every root
tag `check_file_type` installs no candidate set, and for every element name `n` the
element is a candidate (its `extract_string` before the dialect policy runs) iff
extract-all is set or `n` was explicitly registered by an `x_glade_keyword` call. -/
theorem non_default_mode (g0 : x_glade.state) (calls : List (Option String))
    (r n : String) (line : Nat)
    (hk : g0.keywords = none) (hnull : none ∈ calls) :
    (x_glade.check_file_type (calls.foldl x_glade.x_glade_keyword g0) r).tags = none
    ∧ ((x_glade.candidate_state
          (x_glade.check_file_type (calls.foldl x_glade.x_glade_keyword g0) r) n
          line).extract_string = true
      ↔ g0.extract_all = true ∨ some n ∈ calls) := by
  have hdk : (calls.foldl x_glade.x_glade_keyword g0).default_keywords = false := by
    rw [x_glade.keyword_calls_default_keywords]
    simp [hnull]
  have hea := x_glade.keyword_calls_extract_all calls g0
  have hreg := x_glade.keyword_calls_registered calls g0 n
  have hreg0 : ¬ x_glade.registered g0 n := by
    simp [x_glade.registered, hk]
  have hcf : x_glade.check_file_type (calls.foldl x_glade.x_glade_keyword g0) r
      = { (calls.foldl x_glade.x_glade_keyword g0) with
          tags := none
          do_start_element :=
            (x_glade.check_file_type (calls.foldl x_glade.x_glade_keyword g0) r).do_start_element
          get_shapes :=
            (x_glade.check_file_type (calls.foldl x_glade.x_glade_keyword g0) r).get_shapes } := by
    unfold x_glade.check_file_type
    by_cases h1 : r = "glade-interface"
    · simp [h1, x_glade.init_glade2_tags, x_glade.init_tags_of_not_default, hdk]
    · by_cases h2 : r = "interface"
      · simp [h2, x_glade.init_gtkbuilder_tags, x_glade.init_tags_of_not_default, hdk]
      · by_cases h3 : r = "GTK-Interface"
        · simp [h3, x_glade.init_glade1_tags, x_glade.init_tags_of_not_default, hdk]
        · simp [h1, h2, h3, x_glade.clear_tags_eq]
  constructor
  · rw [hcf]
  · have htag : x_glade.is_tag
        (x_glade.check_file_type (calls.foldl x_glade.x_glade_keyword g0) r) n = true
        ↔ some n ∈ calls := by
      rw [x_glade.is_tag_of_not_default]
      · have : x_glade.registered
            (x_glade.check_file_type (calls.foldl x_glade.x_glade_keyword g0) r) n
            ↔ x_glade.registered (calls.foldl x_glade.x_glade_keyword g0) n := by
          rw [hcf]
          rfl
        rw [this, hreg]
        simp [hreg0]
      · rw [hcf]
        exact hdk
    unfold x_glade.candidate_state
    cases hx : g0.extract_all with
    | true => simp [hea, hx]
    | false =>
      simp only [x_glade.check_file_type_extract_all, hea, hx, Bool.not_false, if_true,
        Bool.false_eq_true, or_false, false_or]
      exact htag

/-- Witness of C7: the calls `x_glade_keyword ("foo")`, `x_glade_keyword (NULL)` from the
program start, root tag `glade-interface`, element name `property`. -/
theorem non_default_mode_witness :
    x_glade.process_start.keywords = none
    ∧ none ∈ [some "foo", none]
    ∧ (x_glade.check_file_type
        ([some "foo", none].foldl x_glade.x_glade_keyword x_glade.process_start)
        "glade-interface").tags = none :=
  ⟨rfl, by simp,
    (non_default_mode x_glade.process_start [some "foo", none] "glade-interface" "property" 1
      rfl (by simp)).1⟩

/-- C8, as the claim states it, fails when extract-all is set: in the Glade-2 document
`<glade-interface><atkaction>x</atkaction>` the `atkaction` element has `extract_string`
true after its start-tag, and its end-tag hands the text `x` to the sink. -/
theorem atkaction_content_counterexample :
    (((x_glade.do_extract_glade (x_glade.x_glade_extract_all x_glade.process_start) []
        [xml_event.start_element "glade-interface" [] 1,
         xml_event.start_element "atkaction" [] 2]).stack 2).extract_string = true)
    ∧ (x_glade.do_extract_glade (x_glade.x_glade_extract_all x_glade.process_start) []
        [xml_event.start_element "glade-interface" [] 1,
         xml_event.start_element "atkaction" [] 2,
         xml_event.character_data "x",
         xml_event.end_element "atkaction"]).mlp
      = [{ shapes := some (x_glade.get_glade2_shapes "atkaction" false)
           msgid := "x"
           msgctxt := none
           xcomment := none
           lineno := 2
           comment := [] }] := by
  decide

/-- C8, amended: in a Glade-2 document (root `glade-interface`), after the start-tag of an
`atkaction` element its `extract_string` equals the extract-all flag; so with extract-all
off the element is not extracted as character-data content: its `extract_string` is false
and its end-tag hands nothing to the sink, whatever content it has. -/
theorem atkaction_content (g : x_glade.state) (pre body : List xml_event)
    (attributes : List (String × String)) (line : Nat)
    (h0 : g.stack_depth = 0) (hpre : inside_root "glade-interface" pre)
    (hbody : balanced body) :
    ((x_glade.start_element_handler (x_glade.run g pre) "atkaction" attributes line).stack
        (x_glade.start_element_handler (x_glade.run g pre) "atkaction" attributes
          line).stack_depth).extract_string = g.extract_all
    ∧ (g.extract_all = false →
        (x_glade.end_element_handler
          (x_glade.run
            (x_glade.start_element_handler (x_glade.run g pre) "atkaction" attributes line)
            body) "atkaction").mlp
        = (x_glade.run
            (x_glade.start_element_handler (x_glade.run g pre) "atkaction" attributes line)
            body).mlp) := by
  obtain ⟨hd, hc⟩ := x_glade.run_inside_root hpre g h0
  obtain ⟨c1, _, _, _, c5, _⟩ := hc
  rw [x_glade.check_file_type_extract_all] at c1
  rw [(x_glade.check_file_type_glade2 g).1] at c5
  have htop : ((x_glade.start_element_handler (x_glade.run g pre) "atkaction" attributes
      line).stack
        (x_glade.start_element_handler (x_glade.run g pre) "atkaction" attributes
          line).stack_depth).extract_string = g.extract_all := by
    rw [x_glade.start_element_handler_top _ _ _ _ hd]
    unfold x_glade.call_start_element
    rw [c5]
    simp only
    rw [x_glade.glade2_atkaction_extract_string, c1]
  refine ⟨htop, ?_⟩
  intro hx
  obtain ⟨b1, _, b3, _⟩ := x_glade.run_balanced hbody
    (x_glade.start_element_handler (x_glade.run g pre) "atkaction" attributes line)
  apply x_glade.end_element_handler_mlp_of_not_extract
  rw [b1]
  apply b3
  rw [htop, hx]

/-- Witness of the amended C8: the program start, the prefix `<glade-interface>`, an
`atkaction` element without attributes and with the text `x`. -/
theorem atkaction_content_witness :
    x_glade.process_start.stack_depth = 0
    ∧ inside_root "glade-interface" [xml_event.start_element "glade-interface" [] 1]
    ∧ balanced [xml_event.character_data "x"]
    ∧ ((x_glade.start_element_handler
          (x_glade.run x_glade.process_start
            [xml_event.start_element "glade-interface" [] 1])
          "atkaction" [] 2).stack
        (x_glade.start_element_handler
          (x_glade.run x_glade.process_start
            [xml_event.start_element "glade-interface" [] 1])
          "atkaction" [] 2).stack_depth).extract_string
        = x_glade.process_start.extract_all :=
  ⟨rfl, inside_root.root [] 1, balanced.character_data "x" balanced.nil,
    (atkaction_content x_glade.process_start [xml_event.start_element "glade-interface" [] 1]
      [xml_event.character_data "x"] [] 2 rfl (inside_root.root [] 1)
      (balanced.character_data "x" balanced.nil)).1⟩

/-- C9: in a document with root `glade-interface`, with default keywords and extract-all
off, the start-tag of `<atkaction description="Click me"/>` hands exactly one record to
the sink, with text `Click me` and no context, at start-tag time; the character data of the
element and its end-tag hand over nothing more, whatever the character data is. -/
theorem atkaction_description_scenario (g : x_glade.state) (mdlp : List message)
    (pre : List xml_event) (line : Nat) (chunks : List String)
    (hd : g.default_keywords = true) (he : g.extract_all = false)
    (hpre : inside_root "glade-interface" pre) :
    (x_glade.start_element_handler (x_glade.do_extract_glade g mdlp pre) "atkaction"
        [("description", "Click me")] line).mlp
      = (x_glade.do_extract_glade g mdlp pre).mlp
        ++ [{ shapes := none
              msgid := "Click me"
              msgctxt := none
              xcomment := none
              lineno := line
              comment := (x_glade.do_extract_glade g mdlp pre).savable_comment }]
    ∧ (x_glade.run
        (x_glade.start_element_handler (x_glade.do_extract_glade g mdlp pre) "atkaction"
          [("description", "Click me")] line)
        (chunks.map xml_event.character_data ++ [xml_event.end_element "atkaction"])).mlp
      = (x_glade.start_element_handler (x_glade.do_extract_glade g mdlp pre) "atkaction"
          [("description", "Click me")] line).mlp := by
  have key : ∀ g0 : x_glade.state, g0.default_keywords = true → g0.extract_all = false →
      g0.stack_depth = 0 →
      (x_glade.start_element_handler (x_glade.run g0 pre) "atkaction"
          [("description", "Click me")] line).mlp
        = (x_glade.run g0 pre).mlp
          ++ [{ shapes := none
                msgid := "Click me"
                msgctxt := none
                xcomment := none
                lineno := line
                comment := (x_glade.run g0 pre).savable_comment }]
      ∧ (x_glade.run
          (x_glade.start_element_handler (x_glade.run g0 pre) "atkaction"
            [("description", "Click me")] line)
          (chunks.map xml_event.character_data ++ [xml_event.end_element "atkaction"])).mlp
        = (x_glade.start_element_handler (x_glade.run g0 pre) "atkaction"
            [("description", "Click me")] line).mlp := by
    intro g0 hd0 he0 h0
    obtain ⟨hdepth, hc⟩ := x_glade.run_inside_root hpre g0 h0
    obtain ⟨c1, _, c3, c4, c5, _⟩ := hc
    rw [x_glade.check_file_type_extract_all] at c1
    rw [x_glade.check_file_type_default_keywords] at c3
    rw [x_glade.check_file_type_glade2_tags _ hd0] at c4
    rw [(x_glade.check_file_type_glade2 _).1] at c5
    have htag : x_glade.is_tag (x_glade.run g0 pre) "atkaction" = true := by
      rw [x_glade.is_tag_of_default_tags _ _ _ (c3.trans hd0) c4]
      decide
    have hcall : x_glade.call_start_element (x_glade.run g0 pre)
        (x_glade.candidate_state (x_glade.run g0 pre) "atkaction" line)
        "atkaction" [("description", "Click me")] line
        = ({ extract_string := false
             extract_context := false
             extracted_context := none
             extracted_comment := none
             lineno := line
             buffer := none
             bufmax := 0
             buflen := 0 },
           [{ shapes := none
              msgid := "Click me"
              msgctxt := none
              xcomment := none
              lineno := line
              comment := (x_glade.run g0 pre).savable_comment }]) := by
      unfold x_glade.call_start_element
      rw [c5]
      simp [x_glade.glade2_start_element, x_glade.candidate_state, x_glade.glade2_scan, htag,
        c1.trans he0]
    have hmlp := x_glade.start_element_handler_mlp (x_glade.run g0 pre) "atkaction"
      [("description", "Click me")] line hdepth
    rw [hcall] at hmlp
    refine ⟨hmlp, ?_⟩
    rw [x_glade.run_append, x_glade.run_cons, x_glade.run_nil]
    simp only [x_glade.handle_event]
    obtain ⟨d1, d2, d3⟩ := x_glade.run_character_data chunks
      (x_glade.start_element_handler (x_glade.run g0 pre) "atkaction"
        [("description", "Click me")] line)
    rw [x_glade.end_element_handler_mlp_of_not_extract, d1]
    rw [d2, d3, x_glade.start_element_handler_top _ _ _ _ hdepth, hcall]
  exact key { g with mlp := mdlp, stack_depth := 0 } hd he rfl

/-- Witness of C9: the program start, the prefix `<glade-interface>`, character data
`ignored`. -/
theorem atkaction_description_scenario_witness :
    x_glade.process_start.default_keywords = true
    ∧ x_glade.process_start.extract_all = false
    ∧ inside_root "glade-interface" [xml_event.start_element "glade-interface" [] 1]
    ∧ (x_glade.run
        (x_glade.start_element_handler
          (x_glade.do_extract_glade x_glade.process_start []
            [xml_event.start_element "glade-interface" [] 1])
          "atkaction" [("description", "Click me")] 2)
        (["ignored"].map xml_event.character_data ++ [xml_event.end_element "atkaction"])).mlp
      = (x_glade.start_element_handler
          (x_glade.do_extract_glade x_glade.process_start []
            [xml_event.start_element "glade-interface" [] 1])
          "atkaction" [("description", "Click me")] 2).mlp :=
  ⟨rfl, rfl, inside_root.root [] 1,
    (atkaction_description_scenario x_glade.process_start []
      [xml_event.start_element "glade-interface" [] 1] 2 ["ignored"] rfl rfl
      (inside_root.root [] 1)).2⟩

/-- C10: processing
`<glade-interface><property translatable="yes">Hello</property></glade-interface>` with
default keywords and extract-all off hands exactly one record to the sink: text `Hello`, no
context (no context string, glib-context flag false, no context argument in the shape) and
no attribute comment. -/
theorem glade2_property_scenario (g : x_glade.state) (mdlp : List message) (l0 l1 : Nat)
    (hd : g.default_keywords = true) (he : g.extract_all = false) :
    (x_glade.do_extract_glade g mdlp
      [xml_event.start_element "glade-interface" [] l0,
       xml_event.start_element "property" [("translatable", "yes")] l1,
       xml_event.character_data "Hello",
       xml_event.end_element "property",
       xml_event.end_element "glade-interface"]).mlp
      = mdlp ++
        [{ shapes := some
             { keyword := "property"
               keyword_len := 7
               nshapes := 1
               shapes0 :=
                 { argnum1 := 1
                   argnum2 := 0
                   argnumc := 0
                   argnum1_glib_context := false
                   argnum2_glib_context := false
                   argtotal := 0
                   xcomments := [] } }
           msgid := "Hello"
           msgctxt := none
           xcomment := none
           lineno := l1
           comment := [] }] := by
  have hlen : "Hello".length = 5 := rfl
  have hklen : "property".length = 8 := rfl
  simp [x_glade.do_extract_glade, x_glade.run, x_glade.handle_event,
    x_glade.start_element_handler, x_glade.end_element_handler,
    x_glade.character_data_handler, x_glade.call_start_element, x_glade.call_get_shapes,
    x_glade.candidate_state, x_glade.glade2_start_element, x_glade.glade2_scan,
    x_glade.is_tag, x_glade.store_message, x_glade.get_glade2_shapes, set_slot,
    hash_find_entry, x_glade.check_file_type_glade2_eq, hd, he, MSGID_ARGNUM, keyword_len_of,
    hlen, hklen]

/-- Witness of C10 at the variables of the program start. -/
theorem glade2_property_scenario_witness :
    x_glade.process_start.default_keywords = true
    ∧ x_glade.process_start.extract_all = false
    ∧ ((x_glade.do_extract_glade x_glade.process_start []
      [xml_event.start_element "glade-interface" [] 1,
       xml_event.start_element "property" [("translatable", "yes")] 2,
       xml_event.character_data "Hello",
       xml_event.end_element "property",
       xml_event.end_element "glade-interface"]).mlp.map (fun m => m.msgid)) = ["Hello"] :=
  ⟨rfl, rfl, by
    rw [glade2_property_scenario x_glade.process_start [] 1 2 rfl rfl]
    rfl⟩

/-- C11: processing
`<interface><property translatable="yes" context="Foo">Bar</property></interface>` with
default keywords and extract-all off hands exactly one record to the sink: text `Bar`,
context `Foo` remembered as argument `MSGCTXT_ARGNUM`, and a shape whose `argnumc` is
`MSGCTXT_ARGNUM`. -/
theorem gtkbuilder_property_scenario (g : x_glade.state) (mdlp : List message) (l0 l1 : Nat)
    (hd : g.default_keywords = true) (he : g.extract_all = false) :
    (x_glade.do_extract_glade g mdlp
      [xml_event.start_element "interface" [] l0,
       xml_event.start_element "property" [("translatable", "yes"), ("context", "Foo")] l1,
       xml_event.character_data "Bar",
       xml_event.end_element "property",
       xml_event.end_element "interface"]).mlp
      = mdlp ++
        [{ shapes := some
             { keyword := "property"
               keyword_len := 7
               nshapes := 1
               shapes0 :=
                 { argnum1 := MSGID_ARGNUM
                   argnum2 := 0
                   argnumc := MSGCTXT_ARGNUM
                   argnum1_glib_context := false
                   argnum2_glib_context := false
                   argtotal := 0
                   xcomments := [] } }
           msgid := "Bar"
           msgctxt := some "Foo"
           xcomment := none
           lineno := l1
           comment := [] }] := by
  have hlen : "Bar".length = 3 := rfl
  have hklen : "property".length = 8 := rfl
  simp [x_glade.do_extract_glade, x_glade.run, x_glade.handle_event,
    x_glade.start_element_handler, x_glade.end_element_handler,
    x_glade.character_data_handler, x_glade.call_start_element, x_glade.call_get_shapes,
    x_glade.candidate_state, x_glade.gtkbuilder_start_element, x_glade.gtkbuilder_scan,
    x_glade.is_tag, x_glade.store_message, x_glade.get_gtkbuilder_shapes, set_slot,
    hash_find_entry, x_glade.check_file_type_gtkbuilder_eq, hd, he, MSGID_ARGNUM,
    MSGCTXT_ARGNUM, keyword_len_of, hlen, hklen]

/-- Witness of C11 at the variables of the program start. -/
theorem gtkbuilder_property_scenario_witness :
    x_glade.process_start.default_keywords = true
    ∧ x_glade.process_start.extract_all = false
    ∧ ((x_glade.do_extract_glade x_glade.process_start []
      [xml_event.start_element "interface" [] 1,
       xml_event.start_element "property" [("translatable", "yes"), ("context", "Foo")] 2,
       xml_event.character_data "Bar",
       xml_event.end_element "property",
       xml_event.end_element "interface"]).mlp.map (fun m => (m.msgid, m.msgctxt)))
      = [("Bar", some "Foo")] :=
  ⟨rfl, rfl, by
    rw [gtkbuilder_property_scenario x_glade.process_start [] 1 2 rfl rfl]
    rfl⟩

/-- C15: the code at the failing input, the comment text `abc  \ndef` (two spaces before
the newline). Both `comment_handler`s forward three lines, `abc`, the empty line and `def`,
where splitting at the newline and trimming gives the two lines `abc` and `def`: the next
round of the `for` loop starts one char after the place where the trailing blanks were cut,
not one char after the newline. -/
theorem comment_handler_extra_line :
    (x_glade.comment_handler x_glade.process_start "abc  \ndef").savable_comment
      = ["abc", "", "def"]
    ∧ (x_gsettings.comment_handler x_gsettings.process_start "abc  \ndef").savable_comment
      = ["abc", "", "def"]
    ∧ normalized_lines "abc  \ndef" = ["abc", "def"] := by
  decide

/-- C20: starting from an empty keyword table, (1) with default keywords in force and no
explicit keyword registered, after `init_keywords` the GSettings `is_tag (n)` holds iff `n`
is one of `description`, `summary`, `default`; (2) after `x_gsettings_keyword` calls that
include `NULL`, `is_tag (n)` holds after `init_keywords` iff `n` was explicitly registered;
(3) `init_keywords` is idempotent: a second call changes nothing. -/
theorem gsettings_candidate_set (g : x_gsettings.state) (calls : List (Option String))
    (n : String) (hk : g.keywords = none) :
    (g.default_keywords = true →
      (x_gsettings.is_tag (x_gsettings.init_keywords g) n = true
        ↔ n = "description" ∨ n = "summary" ∨ n = "default"))
    ∧ (none ∈ calls →
      (x_gsettings.is_tag
          (x_gsettings.init_keywords (calls.foldl x_gsettings.x_gsettings_keyword g)) n = true
        ↔ some n ∈ calls))
    ∧ (∀ g1 : x_gsettings.state,
        x_gsettings.init_keywords (x_gsettings.init_keywords g1)
          = x_gsettings.init_keywords g1) := by
  have h0 : x_gsettings.is_tag g n = false := by
    unfold x_gsettings.is_tag
    rw [hk]
  refine ⟨?_, ?_, x_gsettings.init_keywords_idempotent⟩
  · intro hd
    rw [x_gsettings.init_keywords_of_default g hd, x_gsettings.gs_is_tag_keyword,
      x_gsettings.gs_is_tag_keyword, x_gsettings.gs_is_tag_keyword, h0]
    simp [or_assoc]
  · intro hnull
    have hdk : (calls.foldl x_gsettings.x_gsettings_keyword g).default_keywords = false := by
      rw [x_gsettings.gs_keyword_calls_default_keywords]
      simp [hnull]
    rw [x_gsettings.init_keywords_of_not_default _ hdk,
      x_gsettings.gs_is_tag_keyword_calls, h0]
    simp

/-- Witness of C20: the program start, the calls `x_gsettings_keyword ("foo")` and
`x_gsettings_keyword (NULL)`, the name `default`. -/
theorem gsettings_candidate_set_witness :
    x_gsettings.process_start.keywords = none
    ∧ (x_gsettings.is_tag (x_gsettings.init_keywords x_gsettings.process_start) "default"
        = true
      ↔ "default" = "description" ∨ "default" = "summary" ∨ "default" = "default") :=
  ⟨rfl,
    (gsettings_candidate_set x_gsettings.process_start [some "foo", none] "default" rfl).1
      rfl⟩

/-- C13, as the claim states it, fails in its last part: in the Glade-2 document
`<glade-interface><widget context="yes">` with default keywords and extract-all off, the
element `widget` is not a candidate and its `extract_context` stays false, although its
`context` attribute equals `yes`. -/
theorem glade2_policy_counterexample :
    ("context", "yes") ∈ [("context", "yes")]
    ∧ (x_glade.glade2_start_element
        (x_glade.do_extract_glade x_glade.process_start []
          [xml_event.start_element "glade-interface" [] 1])
        (x_glade.candidate_state
          (x_glade.do_extract_glade x_glade.process_start []
            [xml_event.start_element "glade-interface" [] 1]) "widget" 2)
        "widget" [("context", "yes")] 2).1.extract_context = false
    ∧ ((x_glade.start_element_handler
        (x_glade.do_extract_glade x_glade.process_start []
          [xml_event.start_element "glade-interface" [] 1])
        "widget" [("context", "yes")] 2).stack 2).extract_context = false := by
  decide

/-- C13, amended: for every element other than `atkaction` and every attribute list
(attribute names pairwise different), after `glade2_start_element` the element is eligible
iff extract-all is set, or it is a candidate tag and its `translatable` attribute equals
`yes`; `extracted_comment` is the value of the `comments` attribute iff the element was a
candidate (or extract-all), `translatable` equals `yes` and the attribute is present, and is
absent otherwise; `extract_context` is true iff the element was a candidate (or extract-all)
and a `context` attribute equals `yes`. -/
theorem glade2_policy (g : x_glade.state) (name : String)
    (attributes : List (String × String)) (line : Nat)
    (hname : name ≠ "atkaction") (hn : (attributes.map Prod.fst).Nodup) :
    ((x_glade.glade2_start_element g (x_glade.candidate_state g name line) name attributes
        line).1.extract_string = true
      ↔ g.extract_all = true
        ∨ (x_glade.is_tag g name = true ∧ ("translatable", "yes") ∈ attributes))
    ∧ (∀ c : String,
        (x_glade.glade2_start_element g (x_glade.candidate_state g name line) name attributes
          line).1.extracted_comment = some c
        ↔ (g.extract_all = true ∨ x_glade.is_tag g name = true)
          ∧ ("translatable", "yes") ∈ attributes ∧ ("comments", c) ∈ attributes)
    ∧ ((x_glade.glade2_start_element g (x_glade.candidate_state g name line) name attributes
        line).1.extract_context = true
      ↔ (g.extract_all = true ∨ x_glade.is_tag g name = true)
        ∧ ("context", "yes") ∈ attributes) := by
  have ht := x_glade.glade2_scan_translatable attributes hn
  have hc := x_glade.glade2_scan_context attributes hn
  have hm := x_glade.glade2_scan_comments attributes hn
  have hcand := x_glade.candidate_state_extract_string g name line
  have hinit : (x_glade.candidate_state g name line).extract_context = false
      ∧ (x_glade.candidate_state g name line).extracted_comment = none := by
    unfold x_glade.candidate_state
    cases g.extract_all <;> simp
  unfold x_glade.glade2_start_element
  by_cases hcd : (x_glade.candidate_state g name line).extract_string = true
  · have hcd2 : g.extract_all = true ∨ x_glade.is_tag g name = true := by
      rw [hcand] at hcd
      simpa using hcd
    simp only [hcd, if_true, hname, decide_False, Bool.false_eq_true, if_false]
    refine ⟨?_, ?_, ?_⟩
    · rw [Bool.or_eq_true, ht]
      constructor
      · rintro (h | h)
        · rcases hcd2 with h2 | h2
          · exact Or.inl h2
          · exact Or.inr ⟨h2, h⟩
        · exact Or.inl h
      · rintro (h | ⟨_, h⟩)
        · exact Or.inr h
        · exact Or.inl h
    · intro c
      by_cases htr : (x_glade.glade2_scan false attributes
          { has_translatable := false, has_context := false, extracted_comment := none,
            remembered := none }).has_translatable = true
      · have htr2 := ht.1 htr
        by_cases hcm : (x_glade.glade2_scan false attributes
            { has_translatable := false, has_context := false, extracted_comment := none,
              remembered := none }).extracted_comment = none
        · have hno : ("comments", c) ∉ attributes := by
            intro hin
            rw [(hm c).2 hin] at hcm
            cases hcm
          simp [htr, hcm, hno]
        · simp only [htr, Bool.true_and, bne_iff_ne, ne_eq, hcm, not_false_eq_true,
            decide_True, if_true]
          rw [hm c]
          simp [hcd2, htr2]
      · have htr2 : ("translatable", "yes") ∉ attributes := fun h => htr (ht.2 h)
        have htr3 : (x_glade.glade2_scan false attributes
          { has_translatable := false, has_context := false, extracted_comment := none,
            remembered := none }).has_translatable = false := by
          simpa using htr
        simp [htr3, htr2]
    · rw [hc]
      simp [hcd2]
  · have hcd2 : ¬ (g.extract_all = true ∨ x_glade.is_tag g name = true) := by
      rw [hcand] at hcd
      simpa using hcd
    have hcd3 : g.extract_all = false ∧ x_glade.is_tag g name = false := by
      simpa using hcd2
    simp only [hcd, if_false]
    refine ⟨?_, ?_, ?_⟩
    · simp [hcd, hcd3.1, hcd3.2]
    · intro c
      simp [hinit.2, hcd3.1, hcd3.2]
    · simp [hinit.1, hcd3.1, hcd3.2]

/-- Witness of the amended C13: the program start after the root tag `glade-interface`,
the element `<property translatable="yes" comments="note">`. -/
theorem glade2_policy_witness :
    "property" ≠ "atkaction"
    ∧ ([("translatable", "yes"), ("comments", "note")].map Prod.fst).Nodup
    ∧ ((x_glade.glade2_start_element
          (x_glade.check_file_type x_glade.process_start "glade-interface")
          (x_glade.candidate_state
            (x_glade.check_file_type x_glade.process_start "glade-interface") "property" 2)
          "property" [("translatable", "yes"), ("comments", "note")] 2).1.extract_string
        = true
      ↔ (x_glade.check_file_type x_glade.process_start "glade-interface").extract_all = true
        ∨ (x_glade.is_tag (x_glade.check_file_type x_glade.process_start "glade-interface")
            "property" = true
          ∧ ("translatable", "yes") ∈ [("translatable", "yes"), ("comments", "note")])) :=
  ⟨by decide, by decide,
    (glade2_policy (x_glade.check_file_type x_glade.process_start "glade-interface")
      "property" [("translatable", "yes"), ("comments", "note")] 2 (by decide)
      (by decide)).1⟩

/-- C14, as the claim states it, fails: in the GtkBuilder document
`<interface><object translatable="yes" comments="c" context="x">` with default keywords
and extract-all off, the element `object` is not in the candidate set: it is not eligible
although `translatable` equals `yes`, and its `comments` and `context` values are not
captured. -/
theorem gtkbuilder_policy_counterexample :
    (x_glade.gtkbuilder_start_element
        (x_glade.do_extract_glade x_glade.process_start []
          [xml_event.start_element "interface" [] 1])
        (x_glade.candidate_state
          (x_glade.do_extract_glade x_glade.process_start []
            [xml_event.start_element "interface" [] 1]) "object" 2)
        "object" [("translatable", "yes"), ("comments", "c"), ("context", "x")] 2).1
      = { extract_string := false
          extract_context := false
          extracted_context := none
          extracted_comment := none
          lineno := 2
          buffer := none
          bufmax := 0
          buflen := 0 }
    ∧ ((x_glade.start_element_handler
        (x_glade.do_extract_glade x_glade.process_start []
          [xml_event.start_element "interface" [] 1])
        "object" [("translatable", "yes"), ("comments", "c"), ("context", "x")] 2).stack
          2).extract_string = false := by
  decide

/-- C14, amended: for every element name and attribute list (attribute names pairwise
different), after `gtkbuilder_start_element` the element is eligible iff extract-all is set,
or its name is a candidate tag and `translatable` equals `yes`; when it is eligible the
`comments` and `context` attribute values are captured into `extracted_comment` and
`extracted_context` (the context as a literal string, `extract_context` telling whether
there is one), so under extract-all they are captured whether or not the name is in the
candidate set and also without a `translatable` attribute; when it is not eligible nothing
is captured. -/
theorem gtkbuilder_policy (g : x_glade.state) (name : String)
    (attributes : List (String × String)) (line : Nat)
    (hn : (attributes.map Prod.fst).Nodup) :
    ((x_glade.gtkbuilder_start_element g (x_glade.candidate_state g name line) name
        attributes line).1.extract_string = true
      ↔ g.extract_all = true
        ∨ (x_glade.is_tag g name = true ∧ ("translatable", "yes") ∈ attributes))
    ∧ ((x_glade.gtkbuilder_start_element g (x_glade.candidate_state g name line) name
        attributes line).1.extract_string = true →
      (∀ c : String,
        (x_glade.gtkbuilder_start_element g (x_glade.candidate_state g name line) name
          attributes line).1.extracted_comment = some c ↔ ("comments", c) ∈ attributes)
      ∧ (∀ c : String,
        (x_glade.gtkbuilder_start_element g (x_glade.candidate_state g name line) name
          attributes line).1.extracted_context = some c ↔ ("context", c) ∈ attributes)
      ∧ ((x_glade.gtkbuilder_start_element g (x_glade.candidate_state g name line) name
          attributes line).1.extract_context = true ↔ ∃ c, ("context", c) ∈ attributes))
    ∧ ((x_glade.gtkbuilder_start_element g (x_glade.candidate_state g name line) name
        attributes line).1.extract_string = false →
      (x_glade.gtkbuilder_start_element g (x_glade.candidate_state g name line) name
          attributes line).1.extracted_comment = none
      ∧ (x_glade.gtkbuilder_start_element g (x_glade.candidate_state g name line) name
          attributes line).1.extracted_context = none
      ∧ (x_glade.gtkbuilder_start_element g (x_glade.candidate_state g name line) name
          attributes line).1.extract_context = false) := by
  have ht := x_glade.gtkbuilder_scan_translatable attributes hn
  have hc := x_glade.gtkbuilder_scan_context attributes hn
  have hm := x_glade.gtkbuilder_scan_comments attributes hn
  have hcand := x_glade.candidate_state_extract_string g name line
  have hinit : (x_glade.candidate_state g name line).extract_context = false
      ∧ (x_glade.candidate_state g name line).extracted_comment = none
      ∧ (x_glade.candidate_state g name line).extracted_context = none := by
    unfold x_glade.candidate_state
    cases g.extract_all <;> simp
  have hctx : ((x_glade.gtkbuilder_scan attributes
      { has_translatable := false, extracted_comment := none,
        extracted_context := none }).extracted_context != none) = true
      ↔ ∃ c, ("context", c) ∈ attributes := by
    cases hv : (x_glade.gtkbuilder_scan attributes
      { has_translatable := false, extracted_comment := none,
        extracted_context := none }).extracted_context with
    | none =>
      have : ¬ ∃ c, ("context", c) ∈ attributes := by
        rintro ⟨c, hcin⟩
        rw [(hc c).2 hcin] at hv
        cases hv
      simp [this]
    | some c =>
      have : ∃ c, ("context", c) ∈ attributes := ⟨c, (hc c).1 hv⟩
      simp [this]
  unfold x_glade.gtkbuilder_start_element
  by_cases hcd : (x_glade.candidate_state g name line).extract_string = true
  · have hcd2 : g.extract_all = true ∨ x_glade.is_tag g name = true := by
      rw [hcand] at hcd
      simpa using hcd
    simp only [hcd, if_true]
    by_cases hel : ((x_glade.gtkbuilder_scan attributes
        { has_translatable := false, extracted_comment := none,
          extracted_context := none }).has_translatable || g.extract_all) = true
    · have hel2 : g.extract_all = true
          ∨ (x_glade.is_tag g name = true ∧ ("translatable", "yes") ∈ attributes) := by
        rw [Bool.or_eq_true, ht] at hel
        rcases hel with h | h
        · rcases hcd2 with h2 | h2
          · exact Or.inl h2
          · exact Or.inr ⟨h2, h⟩
        · exact Or.inl h
      simp only [hel, if_true]
      refine ⟨⟨fun _ => hel2, fun _ => trivial⟩, fun _ => ⟨hm, hc, hctx⟩, ?_⟩
      intro h
      cases h
    · have hel3 : ((x_glade.gtkbuilder_scan attributes
          { has_translatable := false, extracted_comment := none,
            extracted_context := none }).has_translatable || g.extract_all) = false := by
        simpa using hel
      have hel2 : ¬ (g.extract_all = true
          ∨ (x_glade.is_tag g name = true ∧ ("translatable", "yes") ∈ attributes)) := by
        rw [Bool.or_eq_true, ht] at hel
        rintro (h | ⟨_, h⟩)
        · exact hel (Or.inr h)
        · exact hel (Or.inl h)
      simp only [hel3, Bool.false_eq_true, if_false]
      refine ⟨⟨fun h => (by cases h), fun h => absurd h hel2⟩, fun h => (by cases h), ?_⟩
      intro _
      exact ⟨hinit.2.1, hinit.2.2, hinit.1⟩
  · have hcd2 : ¬ (g.extract_all = true ∨ x_glade.is_tag g name = true) := by
      rw [hcand] at hcd
      simpa using hcd
    have hcd3 : (x_glade.candidate_state g name line).extract_string = false := by
      simpa using hcd
    simp only [hcd3, Bool.false_eq_true, if_false]
    refine ⟨⟨fun h => (by cases h), ?_⟩, fun h => (by cases h), ?_⟩
    · rintro (h | ⟨h, _⟩)
      · exact absurd (Or.inl h) hcd2
      · exact absurd (Or.inr h) hcd2
    · intro _
      exact ⟨hinit.2.1, hinit.2.2, hinit.1⟩

/-- Witness of the amended C14: extract-all set, the element `<object comments="c">` outside
the candidate set and without a `translatable` attribute. -/
theorem gtkbuilder_policy_witness :
    ([("comments", "c")].map Prod.fst).Nodup
    ∧ ((x_glade.gtkbuilder_start_element
          (x_glade.check_file_type (x_glade.x_glade_extract_all x_glade.process_start)
            "interface")
          (x_glade.candidate_state
            (x_glade.check_file_type (x_glade.x_glade_extract_all x_glade.process_start)
              "interface") "object" 2)
          "object" [("comments", "c")] 2).1.extract_string = true
      ↔ (x_glade.check_file_type (x_glade.x_glade_extract_all x_glade.process_start)
            "interface").extract_all = true
        ∨ (x_glade.is_tag
            (x_glade.check_file_type (x_glade.x_glade_extract_all x_glade.process_start)
              "interface") "object" = true
          ∧ ("translatable", "yes") ∈ [("comments", "c")])) :=
  ⟨by decide,
    (gtkbuilder_policy
      (x_glade.check_file_type (x_glade.x_glade_extract_all x_glade.process_start)
        "interface")
      "object" [("comments", "c")] 2 (by decide)).1⟩

/-- C12: with extract-all off and no explicit keyword registered (the default keyword
configuration), for every root tag other than `glade-interface`, `interface` and
`GTK-Interface` and every balanced content under that root, the document hands nothing to
the sink, whatever candidate set, dialect binding and stack an earlier document left
behind. -/
theorem unrecognised_root_scenario (g : x_glade.state) (mdlp : List message) (r : String)
    (attributes : List (String × String)) (line : Nat) (body : List xml_event)
    (hk : g.keywords = none) (he : g.extract_all = false)
    (h1 : r ≠ "glade-interface") (h2 : r ≠ "interface") (h3 : r ≠ "GTK-Interface")
    (hb : balanced body) :
    (x_glade.do_extract_glade g mdlp
      (xml_event.start_element r attributes line :: (body ++ [xml_event.end_element r]))).mlp
      = mdlp := by
  unfold x_glade.do_extract_glade
  rw [x_glade.run_cons, x_glade.run_append, x_glade.run_cons, x_glade.run_nil]
  simp only [x_glade.handle_event]
  have hcf := x_glade.check_file_type_other_eq { g with mlp := mdlp, stack_depth := 0 } r
    h1 h2 h3
  obtain ⟨s1, s2, s3⟩ := x_glade.start_element_handler_quiet
    { g with mlp := mdlp, stack_depth := 0 } r attributes line
    (x_glade.check_file_type { g with mlp := mdlp, stack_depth := 0 } r)
    (by simp) (by rw [hcf]; exact he) (by rw [hcf]; exact hk) (by rw [hcf]) (by rw [hcf])
  obtain ⟨c1, c2, _, c4, c5, _⟩ := s3
  rw [hcf] at c1 c2 c4 c5
  have hd1 : (x_glade.start_element_handler { g with mlp := mdlp, stack_depth := 0 } r
      attributes line).stack_depth ≠ 0 := by
    rw [x_glade.start_element_handler_stack_depth]
    omega
  have hbody := x_glade.run_quiet hb _ hd1 (c1.trans he) (c2.trans hk) c4 c5
  obtain ⟨b1, _, b3, _⟩ := x_glade.run_balanced hb
    (x_glade.start_element_handler { g with mlp := mdlp, stack_depth := 0 } r attributes line)
  rw [x_glade.end_element_handler_mlp_of_not_extract, hbody, s1]
  rw [b1]
  apply b3
  rw [x_glade.start_element_handler_stack_depth]
  exact s2

/-- Witness of C12: the document `<foo><label>Text</label></foo>` after the Glade-1
document `<GTK-Interface/>` has installed its candidate set, which holds `label`. -/
theorem unrecognised_root_scenario_witness :
    (x_glade.do_extract_glade x_glade.process_start []
      [xml_event.start_element "GTK-Interface" [] 1,
       xml_event.end_element "GTK-Interface"]).tags
      = some ["label", "title", "text", "format", "copyright", "comments", "preview_text",
              "tooltip"]
    ∧ balanced [xml_event.start_element "label" [] 2, xml_event.character_data "Text",
        xml_event.end_element "label"]
    ∧ (x_glade.do_extract_glade
        (x_glade.do_extract_glade x_glade.process_start []
          [xml_event.start_element "GTK-Interface" [] 1,
           xml_event.end_element "GTK-Interface"])
        []
        (xml_event.start_element "foo" [] 1
          :: ([xml_event.start_element "label" [] 2, xml_event.character_data "Text",
               xml_event.end_element "label"] ++ [xml_event.end_element "foo"]))).mlp = [] :=
  ⟨by decide,
    balanced.element "label" [] 2 (balanced.character_data "Text" balanced.nil) balanced.nil,
    unrecognised_root_scenario
      (x_glade.do_extract_glade x_glade.process_start []
        [xml_event.start_element "GTK-Interface" [] 1,
         xml_event.end_element "GTK-Interface"])
      [] "foo" [] 1
      [xml_event.start_element "label" [] 2, xml_event.character_data "Text",
        xml_event.end_element "label"]
      (by decide) (by decide) (by decide) (by decide) (by decide)
      (balanced.element "label" [] 2 (balanced.character_data "Text" balanced.nil)
        balanced.nil)⟩

/-- C16: for every balanced event sequence the Glade engine processes, the number of
records handed to the sink is the number of end-tags of elements whose `extract_string` is
true at the end-tag and for which the character data delivered by the events is not empty,
plus the number of eligible Glade-2 `atkaction` start-tags carrying a `description`
attribute. An element for which the events of its content deliver no character data hands
over nothing at its end-tag, eligible or not. -/
theorem message_count (g : x_glade.state) (mdlp : List message) (evs : List xml_event)
    (hb : balanced evs) :
    (x_glade.do_extract_glade g mdlp evs).mlp.length
      = mdlp.length
        + x_glade.spec_message_count { g with mlp := mdlp, stack_depth := 0 } [] evs
    ∧ (x_glade.run g evs).mlp.length = g.mlp.length + x_glade.spec_message_count g [] evs
    ∧ (∀ (name : String) (attributes : List (String × String)) (line : Nat),
        evs.foldl delivered_text [""] = [""] →
        (x_glade.end_element_handler
            (x_glade.run (x_glade.start_element_handler g name attributes line) evs)
            name).mlp
          = (x_glade.run (x_glade.start_element_handler g name attributes line) evs).mlp) := by
  refine ⟨?_, ?_, ?_⟩
  · exact (x_glade.run_length evs _).trans (congrArg _
      (x_glade.count_messages_eq_spec evs _ [] trivial (nested_of_balanced hb 0)))
  · exact (x_glade.run_length evs g).trans (congrArg _
      (x_glade.count_messages_eq_spec evs g [] trivial (nested_of_balanced hb 0)))
  · intro name attributes line hnone
    have hstart : x_glade.tracks (x_glade.start_element_handler g name attributes line)
        (x_glade.start_element_handler g name attributes line).stack_depth [""] := by
      rw [x_glade.start_element_handler_stack_depth]
      refine ⟨?_, by omega, trivial⟩
      rw [x_glade.start_element_handler_new g name attributes line _ rfl,
        (x_glade.call_start_element_frame _ _ name attributes line).2.2.1,
        x_glade.candidate_state_fields]
      rfl
    have hend := x_glade.run_tracks evs _ [""] hstart (nested_of_balanced hb 1)
    rw [hnone] at hend
    obtain ⟨h0, _, _⟩ := hend
    unfold x_glade.end_element_handler
    simp [h0]

/-- C16 on a Glade-2 document with a `property` holding `Hello`, a `property` without
character data, a `widget` holding `x` and an `atkaction` with a `description`: the
specification counts two tags and two records reach the sink. -/
theorem message_count_witness :
    balanced
      [xml_event.start_element "glade-interface" [] 1,
        xml_event.start_element "property" [("translatable", "yes")] 2,
        xml_event.character_data "Hello",
        xml_event.end_element "property",
        xml_event.start_element "property" [("translatable", "yes")] 3,
        xml_event.end_element "property",
        xml_event.start_element "widget" [] 4,
        xml_event.character_data "x",
        xml_event.end_element "widget",
        xml_event.start_element "atkaction" [("description", "Click")] 5,
        xml_event.end_element "atkaction",
        xml_event.end_element "glade-interface"]
    ∧ x_glade.spec_message_count
        { x_glade.process_start with mlp := [], stack_depth := 0 } []
        [xml_event.start_element "glade-interface" [] 1,
          xml_event.start_element "property" [("translatable", "yes")] 2,
          xml_event.character_data "Hello",
          xml_event.end_element "property",
          xml_event.start_element "property" [("translatable", "yes")] 3,
          xml_event.end_element "property",
          xml_event.start_element "widget" [] 4,
          xml_event.character_data "x",
          xml_event.end_element "widget",
          xml_event.start_element "atkaction" [("description", "Click")] 5,
          xml_event.end_element "atkaction",
          xml_event.end_element "glade-interface"] = 2
    ∧ (x_glade.do_extract_glade x_glade.process_start []
        [xml_event.start_element "glade-interface" [] 1,
          xml_event.start_element "property" [("translatable", "yes")] 2,
          xml_event.character_data "Hello",
          xml_event.end_element "property",
          xml_event.start_element "property" [("translatable", "yes")] 3,
          xml_event.end_element "property",
          xml_event.start_element "widget" [] 4,
          xml_event.character_data "x",
          xml_event.end_element "widget",
          xml_event.start_element "atkaction" [("description", "Click")] 5,
          xml_event.end_element "atkaction",
          xml_event.end_element "glade-interface"]).mlp.length = 2
    ∧ (x_glade.do_extract_glade x_glade.process_start []
        [xml_event.start_element "glade-interface" [] 1,
          xml_event.start_element "property" [("translatable", "yes")] 2,
          xml_event.character_data "Hello",
          xml_event.end_element "property",
          xml_event.start_element "property" [("translatable", "yes")] 3,
          xml_event.end_element "property",
          xml_event.start_element "widget" [] 4,
          xml_event.character_data "x",
          xml_event.end_element "widget",
          xml_event.start_element "atkaction" [("description", "Click")] 5,
          xml_event.end_element "atkaction",
          xml_event.end_element "glade-interface"]).mlp.map (fun m => m.msgid)
        = ["Hello", "Click"] :=
  have hdoc : balanced
      [xml_event.start_element "glade-interface" [] 1,
        xml_event.start_element "property" [("translatable", "yes")] 2,
        xml_event.character_data "Hello",
        xml_event.end_element "property",
        xml_event.start_element "property" [("translatable", "yes")] 3,
        xml_event.end_element "property",
        xml_event.start_element "widget" [] 4,
        xml_event.character_data "x",
        xml_event.end_element "widget",
        xml_event.start_element "atkaction" [("description", "Click")] 5,
        xml_event.end_element "atkaction",
        xml_event.end_element "glade-interface"] :=
    balanced.element "glade-interface" [] 1
      (balanced.element "property" [("translatable", "yes")] 2
        (balanced.character_data "Hello" balanced.nil)
        (balanced.element "property" [("translatable", "yes")] 3 balanced.nil
          (balanced.element "widget" [] 4 (balanced.character_data "x" balanced.nil)
            (balanced.element "atkaction" [("description", "Click")] 5 balanced.nil
              balanced.nil))))
      balanced.nil
  ⟨hdoc, by decide,
   ((message_count x_glade.process_start [] _ hdoc).1).trans (by decide),
   by decide⟩

/-- C19: for every document (a root element with balanced content) that starts at depth 0,
`check_file_type` is called on exactly one start-tag, the root; after every non-empty part
of the document the policy, the shape resolver and the candidate set are the ones
`check_file_type` bound for the root tag name, and these depend on that name (and on
`default_keywords`) only; a start-tag below the root, whatever its name, rebinds nothing. -/
theorem dialect_selected_once (g : x_glade.state) (r : String)
    (attributes : List (String × String)) (line : Nat) (body : List xml_event)
    (h0 : g.stack_depth = 0) (hb : balanced body) :
    x_glade.check_file_type_calls g
        (xml_event.start_element r attributes line :: (body ++ [xml_event.end_element r])) = 1
    ∧ (∀ pre suf : List xml_event,
        pre ++ suf
          = xml_event.start_element r attributes line :: (body ++ [xml_event.end_element r]) →
        pre ≠ [] →
        x_glade.same_config (x_glade.check_file_type g r) (x_glade.run g pre))
    ∧ (∀ g1 : x_glade.state, g1.default_keywords = g.default_keywords →
        (x_glade.check_file_type g1 r).tags = (x_glade.check_file_type g r).tags
        ∧ (x_glade.check_file_type g1 r).do_start_element
            = (x_glade.check_file_type g r).do_start_element
        ∧ (x_glade.check_file_type g1 r).get_shapes = (x_glade.check_file_type g r).get_shapes)
    ∧ (∀ (g1 : x_glade.state) (name : String) (attributes1 : List (String × String))
        (line1 : Nat), g1.stack_depth ≠ 0 →
        x_glade.same_config g1 (x_glade.start_element_handler g1 name attributes1 line1)) := by
  have hd1 : (x_glade.start_element_handler g r attributes line).stack_depth ≠ 0 := by
    rw [x_glade.start_element_handler_stack_depth]
    omega
  have hbelow := x_glade.element_events_below_root hb
    (x_glade.start_element_handler g r attributes line) hd1 r
  have hroot := x_glade.start_element_handler_root_config g r attributes line h0
  refine ⟨?_, ?_, fun g1 h => x_glade.check_file_type_binding g g1 r h,
    fun g1 name attributes1 line1 h =>
      x_glade.start_element_handler_same_config g1 name attributes1 line1 h⟩
  · simp only [x_glade.check_file_type_calls, h0, if_true]
    rw [(x_glade.run_below_root _ _ hbelow).2]
  · intro pre suf h hne
    cases pre with
    | nil => exact absurd rfl hne
    | cons e pre1 =>
      rw [List.cons_append, List.cons.injEq] at h
      obtain ⟨rfl, h⟩ := h
      rw [x_glade.run_cons]
      simp only [x_glade.handle_event]
      refine x_glade.same_config_trans hroot
        (x_glade.run_below_root pre1 _ (fun p1 e1 p2 hp => ?_)).1
      apply hbelow p1 e1 (p2 ++ suf)
      rw [← h, ← hp]
      simp

/-- Witness of C19: the program start and the document
`<glade-interface><interface>x</interface></glade-interface>`, whose nested `interface`
element leaves the Glade-2 policy bound. -/
theorem dialect_selected_once_witness :
    x_glade.process_start.stack_depth = 0
    ∧ balanced [xml_event.start_element "interface" [] 2, xml_event.character_data "x",
        xml_event.end_element "interface"]
    ∧ x_glade.check_file_type_calls x_glade.process_start
        (xml_event.start_element "glade-interface" [] 1
          :: ([xml_event.start_element "interface" [] 2, xml_event.character_data "x",
               xml_event.end_element "interface"]
              ++ [xml_event.end_element "glade-interface"])) = 1 :=
  ⟨rfl,
    balanced.element "interface" [] 2 (balanced.character_data "x" balanced.nil) balanced.nil,
    (dialect_selected_once x_glade.process_start "glade-interface" [] 1
      [xml_event.start_element "interface" [] 2, xml_event.character_data "x",
        xml_event.end_element "interface"] rfl
      (balanced.element "interface" [] 2 (balanced.character_data "x" balanced.nil)
        balanced.nil)).1⟩

/-- C18, as the claim states it, fails: with extract-all set, the balanced event sequence of
`<a>x</a><!--c-->` run from the program start yields the text `x` without comment lines,
and run again from the state the first run left yields it with the comment line `c`, which
was pending since the comment after the end-tag. -/
theorem idempotence_counterexample :
    balanced [xml_event.start_element "a" [] 1, xml_event.character_data "x",
      xml_event.end_element "a", xml_event.comment "c"]
    ∧ (x_glade.do_extract_glade (x_glade.x_glade_extract_all x_glade.process_start) []
        [xml_event.start_element "a" [] 1, xml_event.character_data "x",
          xml_event.end_element "a", xml_event.comment "c"]).mlp
      = [{ shapes := some (x_glade.get_glade_shapes "a" false)
           msgid := "x"
           msgctxt := none
           xcomment := none
           lineno := 1
           comment := [] }]
    ∧ (x_glade.do_extract_glade
        (x_glade.do_extract_glade (x_glade.x_glade_extract_all x_glade.process_start) []
          [xml_event.start_element "a" [] 1, xml_event.character_data "x",
            xml_event.end_element "a", xml_event.comment "c"])
        []
        [xml_event.start_element "a" [] 1, xml_event.character_data "x",
          xml_event.end_element "a", xml_event.comment "c"]).mlp
      = [{ shapes := some (x_glade.get_glade_shapes "a" false)
           msgid := "x"
           msgctxt := none
           xcomment := none
           lineno := 1
           comment := ["c"] }] :=
  ⟨balanced.element "a" [] 1 (balanced.character_data "x" balanced.nil)
      (balanced.comment "c" balanced.nil),
    by decide, by decide⟩

/-- C18, amended: for every balanced event sequence and fixed configuration, the ordered
list of records a run of the Glade engine hands to the sink does not depend on the stack
slots, stack size, depth, candidate set or dialect binding an earlier run left behind: two
starting states with the same keyword customisation and the same pending comment lines give
the same list. So after an earlier run that ended with an end-tag, which leaves no pending
comment line, the list is the one obtained from a state without pending comment lines,
such as the initial state. -/
theorem idempotence_across_runs (g1 g2 : x_glade.state) (mdlp mdlp0 : List message)
    (evs prev : List xml_event) (name : String) (hb : balanced evs)
    (h1 : g1.extract_all = g2.extract_all) (h2 : g1.keywords = g2.keywords)
    (h3 : g1.default_keywords = g2.default_keywords)
    (h4 : g1.savable_comment = g2.savable_comment) :
    (x_glade.do_extract_glade g1 mdlp evs).mlp = (x_glade.do_extract_glade g2 mdlp evs).mlp
    ∧ (g1.savable_comment = [] →
        (x_glade.do_extract_glade
          (x_glade.do_extract_glade g1 mdlp0 (prev ++ [xml_event.end_element name]))
          mdlp evs).mlp
        = (x_glade.do_extract_glade g1 mdlp evs).mlp) := by
  have key : ∀ k1 k2 : x_glade.state, k1.extract_all = k2.extract_all →
      k1.keywords = k2.keywords → k1.default_keywords = k2.default_keywords →
      k1.savable_comment = k2.savable_comment →
      (x_glade.do_extract_glade k1 mdlp evs).mlp
        = (x_glade.do_extract_glade k2 mdlp evs).mlp := by
    intro k1 k2 e1 e2 e3 e4
    unfold x_glade.do_extract_glade
    have hag : x_glade.agree { k1 with mlp := mdlp, stack_depth := 0 }
        { k2 with mlp := mdlp, stack_depth := 0 } :=
      ⟨e1, e2, e3, e4, rfl, rfl, fun h => absurd rfl h, fun i hi1 hi2 => by
        simp only at hi2
        omega⟩
    exact (x_glade.agree_run hb _ _ hag).2.2.2.2.1
  refine ⟨key g1 g2 h1 h2 h3 h4, fun hs => ?_⟩
  obtain ⟨c1, c2, c3⟩ := x_glade.run_keyword_config (prev ++ [xml_event.end_element name])
    { g1 with mlp := mdlp0, stack_depth := 0 }
  apply key
  · exact c1
  · exact c2
  · exact c3
  · unfold x_glade.do_extract_glade
    rw [x_glade.run_append, x_glade.run_cons, x_glade.run_nil, hs]
    rfl

/-- Witness of the amended C18: the document `<a>x</a>` run from the program start and from
the state left by the Glade-2 document `<glade-interface><property/></glade-interface>`. -/
theorem idempotence_across_runs_witness :
    balanced [xml_event.start_element "a" [] 1, xml_event.character_data "x",
      xml_event.end_element "a"]
    ∧ x_glade.process_start.savable_comment = []
    ∧ (x_glade.do_extract_glade
        (x_glade.do_extract_glade x_glade.process_start []
          ([xml_event.start_element "glade-interface" [] 1,
            xml_event.start_element "property" [] 2, xml_event.end_element "property"]
            ++ [xml_event.end_element "glade-interface"]))
        []
        [xml_event.start_element "a" [] 1, xml_event.character_data "x",
          xml_event.end_element "a"]).mlp
      = (x_glade.do_extract_glade x_glade.process_start []
          [xml_event.start_element "a" [] 1, xml_event.character_data "x",
            xml_event.end_element "a"]).mlp :=
  ⟨balanced.element "a" [] 1 (balanced.character_data "x" balanced.nil) balanced.nil, rfl,
    (idempotence_across_runs x_glade.process_start x_glade.process_start [] []
      [xml_event.start_element "a" [] 1, xml_event.character_data "x",
        xml_event.end_element "a"]
      [xml_event.start_element "glade-interface" [] 1,
        xml_event.start_element "property" [] 2, xml_event.end_element "property"]
      "glade-interface"
      (balanced.element "a" [] 1 (balanced.character_data "x" balanced.nil) balanced.nil)
      rfl rfl rfl rfl).2 rfl⟩


/-- C25: at the tag `property` (eight bytes) each of the four shape resolvers returns
`keyword_len = 7`, one less than the length of the tag, so the keyword read as `keyword_len`
bytes is `propert`, not the tag name. -/
theorem keyword_len_one_short :
    (x_glade.get_glade_shapes "property" false).keyword = "property"
    ∧ (x_glade.get_glade_shapes "property" false).keyword_len = 7
    ∧ (x_glade.get_glade2_shapes "property" false).keyword_len = 7
    ∧ (x_glade.get_gtkbuilder_shapes "property" false).keyword_len = 7
    ∧ (x_gsettings.get_shapes "property" false).keyword_len = 7
    ∧ "property".length = 8
    ∧ String.mk ((x_glade.get_glade_shapes "property" false).keyword.data.take
        (x_glade.get_glade_shapes "property" false).keyword_len) = "propert" := by
  decide

/-- C30: for `last` not beyond the length of `str`, `extract_quotation_marks str last` is
`str` itself unless `last > 0` and `str[0]`, `str[last]` are the same quotation mark; in that
case it is the `last - 1` characters `str[1 .. last-1]`. With `last` the length of `str`, as
`end_element_handler` calls it, `str[last]` is the terminating NUL and the result is `str`,
so the record emitted for a `default` element carries the buffer as it is. -/
theorem extract_quotation_marks_helper (str : String) (last : Nat)
    (hlast : last ≤ str.length) :
    (¬ (last > 0 ∧ ((c_index str 0 = dquote ∧ c_index str last = dquote)
          ∨ (c_index str 0 = squote ∧ c_index str last = squote))) →
        x_gsettings.extract_quotation_marks str last = str)
    ∧ ((last > 0 ∧ ((c_index str 0 = dquote ∧ c_index str last = dquote)
          ∨ (c_index str 0 = squote ∧ c_index str last = squote))) →
        (x_gsettings.extract_quotation_marks str last).length = last - 1
        ∧ ∀ i, i < last - 1 →
            c_index (x_gsettings.extract_quotation_marks str last) i = c_index str (i + 1))
    ∧ c_index str str.length = Char.ofNat 0
    ∧ x_gsettings.extract_quotation_marks str str.length = str
    ∧ ∀ (g : x_gsettings.state),
        (g.stack g.stack_depth).extract_string = true →
        (g.stack g.stack_depth).buffer = some str →
        (g.stack g.stack_depth).buflen = str.length →
        0 < str.length →
        ∃ m, (x_gsettings.end_element_handler g "default").mlp = g.mlp ++ [m]
          ∧ m.msgid = str := by
  have hnul : c_index str str.length = Char.ofNat 0 := by
    unfold c_index
    exact List.getD_eq_default _ _ (Nat.le_of_eq rfl)
  have hsame : x_gsettings.extract_quotation_marks str str.length = str := by
    unfold x_gsettings.extract_quotation_marks
    rw [hnul]
    have h1 : ¬ (Char.ofNat 0 = dquote) := by decide
    have h2 : ¬ (Char.ofNat 0 = squote) := by decide
    simp [h1, h2]
  refine ⟨?_, ?_, hnul, hsame, ?_⟩
  · intro h
    unfold x_gsettings.extract_quotation_marks
    by_cases h0 : last > 0
    · have h' : ¬ ((c_index str 0 = dquote ∧ c_index str last = dquote)
          ∨ (c_index str 0 = squote ∧ c_index str last = squote)) := fun hq => h ⟨h0, hq⟩
      rw [if_pos h0, if_neg h']
    · rw [if_neg h0]
  · intro h
    have hres : x_gsettings.extract_quotation_marks str last
        = String.mk ((str.data.drop 1).take (last - 1)) := by
      unfold x_gsettings.extract_quotation_marks
      rw [if_pos h.1, if_pos h.2]
    have hlen : str.data.length = str.length := rfl
    rw [hres]
    refine ⟨?_, ?_⟩
    · show ((str.data.drop 1).take (last - 1)).length = last - 1
      rw [List.length_take, List.length_drop]
      omega
    · intro i hi
      unfold c_index
      show ((str.data.drop 1).take (last - 1)).getD i (Char.ofNat 0)
        = str.data.getD (i + 1) (Char.ofNat 0)
      simp [List.getD_eq_getElem?_getD, List.getElem?_take, hi, Nat.add_comm]
  · intro g hes hbuf hbl hpos
    refine ⟨{ shapes := some (x_gsettings.get_shapes "default"
                  ((g.stack g.stack_depth).extracted_context != none))
              msgid := str
              msgctxt := (g.stack g.stack_depth).extracted_context
              xcomment := (g.stack g.stack_depth).extracted_comment
              lineno := (g.stack g.stack_depth).lineno
              comment := g.savable_comment }, ?_, rfl⟩
    simp [x_gsettings.end_element_handler, x_gsettings.store_message, hes, hbuf, hbl, hpos,
      hsame]

/-- C30 at the buffer `"a"b` with `last = 2`: the quotation marks at indices 0 and 2 are
recognised and the result is the single character `a`. -/
theorem extract_quotation_marks_helper_witness :
    (2 ≤ "\"a\"b".length)
    ∧ (x_gsettings.extract_quotation_marks "\"a\"b" 2).length = 2 - 1
    ∧ x_gsettings.extract_quotation_marks "\"a\"b" 2 = "a" :=
  ⟨by decide,
   ((extract_quotation_marks_helper "\"a\"b" 2 (by decide)).2.1
      ⟨by decide, Or.inl ⟨by decide, by decide⟩⟩).1,
   by decide⟩


/-- C26: `ensure_stack_size` called with request `n` at capacity `c` keeps `c` when `n ≤ c`
and otherwise makes the capacity `max (2 * c) n`; the capacity afterwards is at least `n`
and at least `c`. A start-tag makes the capacity `ensure_stack_size` of the new depth plus
one, so after a start-tag and any further events `stack_depth + 1 ≤ stack_size`, and every
handler keeps that bound: `stack[stack_depth]` and `stack[stack_depth - 1]` lie inside the
array. -/
theorem stack_growth (c n : Nat) :
    (n ≤ c → ensure_stack_size c n = c)
    ∧ (c < n → ensure_stack_size c n = max (2 * c) n)
    ∧ n ≤ ensure_stack_size c n
    ∧ c ≤ ensure_stack_size c n
    ∧ (∀ (g : x_glade.state) (name : String) (attributes : List (String × String))
        (line : Nat) (evs : List xml_event),
        (x_glade.start_element_handler g name attributes line).stack_size
            = ensure_stack_size g.stack_size
                ((x_glade.start_element_handler g name attributes line).stack_depth + 1)
        ∧ (x_glade.run (x_glade.start_element_handler g name attributes line) evs).stack_depth
              + 1
            ≤ (x_glade.run (x_glade.start_element_handler g name attributes line)
                evs).stack_size
        ∧ (x_glade.run (x_glade.start_element_handler g name attributes line) evs).stack_depth
              - 1
            < (x_glade.run (x_glade.start_element_handler g name attributes line)
                evs).stack_size)
    ∧ (∀ (g : x_glade.state) (e : xml_event), g.stack_depth + 1 ≤ g.stack_size →
        (x_glade.handle_event g e).stack_depth + 1 ≤ (x_glade.handle_event g e).stack_size) := by
  refine ⟨?_, ?_, ?_, ?_, ?_, x_glade.handle_event_stack_bound⟩
  · intro h
    unfold ensure_stack_size
    rw [if_neg (by omega)]
  · intro h
    unfold ensure_stack_size
    rw [if_pos (by omega)]
    simp only
    split_ifs <;> omega
  · unfold ensure_stack_size
    simp only
    split_ifs <;> omega
  · unfold ensure_stack_size
    simp only
    split_ifs <;> omega
  · intro g name attributes line evs
    have hb := x_glade.run_stack_bound evs _
      (x_glade.start_element_handler_stack_bound g name attributes line)
    refine ⟨?_, hb, by omega⟩
    rw [x_glade.start_element_handler_stack_size, x_glade.start_element_handler_stack_depth]

/-- C26 at capacity 4 and request 6: the capacity becomes `max (2 * 4) 6`, which is 8. -/
theorem stack_growth_witness :
    4 < 6 ∧ ensure_stack_size 4 6 = max (2 * 4) 6 ∧ ensure_stack_size 4 6 = 8 :=
  ⟨by decide, (stack_growth 4 6).2.1 (by decide), by decide⟩

/-- C28: one character-data event with text `s` adds the length of `s` to `buflen` of the
current state; when `s` is not empty and `buflen + len` exceeds `bufmax` the new `bufmax` is
`max (2 * bufmax) (buflen + len)`, otherwise `bufmax` is unchanged; `buflen ≤ bufmax` is
kept. After a start-tag and any sequence of character-data events `buflen` is the sum of
their lengths and `buflen ≤ bufmax`. With `buflen ≤ bufmax` the NUL written by
`end_element_handler` at index `buflen` lies inside the allocation, which is `buflen + 1`
bytes when `buflen = bufmax` and `bufmax` bytes otherwise. The same holds for the
character-data handler of x-gsettings.c. -/
theorem buffer_invariant :
    (∀ (g : x_glade.state) (s : String),
        ((x_glade.character_data_handler g s).stack g.stack_depth).buflen
            = (g.stack g.stack_depth).buflen + s.length
        ∧ (0 < s.length →
            (g.stack g.stack_depth).buflen + s.length > (g.stack g.stack_depth).bufmax →
            ((x_glade.character_data_handler g s).stack g.stack_depth).bufmax
              = max (2 * (g.stack g.stack_depth).bufmax)
                  ((g.stack g.stack_depth).buflen + s.length))
        ∧ (¬ (0 < s.length
              ∧ (g.stack g.stack_depth).buflen + s.length > (g.stack g.stack_depth).bufmax) →
            ((x_glade.character_data_handler g s).stack g.stack_depth).bufmax
              = (g.stack g.stack_depth).bufmax)
        ∧ ((g.stack g.stack_depth).buflen ≤ (g.stack g.stack_depth).bufmax →
            ((x_glade.character_data_handler g s).stack g.stack_depth).buflen
              ≤ ((x_glade.character_data_handler g s).stack g.stack_depth).bufmax))
    ∧ (∀ (g : x_glade.state) (name : String) (attributes : List (String × String))
        (line : Nat) (chunks : List String),
        ((x_glade.run (x_glade.start_element_handler g name attributes line)
            (chunks.map xml_event.character_data)).stack (g.stack_depth + 1)).buflen
          = (chunks.map String.length).sum
        ∧ ((x_glade.run (x_glade.start_element_handler g name attributes line)
            (chunks.map xml_event.character_data)).stack (g.stack_depth + 1)).buflen
          ≤ ((x_glade.run (x_glade.start_element_handler g name attributes line)
            (chunks.map xml_event.character_data)).stack (g.stack_depth + 1)).bufmax)
    ∧ (∀ p : x_glade.element_state, p.buflen ≤ p.bufmax →
        p.buflen < x_glade.terminator_allocation p
        ∧ (p.buflen = p.bufmax → x_glade.terminator_allocation p = p.buflen + 1)
        ∧ (p.buflen ≠ p.bufmax → x_glade.terminator_allocation p = p.bufmax))
    ∧ (∀ (g : x_gsettings.state) (s : String),
        ((x_gsettings.character_data_handler g s).stack g.stack_depth).buflen
            = (g.stack g.stack_depth).buflen + s.length
        ∧ (0 < s.length →
            (g.stack g.stack_depth).buflen + s.length > (g.stack g.stack_depth).bufmax →
            ((x_gsettings.character_data_handler g s).stack g.stack_depth).bufmax
              = max (2 * (g.stack g.stack_depth).bufmax)
                  ((g.stack g.stack_depth).buflen + s.length))
        ∧ (¬ (0 < s.length
              ∧ (g.stack g.stack_depth).buflen + s.length > (g.stack g.stack_depth).bufmax) →
            ((x_gsettings.character_data_handler g s).stack g.stack_depth).bufmax
              = (g.stack g.stack_depth).bufmax)
        ∧ ((g.stack g.stack_depth).buflen ≤ (g.stack g.stack_depth).bufmax →
            ((x_gsettings.character_data_handler g s).stack g.stack_depth).buflen
              ≤ ((x_gsettings.character_data_handler g s).stack g.stack_depth).bufmax))
    ∧ (∀ (g : x_gsettings.state) (name : String) (attributes : List (String × String))
        (line : Nat) (chunks : List String),
        ((x_gsettings.run (x_gsettings.start_element_handler g name attributes line)
            (chunks.map xml_event.character_data)).stack (g.stack_depth + 1)).buflen
          = (chunks.map String.length).sum
        ∧ ((x_gsettings.run (x_gsettings.start_element_handler g name attributes line)
            (chunks.map xml_event.character_data)).stack (g.stack_depth + 1)).buflen
          ≤ ((x_gsettings.run (x_gsettings.start_element_handler g name attributes line)
            (chunks.map xml_event.character_data)).stack (g.stack_depth + 1)).bufmax) := by
  refine ⟨?_, ?_, ?_, ?_, ?_⟩
  · intro g s
    have hb := x_glade.character_data_handler_buffer g s
    refine ⟨hb.1, ?_, ?_, hb.2.2⟩
    · intro hpos hgt
      rw [x_glade.character_data_handler_top g s hpos]
      simp only [if_pos hgt]
      split_ifs <;> omega
    · intro hn
      by_cases hpos : 0 < s.length
      · rw [x_glade.character_data_handler_top g s hpos]
        have hgt : ¬ ((g.stack g.stack_depth).buflen + s.length
            > (g.stack g.stack_depth).bufmax) := fun hgt => hn ⟨hpos, hgt⟩
        simp only [if_neg hgt]
      · rw [x_glade.character_data_handler_empty g s (by omega)]
  · intro g name attributes line chunks
    have hd := x_glade.start_element_handler_stack_depth g name attributes line
    have hnew := x_glade.start_element_handler_new g name attributes line _ rfl
    have hf := x_glade.call_start_element_frame
      (if g.stack_depth = 0 then x_glade.check_file_type g name else g)
      (x_glade.candidate_state (if g.stack_depth = 0 then x_glade.check_file_type g name else g)
        name line) name attributes line
    rw [x_glade.candidate_state_fields] at hf
    have hr := x_glade.run_chunks chunks (x_glade.start_element_handler g name attributes line)
    rw [hd, hnew] at hr
    rw [x_glade.candidate_state_fields] at hr
    rw [hf.2.2.1, hf.2.1] at hr
    exact ⟨by rw [hr.2.1]; simp, hr.2.2 (Nat.le_refl _)⟩
  · intro p hle
    unfold x_glade.terminator_allocation
    refine ⟨?_, fun h => by rw [if_pos h], fun h => by rw [if_neg h]⟩
    split_ifs <;> omega
  · intro g s
    have hb := x_gsettings.gs_character_data_handler_buffer g s
    refine ⟨hb.1, ?_, ?_, hb.2.2⟩
    · intro hpos hgt
      rw [x_gsettings.gs_character_data_handler_top g s hpos]
      simp only [if_pos hgt]
      split_ifs <;> omega
    · intro hn
      by_cases hpos : 0 < s.length
      · rw [x_gsettings.gs_character_data_handler_top g s hpos]
        have hgt : ¬ ((g.stack g.stack_depth).buflen + s.length
            > (g.stack g.stack_depth).bufmax) := fun hgt => hn ⟨hpos, hgt⟩
        simp only [if_neg hgt]
      · rw [x_gsettings.gs_character_data_handler_empty g s (by omega)]
  · intro g name attributes line chunks
    have hd := x_gsettings.gs_start_stack_depth g name attributes line
    have hnew := x_gsettings.gs_start_top g name attributes line
    have hf := x_gsettings.new_element_state_frame g name attributes line
    have hr := x_gsettings.gs_run_chunks chunks
      (x_gsettings.start_element_handler g name attributes line)
    rw [hd, hnew] at hr
    rw [hf.2.2.1, hf.2.1] at hr
    exact ⟨by rw [hr.2.1]; simp, hr.2.2 (Nat.le_refl _)⟩


/-- C28 at the initial state and the text `ab`: the buffer of the current state grows from
capacity 0 to `max (2 * 0) (0 + 2)` and holds two bytes. -/
theorem buffer_invariant_witness :
    (0 < "ab".length)
    ∧ ((x_glade.process_start.stack x_glade.process_start.stack_depth).buflen + "ab".length
        > (x_glade.process_start.stack x_glade.process_start.stack_depth).bufmax)
    ∧ ((x_glade.character_data_handler x_glade.process_start "ab").stack
          x_glade.process_start.stack_depth).bufmax
        = max (2 * (x_glade.process_start.stack x_glade.process_start.stack_depth).bufmax)
            ((x_glade.process_start.stack x_glade.process_start.stack_depth).buflen
              + "ab".length)
    ∧ ((x_glade.character_data_handler x_glade.process_start "ab").stack 0).bufmax = 2 :=
  ⟨by decide, by decide,
   (buffer_invariant.1 x_glade.process_start "ab").2.1 (by decide) (by decide),
   by decide⟩


/-- C22: a start-tag at depth `d` leaves in slot `d + 1` the result of the dialect policy
applied to a state whose members are all reset before the policy runs (`extract_string` is
`extract_all` or, when that is false, `is_tag (name)`; `extract_context` false; comment and
context absent; the line of the tag; buffer absent with `buflen` 0 and `bufmax` 0), whatever
the slot held before; buffer, `buflen`, `bufmax` and line are still so after the policy.
Slots below `d` are unchanged and slot `d` changes only in `extract_string`, which becomes
false. The same holds for the start-tag handler of x-gsettings.c, whose new state for a
non-candidate name is the reset state. -/
theorem push_frame :
    (∀ (g : x_glade.state) (name : String) (attributes : List (String × String))
        (line : Nat),
        x_glade.candidate_state
            (if g.stack_depth = 0 then x_glade.check_file_type g name else g) name line
          = { extract_string := g.extract_all
                || x_glade.is_tag
                    (if g.stack_depth = 0 then x_glade.check_file_type g name else g) name
              extract_context := false
              extracted_comment := none
              extracted_context := none
              lineno := line
              buffer := none
              bufmax := 0
              buflen := 0 }
        ∧ (x_glade.start_element_handler g name attributes line).stack (g.stack_depth + 1)
          = (x_glade.call_start_element
              (if g.stack_depth = 0 then x_glade.check_file_type g name else g)
              (x_glade.candidate_state
                (if g.stack_depth = 0 then x_glade.check_file_type g name else g) name line)
              name attributes line).1
        ∧ ((x_glade.start_element_handler g name attributes line).stack
            (g.stack_depth + 1)).buffer = none
        ∧ ((x_glade.start_element_handler g name attributes line).stack
            (g.stack_depth + 1)).buflen = 0
        ∧ ((x_glade.start_element_handler g name attributes line).stack
            (g.stack_depth + 1)).bufmax = 0
        ∧ ((x_glade.start_element_handler g name attributes line).stack
            (g.stack_depth + 1)).lineno = line
        ∧ (∀ v : x_glade.element_state,
            (x_glade.start_element_handler
                { g with stack := set_slot g.stack (g.stack_depth + 1) v }
                name attributes line).stack (g.stack_depth + 1)
              = (x_glade.start_element_handler g name attributes line).stack
                  (g.stack_depth + 1))
        ∧ (∀ i, i < g.stack_depth →
            (x_glade.start_element_handler g name attributes line).stack i = g.stack i)
        ∧ (x_glade.start_element_handler g name attributes line).stack g.stack_depth
          = { g.stack g.stack_depth with extract_string := false })
    ∧ (∀ (g : x_gsettings.state) (name : String) (attributes : List (String × String))
        (line : Nat),
        (x_gsettings.start_element_handler g name attributes line).stack (g.stack_depth + 1)
          = x_gsettings.new_element_state g name attributes line
        ∧ ((g.extract_all || x_gsettings.is_tag g name) = false →
            x_gsettings.new_element_state g name attributes line
              = { extract_string := false
                  extracted_comment := none
                  extracted_context := none
                  lineno := line
                  buffer := none
                  bufmax := 0
                  buflen := 0 })
        ∧ (x_gsettings.new_element_state g name attributes line).buffer = none
        ∧ (x_gsettings.new_element_state g name attributes line).buflen = 0
        ∧ (x_gsettings.new_element_state g name attributes line).bufmax = 0
        ∧ (x_gsettings.new_element_state g name attributes line).lineno = line
        ∧ (∀ v : x_gsettings.element_state,
            (x_gsettings.start_element_handler
                { g with stack := set_slot g.stack (g.stack_depth + 1) v }
                name attributes line).stack (g.stack_depth + 1)
              = (x_gsettings.start_element_handler g name attributes line).stack
                  (g.stack_depth + 1))
        ∧ (∀ i, i < g.stack_depth →
            (x_gsettings.start_element_handler g name attributes line).stack i = g.stack i)
        ∧ (x_gsettings.start_element_handler g name attributes line).stack g.stack_depth
          = { g.stack g.stack_depth with extract_string := false }) := by
  constructor
  · intro g name attributes line
    have hnew := x_glade.start_element_handler_new g name attributes line _ rfl
    have hf := x_glade.call_start_element_frame
      (if g.stack_depth = 0 then x_glade.check_file_type g name else g)
      (x_glade.candidate_state
        (if g.stack_depth = 0 then x_glade.check_file_type g name else g) name line)
      name attributes line
    have hc := x_glade.candidate_state_fields
      (if g.stack_depth = 0 then x_glade.check_file_type g name else g) name line
    have hx : (if g.stack_depth = 0 then x_glade.check_file_type g name else g).extract_all
        = g.extract_all := by
      by_cases h : g.stack_depth = 0 <;> simp [h]
    rw [hx] at hc
    refine ⟨hc, hnew, ?_, ?_, ?_, ?_,
      x_glade.start_element_handler_overwrites g name attributes line,
      x_glade.start_element_handler_below g name attributes line,
      x_glade.start_element_handler_parent_slot g name attributes line⟩
    · rw [hnew, hf.1, hc]
    · rw [hnew, hf.2.2.1, hc]
    · rw [hnew, hf.2.1, hc]
    · rw [hnew, hf.2.2.2, hc]
  · intro g name attributes line
    have hf := x_gsettings.new_element_state_frame g name attributes line
    exact ⟨x_gsettings.gs_start_top g name attributes line,
      x_gsettings.new_element_state_of_not_candidate g name attributes line,
      hf.1, hf.2.2.1, hf.2.1, hf.2.2.2,
      fun v => (x_gsettings.gs_start_top
          { g with stack := set_slot g.stack (g.stack_depth + 1) v } name attributes
          line).trans (x_gsettings.gs_start_top g name attributes line).symm,
      x_gsettings.gs_start_below g name attributes line,
      x_gsettings.gs_start_parent_slot g name attributes line⟩

/-- C22 on a slot that an earlier element left holding the text `old`: after the start-tag
of `property` at depth 1 in a Glade-2 document the slot at depth 2 is as if it had never
been used. -/
theorem push_frame_witness :
    ((x_glade.start_element_handler
        { (x_glade.check_file_type x_glade.process_start "glade-interface") with
          stack_depth := 1
          stack := set_slot x_glade.process_start.stack 2
            { extract_string := true, extract_context := true,
              extracted_context := some "c", extracted_comment := some "k", lineno := 7,
              buffer := some "old", bufmax := 8, buflen := 3 } }
        "property" [("translatable", "yes")] 3).stack 2)
      = { extract_string := true, extract_context := false, extracted_context := none,
          extracted_comment := none, lineno := 3, buffer := none, bufmax := 0, buflen := 0 } := by
  have h := (push_frame.1
    { (x_glade.check_file_type x_glade.process_start "glade-interface") with
      stack_depth := 1 } "property" [("translatable", "yes")] 3).2.2.2.2.2.2.1
    { extract_string := true, extract_context := true,
      extracted_context := some "c", extracted_comment := some "k", lineno := 7,
      buffer := some "old", bufmax := 8, buflen := 3 }
  refine Eq.trans h ?_
  decide


/-- C29: in a Glade-2 document (root `glade-interface`) the start-tag of an `atkaction`
element hands a record to the sink only if the element is a candidate before the policy
runs (extract-all is set or `is_tag ("atkaction")` holds) and it has a `description`
attribute. With default keywords disabled, `atkaction` not registered as a keyword and
extract-all off, neither its start-tag nor its end-tag hands anything to the sink. -/
theorem atkaction_guard (g : x_glade.state) (pre body : List xml_event)
    (attributes : List (String × String)) (line : Nat)
    (h0 : g.stack_depth = 0) (hpre : inside_root "glade-interface" pre)
    (hbody : balanced body) :
    ((x_glade.start_element_handler (x_glade.run g pre) "atkaction" attributes line).mlp
        ≠ (x_glade.run g pre).mlp →
      (g.extract_all = true ∨ x_glade.is_tag (x_glade.run g pre) "atkaction" = true)
      ∧ attributes.any (fun kv => decide (kv.1 = "description")) = true)
    ∧ (g.default_keywords = false → ¬ x_glade.registered g "atkaction" →
        g.extract_all = false →
        (x_glade.start_element_handler (x_glade.run g pre) "atkaction" attributes line).mlp
          = (x_glade.run g pre).mlp
        ∧ (x_glade.end_element_handler
            (x_glade.run
              (x_glade.start_element_handler (x_glade.run g pre) "atkaction" attributes line)
              body) "atkaction").mlp
          = (x_glade.run
              (x_glade.start_element_handler (x_glade.run g pre) "atkaction" attributes line)
              body).mlp) := by
  obtain ⟨hd, hc⟩ := x_glade.run_inside_root hpre g h0
  obtain ⟨c1, c2, c3, _, c5, _⟩ := hc
  rw [x_glade.check_file_type_extract_all] at c1
  rw [x_glade.check_file_type_keywords] at c2
  rw [x_glade.check_file_type_default_keywords] at c3
  rw [(x_glade.check_file_type_glade2 g).1] at c5
  have hlen := x_glade.call_start_element_length (x_glade.run g pre) "atkaction" attributes
    line
  have hmlp := x_glade.start_element_handler_mlp (x_glade.run g pre) "atkaction" attributes
    line hd
  have hcand := x_glade.candidate_state_extract_string (x_glade.run g pre) "atkaction" line
  have part1 : (x_glade.start_element_handler (x_glade.run g pre) "atkaction" attributes
        line).mlp ≠ (x_glade.run g pre).mlp →
      (g.extract_all = true ∨ x_glade.is_tag (x_glade.run g pre) "atkaction" = true)
      ∧ attributes.any (fun kv => decide (kv.1 = "description")) = true := by
    intro hne
    by_cases hcond : (decide ((x_glade.run g pre).do_start_element
            = x_glade.se_handler.glade2_start_element)
          && (x_glade.candidate_state (x_glade.run g pre) "atkaction" line).extract_string
          && decide ("atkaction" = "atkaction")
          && attributes.any (fun kv => decide (kv.1 = "description"))) = true
    · simp only [Bool.and_eq_true] at hcond
      obtain ⟨⟨⟨_, hcs⟩, _⟩, hany⟩ := hcond
      rw [hcand, c1] at hcs
      refine ⟨?_, hany⟩
      simpa using hcs
    · rw [if_neg hcond] at hlen
      have hnil := List.length_eq_zero.mp hlen
      rw [hnil, List.append_nil] at hmlp
      exact absurd hmlp hne
  refine ⟨part1, ?_⟩
  intro hdk hreg hx
  have htag : x_glade.is_tag (x_glade.run g pre) "atkaction" = false := by
    cases ht : x_glade.is_tag (x_glade.run g pre) "atkaction"
    · rfl
    · exfalso
      have hr := (x_glade.is_tag_of_not_default (x_glade.run g pre) "atkaction"
        (c3.trans hdk)).mp ht
      obtain ⟨t, hk, hm⟩ := hr
      exact hreg ⟨t, c2.symm.trans hk, hm⟩
  constructor
  · by_contra hne
    rcases (part1 hne).1 with h | h
    · rw [hx] at h; cases h
    · rw [htag] at h; cases h
  · obtain ⟨b1, _, b3, _⟩ := x_glade.run_balanced hbody
      (x_glade.start_element_handler (x_glade.run g pre) "atkaction" attributes line)
    apply x_glade.end_element_handler_mlp_of_not_extract
    rw [b1]
    apply b3
    rw [x_glade.start_element_handler_top _ _ _ _ hd]
    unfold x_glade.call_start_element
    rw [c5]
    simp only
    rw [x_glade.glade2_atkaction_extract_string, c1, hx]

/-- C29 with default keywords disabled by `x_glade_keyword (NULL)`: the start-tag of
`<atkaction description="Click me">` directly under `glade-interface` and the end-tag after
the text `x` hand nothing to the sink. -/
theorem atkaction_guard_witness :
    (x_glade.x_glade_keyword x_glade.process_start none).stack_depth = 0
    ∧ inside_root "glade-interface" [xml_event.start_element "glade-interface" [] 1]
    ∧ balanced [xml_event.character_data "x"]
    ∧ (x_glade.start_element_handler
          (x_glade.run (x_glade.x_glade_keyword x_glade.process_start none)
            [xml_event.start_element "glade-interface" [] 1])
          "atkaction" [("description", "Click me")] 2).mlp
        = (x_glade.run (x_glade.x_glade_keyword x_glade.process_start none)
            [xml_event.start_element "glade-interface" [] 1]).mlp :=
  ⟨rfl, inside_root.root [] 1, balanced.character_data "x" balanced.nil,
   ((atkaction_guard (x_glade.x_glade_keyword x_glade.process_start none)
      [xml_event.start_element "glade-interface" [] 1] [xml_event.character_data "x"]
      [("description", "Click me")] 2 rfl (inside_root.root [] 1)
      (balanced.character_data "x" balanced.nil)).2 (by decide)
      (by rintro ⟨t, hk, _⟩; cases hk) (by decide)).1⟩


/-- C21: an element whose content holds a child element (balanced content before it, the
child with balanced content, balanced content after it) hands nothing to the sink at its own
end-tag, whatever the configuration, its attributes and the character data around the child;
from the push of the child on, at every point of the rest of the content, `extract_string`
of the parent's state is false. -/
theorem leaf_only_extraction (g : x_glade.state) (name : String)
    (attributes : List (String × String)) (line : Nat) (pre : List xml_event)
    (cname : String) (cattributes : List (String × String)) (cline : Nat)
    (cbody post : List xml_event)
    (hpre : balanced pre) (hcbody : balanced cbody) (hpost : balanced post) :
    (x_glade.end_element_handler
        (x_glade.run (x_glade.start_element_handler g name attributes line)
          (pre ++ xml_event.start_element cname cattributes cline
            :: (cbody ++ xml_event.end_element cname :: post))) name).mlp
      = (x_glade.run (x_glade.start_element_handler g name attributes line)
          (pre ++ xml_event.start_element cname cattributes cline
            :: (cbody ++ xml_event.end_element cname :: post))).mlp
    ∧ (∀ p1 p2, p1 ++ p2 = cbody ++ xml_event.end_element cname :: post →
        ((x_glade.run (x_glade.start_element_handler g name attributes line)
            (pre ++ xml_event.start_element cname cattributes cline :: p1)).stack
          (g.stack_depth + 1)).extract_string = false) := by
  have hd1 := x_glade.start_element_handler_stack_depth g name attributes line
  have hd2 := (x_glade.run_balanced hpre
    (x_glade.start_element_handler g name attributes line)).1
  rw [hd1] at hd2
  have key : ∀ p1 p2, p1 ++ p2 = cbody ++ xml_event.end_element cname :: post →
      ((x_glade.run (x_glade.start_element_handler g name attributes line)
          (pre ++ xml_event.start_element cname cattributes cline :: p1)).stack
        (g.stack_depth + 1)).extract_string = false := by
    intro p1 p2 hsplit
    rw [x_glade.run_append, x_glade.run_cons]
    have := x_glade.run_after_child
      (x_glade.run (x_glade.start_element_handler g name attributes line) pre)
      cname cattributes cline cbody post hcbody hpost p1 p2 hsplit
    rw [hd2] at this
    exact this
  refine ⟨?_, key⟩
  apply x_glade.end_element_handler_mlp_of_not_extract
  have hdepth : (x_glade.run (x_glade.start_element_handler g name attributes line)
      (pre ++ xml_event.start_element cname cattributes cline
        :: (cbody ++ xml_event.end_element cname :: post))).stack_depth
      = g.stack_depth + 1 := by
    rw [x_glade.run_append]
    rw [(x_glade.run_depth (balanced.element cname cattributes cline hcbody hpost) _).1]
    exact hd2
  rw [hdepth]
  exact key _ [] (List.append_nil _)

/-- C21 on `<property translatable="yes">a<b/>c</property>` inside `glade-interface`: the
end-tag of `property` hands nothing to the sink although the element is a candidate with
character data before and after the child. -/
theorem leaf_only_extraction_witness :
    balanced [xml_event.character_data "a"] ∧ balanced [] ∧ balanced [xml_event.character_data "c"]
    ∧ (x_glade.end_element_handler
        (x_glade.run
          (x_glade.start_element_handler
            (x_glade.run x_glade.process_start
              [xml_event.start_element "glade-interface" [] 1])
            "property" [("translatable", "yes")] 2)
          ([xml_event.character_data "a"] ++ xml_event.start_element "b" [] 3
            :: ([] ++ xml_event.end_element "b" :: [xml_event.character_data "c"])))
        "property").mlp = [] :=
  ⟨balanced.character_data "a" balanced.nil, balanced.nil,
   balanced.character_data "c" balanced.nil,
   (leaf_only_extraction
      (x_glade.run x_glade.process_start [xml_event.start_element "glade-interface" [] 1])
      "property" [("translatable", "yes")] 2 [xml_event.character_data "a"] "b" [] 3 []
      [xml_event.character_data "c"] (balanced.character_data "a" balanced.nil) balanced.nil
      (balanced.character_data "c" balanced.nil)).1.trans (by decide)⟩


/-- C27: for an element with balanced content whose end-tag hands a record to the sink,
under the GtkBuilder binding the shape passed to `store_message` has
`argnumc = MSGCTXT_ARGNUM` exactly when the record carries a context; this rests on the
policy leaving `extract_context` true exactly when `extracted_context` is present. Under the
Glade-1 and Glade-2 bindings the record carries no context and `argnumc` is 0, and the
records handed over at a start-tag carry no context either. In x-gsettings.c the shape of
every record handed over at an end-tag has `argnumc = MSGCTXT_ARGNUM` exactly when the
record carries a context. -/
theorem context_slot_consistency :
    (∀ (g : x_glade.state) (name : String) (attributes : List (String × String))
        (line : Nat) (body : List xml_event) (m : message),
        balanced body →
        (x_glade.end_element_handler
            (x_glade.run (x_glade.start_element_handler g name attributes line) body)
            name).mlp
          = (x_glade.run (x_glade.start_element_handler g name attributes line) body).mlp
              ++ [m] →
        (((if g.stack_depth = 0 then x_glade.check_file_type g name else g).do_start_element
              = x_glade.se_handler.gtkbuilder_start_element
            ∧ (if g.stack_depth = 0 then x_glade.check_file_type g name else g).get_shapes
              = x_glade.shapes_handler.get_gtkbuilder_shapes) →
          ∃ sh, m.shapes = some sh
            ∧ (sh.shapes0.argnumc = MSGCTXT_ARGNUM ↔ m.msgctxt ≠ none))
        ∧ ((if g.stack_depth = 0 then x_glade.check_file_type g name else g).do_start_element
              ≠ x_glade.se_handler.gtkbuilder_start_element →
            m.msgctxt = none)
        ∧ ((if g.stack_depth = 0 then x_glade.check_file_type g name else g).get_shapes
              ≠ x_glade.shapes_handler.get_gtkbuilder_shapes →
            ∃ sh, m.shapes = some sh ∧ sh.shapes0.argnumc = 0))
    ∧ (∀ (g : x_glade.state) (name : String) (attributes : List (String × String))
        (line : Nat),
        ((x_glade.gtkbuilder_start_element g (x_glade.candidate_state g name line) name
            attributes line).1.extract_context = true
          ↔ (x_glade.gtkbuilder_start_element g (x_glade.candidate_state g name line) name
            attributes line).1.extracted_context ≠ none)
        ∧ ∀ m ∈ (x_glade.call_start_element g (x_glade.candidate_state g name line) name
            attributes line).2, m.msgctxt = none)
    ∧ (∀ (tag : String) (b : Bool),
        (x_glade.get_glade_shapes tag b).shapes0.argnumc = 0
        ∧ (x_glade.get_glade2_shapes tag b).shapes0.argnumc = 0)
    ∧ (∀ (g : x_gsettings.state) (name : String) (m : message),
        (x_gsettings.end_element_handler g name).mlp = g.mlp ++ [m] →
        ∃ sh, m.shapes = some sh
          ∧ (sh.shapes0.argnumc = MSGCTXT_ARGNUM ↔ m.msgctxt ≠ none)) := by
  have hM : MSGCTXT_ARGNUM = 2 := rfl
  refine ⟨?_, ?_, fun tag b => ⟨rfl, rfl⟩, ?_⟩
  · intro g name attributes line body m hbody hm
    obtain ⟨_, _, hmsg⟩ := x_glade.end_element_handler_message _ name m hm
    obtain ⟨b1, _, _, b4⟩ := x_glade.run_balanced hbody
      (x_glade.start_element_handler g name attributes line)
    obtain ⟨t1, t2, _, _⟩ := x_glade.run_balanced_top hbody
      (x_glade.start_element_handler g name attributes line)
    have hd := x_glade.start_element_handler_stack_depth g name attributes line
    rw [hd] at b1 t1 t2 b4
    have hnew := x_glade.start_element_handler_new g name attributes line _ rfl
    rw [hnew] at t1 t2
    have hcfg := (b4 (by omega)).2.2.2.2.2
    have hshape : (x_glade.start_element_handler g name attributes line).get_shapes
        = (if g.stack_depth = 0 then x_glade.check_file_type g name else g).get_shapes := by
      rw [x_glade.start_element_handler_eq g name attributes line _ rfl]
    rw [hshape] at hcfg
    have hcand := x_glade.candidate_state_fields
      (if g.stack_depth = 0 then x_glade.check_file_type g name else g) name line
    obtain ⟨c1, c2, _⟩ := x_glade.call_start_element_context
      (if g.stack_depth = 0 then x_glade.check_file_type g name else g)
      (x_glade.candidate_state
        (if g.stack_depth = 0 then x_glade.check_file_type g name else g) name line)
      name attributes line (by rw [hcand]) (by rw [hcand])
    have hctx : m.msgctxt
        = (x_glade.call_start_element
            (if g.stack_depth = 0 then x_glade.check_file_type g name else g)
            (x_glade.candidate_state
              (if g.stack_depth = 0 then x_glade.check_file_type g name else g) name line)
            name attributes line).1.extracted_context := by
      rw [hmsg]
      simp only [x_glade.store_message]
      rw [b1, t2]
    have hsh : m.shapes
        = some (x_glade.call_get_shapes
            (x_glade.run (x_glade.start_element_handler g name attributes line) body) name
            (x_glade.call_start_element
              (if g.stack_depth = 0 then x_glade.check_file_type g name else g)
              (x_glade.candidate_state
                (if g.stack_depth = 0 then x_glade.check_file_type g name else g) name line)
              name attributes line).1.extract_context) := by
      rw [hmsg]
      simp only [x_glade.store_message]
      rw [b1, t1]
    refine ⟨?_, ?_, ?_⟩
    · rintro ⟨hpol, hget⟩
      refine ⟨_, hsh, ?_⟩
      rw [hctx, ← c1 hpol]
      unfold x_glade.call_get_shapes
      rw [hcfg, hget]
      simp only [x_glade.get_gtkbuilder_shapes]
      rw [hM]
      cases (x_glade.call_start_element
        (if g.stack_depth = 0 then x_glade.check_file_type g name else g)
        (x_glade.candidate_state
          (if g.stack_depth = 0 then x_glade.check_file_type g name else g) name line)
        name attributes line).1.extract_context <;> simp
    · intro hpol
      rw [hctx]
      exact c2 hpol
    · intro hget
      refine ⟨_, hsh, ?_⟩
      unfold x_glade.call_get_shapes
      rw [hcfg]
      cases hs : (if g.stack_depth = 0 then x_glade.check_file_type g name else g).get_shapes
      · rfl
      · rfl
      · exact absurd hs hget
  · intro g name attributes line
    have hcand := x_glade.candidate_state_fields g name line
    refine ⟨?_, (x_glade.call_start_element_context g (x_glade.candidate_state g name line)
      name attributes line (by rw [hcand]) (by rw [hcand])).2.2⟩
    unfold x_glade.gtkbuilder_start_element
    simp only
    split_ifs <;> simp [hcand]
  · intro g name m hm
    obtain ⟨_, _, hs, hc, _⟩ := x_gsettings.gs_end_element_handler_message g name m hm
    refine ⟨_, hs, ?_⟩
    rw [hc]
    simp only [x_gsettings.get_shapes]
    rw [hM]
    cases (g.stack g.stack_depth).extracted_context <;> simp


/-- C27 on `<property translatable="yes" context="c">x</property>` inside `interface`: the
record carries the context `c` and its shape has `argnumc = MSGCTXT_ARGNUM`. -/
theorem context_slot_consistency_witness :
    balanced [xml_event.character_data "x"]
    ∧ (x_glade.end_element_handler
        (x_glade.run
          (x_glade.start_element_handler
            (x_glade.run x_glade.process_start [xml_event.start_element "interface" [] 1])
            "property" [("translatable", "yes"), ("context", "c")] 2)
          [xml_event.character_data "x"]) "property").mlp
      = (x_glade.run
          (x_glade.start_element_handler
            (x_glade.run x_glade.process_start [xml_event.start_element "interface" [] 1])
            "property" [("translatable", "yes"), ("context", "c")] 2)
          [xml_event.character_data "x"]).mlp
        ++ [{ shapes := some (x_glade.get_gtkbuilder_shapes "property" true)
              msgid := "x"
              msgctxt := some "c"
              xcomment := none
              lineno := 2
              comment := [] }]
    ∧ ∃ sh, (some (x_glade.get_gtkbuilder_shapes "property" true)) = some sh
        ∧ (sh.shapes0.argnumc = MSGCTXT_ARGNUM ↔ (some "c" : Option String) ≠ none) :=
  ⟨balanced.character_data "x" balanced.nil, by decide,
   (context_slot_consistency.1
      (x_glade.run x_glade.process_start [xml_event.start_element "interface" [] 1])
      "property" [("translatable", "yes"), ("context", "c")] 2
      [xml_event.character_data "x"]
      { shapes := some (x_glade.get_gtkbuilder_shapes "property" true)
        msgid := "x"
        msgctxt := some "c"
        xcomment := none
        lineno := 2
        comment := [] }
      (balanced.character_data "x" balanced.nil) (by decide)).1 ⟨by decide, by decide⟩⟩


/-- C23: for an element without child elements (its content is character data and comments)
that is eligible after its start-tag and whose character data is not empty, the end-tag
hands to the sink one record whose text is the concatenation, in order, of the texts of the
character-data events of the content, unchanged. Replacing anywhere a character-data event
carrying `s ++ t` by two events carrying `s` and `t` leaves the list of records unchanged,
and a character-data event of length 0 leaves the whole state unchanged. -/
theorem emitted_text_is_concatenation (g : x_glade.state) (name : String)
    (attributes : List (String × String)) (line : Nat) (content : List xml_event)
    (hleaf : leaf_content content = true)
    (helig : ((x_glade.start_element_handler g name attributes line).stack
        (g.stack_depth + 1)).extract_string = true)
    (htext : 0 < (character_data_of content).length) :
    (x_glade.end_element_handler
        (x_glade.run (x_glade.start_element_handler g name attributes line) content)
        name).mlp
      = (x_glade.start_element_handler g name attributes line).mlp
        ++ [{ shapes := some (x_glade.call_get_shapes
                (x_glade.start_element_handler g name attributes line) name
                ((x_glade.start_element_handler g name attributes line).stack
                  (g.stack_depth + 1)).extract_context)
              msgid := character_data_of content
              msgctxt := ((x_glade.start_element_handler g name attributes line).stack
                  (g.stack_depth + 1)).extracted_context
              xcomment := ((x_glade.start_element_handler g name attributes line).stack
                  (g.stack_depth + 1)).extracted_comment
              lineno := line
              comment := (x_glade.run (x_glade.start_element_handler g name attributes line)
                  content).savable_comment }]
    ∧ (∀ (g0 : x_glade.state) (pre rest : List xml_event) (s t : String),
        (x_glade.run g0 (pre ++ xml_event.character_data (s ++ t) :: rest)).mlp
          = (x_glade.run g0
              (pre ++ xml_event.character_data s :: xml_event.character_data t :: rest)).mlp)
    ∧ (∀ (g0 : x_glade.state) (pre rest : List xml_event) (s : String), s.length = 0 →
        x_glade.run g0 (pre ++ xml_event.character_data s :: rest)
          = x_glade.run g0 (pre ++ rest)) := by
  refine ⟨?_, ?_, ?_⟩
  · have hbal := leaf_content_balanced content hleaf
    have hd := x_glade.start_element_handler_stack_depth g name attributes line
    obtain ⟨b1, _, _, b4⟩ := x_glade.run_balanced hbal
      (x_glade.start_element_handler g name attributes line)
    obtain ⟨t1, t2, t3, t4⟩ := x_glade.run_balanced_top hbal
      (x_glade.start_element_handler g name attributes line)
    obtain ⟨l1, l2, l3, l4⟩ := x_glade.run_leaf content hleaf
      (x_glade.start_element_handler g name attributes line)
    rw [hd] at b1 b4 t1 t2 t3 t4 l2 l3 l4
    have hnew := x_glade.start_element_handler_new g name attributes line _ rfl
    have hf := x_glade.call_start_element_frame
      (if g.stack_depth = 0 then x_glade.check_file_type g name else g)
      (x_glade.candidate_state
        (if g.stack_depth = 0 then x_glade.check_file_type g name else g) name line)
      name attributes line
    rw [← hnew, x_glade.candidate_state_fields] at hf
    obtain ⟨f1, _, f3, f4⟩ := hf
    simp only at f1 f3 f4
    rw [f1] at l3
    rw [f3] at l4
    rw [helig] at l2
    have hl : 0 < ((x_glade.run (x_glade.start_element_handler g name attributes line)
        content).stack (x_glade.run (x_glade.start_element_handler g name attributes line)
        content).stack_depth).buflen := by
      rw [b1, l4]
      omega
    have he : ((x_glade.run (x_glade.start_element_handler g name attributes line)
        content).stack (x_glade.run (x_glade.start_element_handler g name attributes line)
        content).stack_depth).extract_string = true := by
      rw [b1, l2]
    rw [x_glade.end_element_handler_emits _ name he hl, l1]
    have hshape := (b4 (by omega)).2.2.2.2.2
    simp only [x_glade.store_message, x_glade.call_get_shapes]
    rw [b1, t1, t2, t3, t4, l3, f4, hshape]
    simp
  · intro g0 pre rest s t
    rw [x_glade.run_append, x_glade.run_append, x_glade.run_cons, x_glade.run_cons,
      x_glade.run_cons]
    exact x_glade.run_mlp_of_forget rest _ _
      (x_glade.character_data_handler_split (x_glade.run g0 pre) s t)
  · intro g0 pre rest s hs
    rw [x_glade.run_append, x_glade.run_append, x_glade.run_cons]
    simp only [x_glade.handle_event]
    rw [x_glade.character_data_handler_empty _ s hs]

/-- C23 on `<property translatable="yes"> <!--c-->a b</property>` inside `glade-interface`,
delivered as the chunks ` `, `a` and ` b` around a comment: the text of the record is
` a b`, blanks included. -/
theorem emitted_text_is_concatenation_witness :
    leaf_content [xml_event.character_data " ", xml_event.comment "c",
      xml_event.character_data "a", xml_event.character_data " b"] = true
    ∧ 0 < (character_data_of [xml_event.character_data " ", xml_event.comment "c",
      xml_event.character_data "a", xml_event.character_data " b"]).length
    ∧ (x_glade.end_element_handler
        (x_glade.run
          (x_glade.start_element_handler
            (x_glade.run x_glade.process_start
              [xml_event.start_element "glade-interface" [] 1])
            "property" [("translatable", "yes")] 2)
          [xml_event.character_data " ", xml_event.comment "c",
            xml_event.character_data "a", xml_event.character_data " b"])
        "property").mlp
      = [{ shapes := some (x_glade.get_glade2_shapes "property" false)
           msgid := " a b"
           msgctxt := none
           xcomment := none
           lineno := 2
           comment := ["c"] }] :=
  ⟨by decide, by decide,
   (emitted_text_is_concatenation
      (x_glade.run x_glade.process_start [xml_event.start_element "glade-interface" [] 1])
      "property" [("translatable", "yes")] 2
      [xml_event.character_data " ", xml_event.comment "c",
        xml_event.character_data "a", xml_event.character_data " b"]
      (by decide) (by decide) (by decide)).1.trans (by decide)⟩


/-- C24: with the pending comment lines modelled as the list `savable_comment`, in both
files the list is empty after every end-tag, whether or not a record was handed to the sink,
and after every start-tag whose element ends up not eligible. Hence the records handed to
the sink by the events after an end-tag, or after the start-tag of an element that is not
eligible, are the same whatever comment lines were pending before that tag: comment lines
reach only a record handed over before the next such tag. -/
theorem pending_comment_reset :
    (∀ (g : x_glade.state) (name : String),
        (x_glade.end_element_handler g name).savable_comment = [])
    ∧ (∀ (g : x_glade.state) (name : String) (attributes : List (String × String))
        (line : Nat),
        ((x_glade.start_element_handler g name attributes line).stack
            (g.stack_depth + 1)).extract_string = false →
        (x_glade.start_element_handler g name attributes line).savable_comment = [])
    ∧ (∀ (g : x_glade.state) (name : String) (c : List String) (rest : List xml_event),
        ∃ new,
          (x_glade.run (x_glade.end_element_handler g name) rest).mlp
            = (x_glade.end_element_handler g name).mlp ++ new
          ∧ (x_glade.run (x_glade.end_element_handler { g with savable_comment := c } name)
              rest).mlp
            = (x_glade.end_element_handler { g with savable_comment := c } name).mlp ++ new)
    ∧ (∀ (g : x_glade.state) (name : String) (attributes : List (String × String))
        (line : Nat) (c : List String) (rest : List xml_event),
        ((x_glade.start_element_handler g name attributes line).stack
            (g.stack_depth + 1)).extract_string = false →
        ∃ new,
          (x_glade.run (x_glade.start_element_handler g name attributes line) rest).mlp
            = (x_glade.start_element_handler g name attributes line).mlp ++ new
          ∧ (x_glade.run
              (x_glade.start_element_handler { g with savable_comment := c } name attributes
                line) rest).mlp
            = (x_glade.start_element_handler { g with savable_comment := c } name attributes
                line).mlp ++ new)
    ∧ (∀ (g : x_gsettings.state) (name : String),
        (x_gsettings.end_element_handler g name).savable_comment = [])
    ∧ (∀ (g : x_gsettings.state) (name : String) (attributes : List (String × String))
        (line : Nat),
        ((x_gsettings.start_element_handler g name attributes line).stack
            (g.stack_depth + 1)).extract_string = false →
        (x_gsettings.start_element_handler g name attributes line).savable_comment = [])
    ∧ (∀ (g : x_gsettings.state) (name : String) (c : List String) (rest : List xml_event),
        ∃ new,
          (x_gsettings.run (x_gsettings.end_element_handler g name) rest).mlp
            = (x_gsettings.end_element_handler g name).mlp ++ new
          ∧ (x_gsettings.run
              (x_gsettings.end_element_handler { g with savable_comment := c } name)
              rest).mlp
            = (x_gsettings.end_element_handler { g with savable_comment := c } name).mlp
                ++ new)
    ∧ (∀ (g : x_gsettings.state) (name : String) (attributes : List (String × String))
        (line : Nat) (c : List String) (rest : List xml_event),
        ((x_gsettings.start_element_handler g name attributes line).stack
            (g.stack_depth + 1)).extract_string = false →
        ∃ new,
          (x_gsettings.run (x_gsettings.start_element_handler g name attributes line)
              rest).mlp
            = (x_gsettings.start_element_handler g name attributes line).mlp ++ new
          ∧ (x_gsettings.run
              (x_gsettings.start_element_handler { g with savable_comment := c } name
                attributes line) rest).mlp
            = (x_gsettings.start_element_handler { g with savable_comment := c } name
                attributes line).mlp ++ new) := by
  refine ⟨fun _ _ => rfl, ?_, ?_, ?_, fun _ _ => rfl, ?_, ?_, ?_⟩
  · intro g name attributes line h
    exact (x_glade.start_element_handler_comment_reset g name attributes line [] h).1
  · intro g name c rest
    exact x_glade.run_after_reset _ _ rest
      (x_glade.end_element_handler_comment_reset g name c).symm
  · intro g name attributes line c rest h
    exact x_glade.run_after_reset _ _ rest
      (x_glade.start_element_handler_comment_reset g name attributes line c h).2.symm
  · intro g name attributes line h
    exact (x_gsettings.gs_start_element_handler_comment_reset g name attributes line [] h).1
  · intro g name c rest
    exact x_gsettings.gs_run_after_reset _ _ rest
      (x_gsettings.gs_end_element_handler_comment_reset g name c).symm
  · intro g name attributes line c rest h
    exact x_gsettings.gs_run_after_reset _ _ rest
      (x_gsettings.gs_start_element_handler_comment_reset g name attributes line c h).2.symm

/-- C24 on a comment followed by the start-tag of `widget`, which is not eligible in a
Glade-2 document with the default keywords: the pending line `c` is gone after the
start-tag. -/
theorem pending_comment_reset_witness :
    ((x_glade.start_element_handler
        (x_glade.run x_glade.process_start
          [xml_event.start_element "glade-interface" [] 1, xml_event.comment "c"])
        "widget" [] 2).stack
      ((x_glade.run x_glade.process_start
          [xml_event.start_element "glade-interface" [] 1, xml_event.comment "c"]).stack_depth
        + 1)).extract_string = false
    ∧ (x_glade.run x_glade.process_start
          [xml_event.start_element "glade-interface" [] 1,
            xml_event.comment "c"]).savable_comment = ["c"]
    ∧ (x_glade.start_element_handler
        (x_glade.run x_glade.process_start
          [xml_event.start_element "glade-interface" [] 1, xml_event.comment "c"])
        "widget" [] 2).savable_comment = [] :=
  ⟨by decide, by decide,
   pending_comment_reset.2.1
     (x_glade.run x_glade.process_start
       [xml_event.start_element "glade-interface" [] 1, xml_event.comment "c"])
     "widget" [] 2 (by decide)⟩
